import Mathlib

/-!
# Phase orchestration of `internal/build`

A shallow embedding of `phase_config_provider.go`, `phases.go` and `phase_factory.go`, of the
test double `fakes/fake_phase_factory.go`, and of `layer/windows_writer.go`.

* Go strings are `String`, slices are `List`, `map[string]string` is an
  association list.
* A Go `error` is a `GoError`; `nil` is `none`.
* The calls the package makes on its collaborators (credential resolution, the
  phase factory, the phase) are recorded, with their results, in a call log that
  is threaded through the functions together with the collaborators' own state.
* `semver.MustParse` panics on an unparsable string; a panic is `Exec.panic`.
-/

namespace build

/-! ## Constants of `phases.go` -/

def layersDir : String := "/layers"
def appDir : String := "/workspace"
def cacheDir : String := "/cache"
def launchCacheDir : String := "/launch-cache"
def platformDir : String := "/platform"

/-! ## Go values -/

/-- A non-nil Go `error`: either an error made elsewhere, or `errors.Wrap(err, message)`. -/
inductive GoError where
  | base (msg : String)
  | Wrap (err : GoError) (message : String)
  deriving DecidableEq, Repr

/-- The result of `auth.BuildEnvVar`: the serialized credentials, or an error. -/
inductive AuthResult where
  | ok (authConfig : String)
  | fail (err : GoError)
  deriving DecidableEq, Repr

/-- Outcome of a Go function that may panic instead of returning. -/
inductive Exec (α : Type) where
  | ret (a : α)
  | panic
  deriving DecidableEq, Repr

/-- The fields of docker's `container.Config` that the package touches. -/
structure ContainerConfig where
  Cmd : List String
  Labels : List (String × String)
  Image : String
  User : String
  Env : List String
  deriving DecidableEq, Repr

/-- The fields of docker's `container.HostConfig` that the package touches. -/
structure HostConfig where
  Binds : List String
  NetworkMode : String
  deriving DecidableEq, Repr

/-- The struct `PhaseConfigProvider`. -/
structure PhaseConfigProvider where
  ctrConf : ContainerConfig
  hostConf : HostConfig
  deriving DecidableEq, Repr

/-- One call made on a collaborator, with what the collaborator returned. -/
inductive Call where
  | BuildEnvVar (repos : List String) (result : AuthResult)
  | New (name : String) (provider : PhaseConfigProvider) (phaseReturned : Bool)
      (err : Option GoError)
  | Run (err : Option GoError)
  | Cleanup (err : Option GoError)
  deriving DecidableEq, Repr

/-- State threaded through the package: the collaborators' own state and the log of the
calls made on them, oldest first. -/
structure Sys (W : Type) where
  world : W
  calls : List Call

/-- A state with an empty call log. -/
def Sys.init {W : Type} (w : W) : Sys W :=
  { world := w, calls := [] }

/-- The providers handed to the phase factory, with the phase names, oldest first. -/
def handed : List Call → List (String × PhaseConfigProvider)
  | [] => []
  | Call.New name provider _ _ :: rest => (name, provider) :: handed rest
  | _ :: rest => handed rest

/-- Number of `Run` calls in a log. -/
def runCount : List Call → Nat
  | [] => 0
  | Call.Run _ :: rest => runCount rest + 1
  | _ :: rest => runCount rest

/-- Number of `Cleanup` calls in a log. -/
def cleanupCount : List Call → Nat
  | [] => 0
  | Call.Cleanup _ :: rest => cleanupCount rest + 1
  | _ :: rest => cleanupCount rest

/-! ## Imported packages and interfaces -/

/-- The two functions of `github.com/Masterminds/semver` that `withLogLevel` calls.
`MustParse` returns `none` where the library panics; `LessThan a b` is `a.LessThan(b)`. -/
structure SemverPkg (V : Type) where
  MustParse : String → Option V
  LessThan : V → V → Bool

/-- The function `auth.BuildEnvVar(authn.DefaultKeychain, repos...)` of
`github.com/buildpacks/lifecycle/auth`, reading (and possibly changing) outside state. -/
structure AuthPkg (W : Type) where
  BuildEnvVar : List String → W → AuthResult × W

/-- The interface `RunnerCleaner`. The `context.Context` argument of `Run` is left out. -/
structure RunnerCleaner (W : Type) where
  Run : W → Option GoError × W
  Cleanup : W → Option GoError × W

/-- The interface `PhaseFactory`. `New` returns a (possibly nil) phase and a (possibly nil)
error. -/
structure PhaseFactory (W : Type) where
  New : String → PhaseConfigProvider → W → (Option (RunnerCleaner W) × Option GoError) × W

/-- The logger, of which only `IsVerbose()` is used. -/
structure Logger where
  IsVerbose : Bool
  deriving DecidableEq, Repr

/-- The builder image, of which `Name()`, `UID` and `GID` are used. -/
structure Builder where
  Name : String
  UID : Int
  GID : Int
  deriving DecidableEq, Repr

/-- Modelled from the spec: the struct `Lifecycle` is declared outside the files at hand; these
are the fields the files at hand read (the docker client and the one-time guard are left
out). -/
structure Lifecycle where
  builder : Builder
  logger : Logger
  appPath : String
  httpProxy : String
  httpsProxy : String
  noProxy : String
  version : String
  LayersVolume : String
  AppVolume : String
  deriving DecidableEq, Repr

/-! ## `phase_config_provider.go` -/

/-- The type `PhaseConfigProviderOperation`, `func(*PhaseConfigProvider) error`: it may change
the provider and the outside state, and returns an error or nil. -/
abbrev PhaseConfigProviderOperation (W : Type) :=
  PhaseConfigProvider → Sys W → Option GoError × PhaseConfigProvider × Sys W

/-- The loop `for _, op := range ops { if err := op(p); err != nil { return ... } }` of
`NewPhaseConfigProvider` and `Update`; the error is returned as `op` gave it. -/
def rangeOps {W : Type} (ops : List (PhaseConfigProviderOperation W))
    (provider : PhaseConfigProvider) (s : Sys W) : Option GoError × PhaseConfigProvider × Sys W :=
  match ops with
  | [] => (none, provider, s)
  | op :: rest =>
    match op provider s with
    | (some err, provider1, s1) => (some err, provider1, s1)
    | (none, provider1, s1) => rangeOps rest provider1 s1

/-- The provider as `NewPhaseConfigProvider` sets it up before applying any operation. -/
def newProvider (name : String) : PhaseConfigProvider :=
  { ctrConf :=
      { Cmd := ["/cnb/lifecycle/" ++ name]
        Labels := [("author", "pack")]
        Image := ""
        User := ""
        Env := [] }
    hostConf := { Binds := [], NetworkMode := "" } }

/-- The function `NewPhaseConfigProvider`: `(provider, nil)` is `Except.ok provider`,
`(nil, err)` is `Except.error err`. -/
def NewPhaseConfigProvider {W : Type} (name : String)
    (ops : List (PhaseConfigProviderOperation W)) (s : Sys W) :
    Except GoError PhaseConfigProvider × Sys W :=
  match rangeOps ops (newProvider name) s with
  | (some err, _, s1) => (Except.error (GoError.Wrap err "create phase config"), s1)
  | (none, provider, s1) => (Except.ok provider, s1)

/-- The method `PhaseConfigProvider.Update`. -/
def PhaseConfigProvider.Update {W : Type} (p : PhaseConfigProvider)
    (ops : List (PhaseConfigProviderOperation W)) (s : Sys W) :
    Option GoError × PhaseConfigProvider × Sys W :=
  match rangeOps ops p s with
  | (some err, p1, s1) => (some (GoError.Wrap err "update phase config"), p1, s1)
  | (none, p1, s1) => (none, p1, s1)

def WithArgs {W : Type} (args : List String) : PhaseConfigProviderOperation W :=
  fun provider s =>
    (none,
      { provider with ctrConf := { provider.ctrConf with Cmd := provider.ctrConf.Cmd ++ args } },
      s)

def WithBinds {W : Type} (binds : List String) : PhaseConfigProviderOperation W :=
  fun provider s =>
    (none,
      { provider with
        hostConf := { provider.hostConf with Binds := provider.hostConf.Binds ++ binds } },
      s)

def WithDaemonAccess {W : Type} : PhaseConfigProviderOperation W :=
  fun provider s =>
    (none,
      { ctrConf := { provider.ctrConf with User := "root" }
        hostConf :=
          { provider.hostConf with
            Binds := provider.hostConf.Binds ++ ["/var/run/docker.sock:/var/run/docker.sock"] } },
      s)

/-- The three `if lifecycle.xProxy != ""` blocks of `WithLifecycle`, applied to an env list. -/
def proxyEnv (lifecycle : Lifecycle) (env : List String) : List String :=
  let env1 :=
    if lifecycle.httpProxy ≠ "" then
      (env ++ ["HTTP_PROXY=" ++ lifecycle.httpProxy]) ++ ["http_proxy=" ++ lifecycle.httpProxy]
    else env
  let env2 :=
    if lifecycle.httpsProxy ≠ "" then
      (env1 ++ ["HTTPS_PROXY=" ++ lifecycle.httpsProxy]) ++ ["https_proxy=" ++ lifecycle.httpsProxy]
    else env1
  if lifecycle.noProxy ≠ "" then
    (env2 ++ ["NO_PROXY=" ++ lifecycle.noProxy]) ++ ["no_proxy=" ++ lifecycle.noProxy]
  else env2

def WithLifecycle {W : Type} (lifecycle : Lifecycle) : PhaseConfigProviderOperation W :=
  fun provider s =>
    (none,
      { provider with
        ctrConf :=
          { provider.ctrConf with
            Image := lifecycle.builder.Name
            Env := proxyEnv lifecycle provider.ctrConf.Env } },
      s)

def WithNetwork {W : Type} (networkMode : String) : PhaseConfigProviderOperation W :=
  fun provider s =>
    (none, { provider with hostConf := { provider.hostConf with NetworkMode := networkMode } }, s)

def WithRegistryAccess {W : Type} (auth : AuthPkg W) (repos : List String) :
    PhaseConfigProviderOperation W :=
  fun provider s =>
    match auth.BuildEnvVar repos s.world with
    | (AuthResult.fail err, w) =>
      (some err, provider,
        { world := w, calls := s.calls ++ [Call.BuildEnvVar repos (AuthResult.fail err)] })
    | (AuthResult.ok authConfig, w) =>
      (none,
        { ctrConf :=
            { provider.ctrConf with
              Env := provider.ctrConf.Env ++ ["CNB_REGISTRY_AUTH=" ++ authConfig] }
          hostConf := { provider.hostConf with NetworkMode := "host" } },
        { world := w, calls := s.calls ++ [Call.BuildEnvVar repos (AuthResult.ok authConfig)] })

def WithRoot {W : Type} : PhaseConfigProviderOperation W :=
  fun provider s =>
    (none, { provider with ctrConf := { provider.ctrConf with User := "root" } }, s)

/-! ## `phases.go` -/

def prependArg (arg : String) (args : List String) : List String :=
  [arg] ++ args

/-- The method `Lifecycle.withLogLevel`. `semver.MustParse(l.version)` is evaluated first, then
`semver.MustParse("0.4.0")`; either may panic. -/
def Lifecycle.withLogLevel {V : Type} (semver : SemverPkg V) (l : Lifecycle)
    (args : List String) : Exec (List String) :=
  match semver.MustParse l.version with
  | none => Exec.panic
  | some version =>
    match semver.MustParse "0.4.0" with
    | none => Exec.panic
    | some v040 =>
      if semver.LessThan v040 version then
        if l.logger.IsVerbose then Exec.ret (["-log-level", "debug"] ++ args)
        else Exec.ret args
      else Exec.ret args

/-- The call `phaseFactory.New(phaseName, configProvider)`, recorded in the call log. -/
def PhaseFactory.invoke {W : Type} (phaseFactory : PhaseFactory W) (name : String)
    (provider : PhaseConfigProvider) (s : Sys W) :
    (Option (RunnerCleaner W) × Option GoError) × Sys W :=
  match phaseFactory.New name provider s.world with
  | ((phase, err), w) =>
    ((phase, err), { world := w, calls := s.calls ++ [Call.New name provider phase.isSome err] })

/-- The last two statements of every phase operation, `defer x.Cleanup()` and
`return x.Run(ctx)`: `Run` is called, then the deferred `Cleanup`, whose result is dropped; the
value returned is the one `Run` gave. A nil phase has no method to call: the operation
panics. -/
def deferCleanupRun {W : Type} (phase : Option (RunnerCleaner W)) (s : Sys W) :
    Exec (Option GoError) × Sys W :=
  match phase with
  | none => (Exec.panic, s)
  | some x =>
    match x.Run s.world with
    | (runErr, w1) =>
      match x.Cleanup w1 with
      | (cleanupErr, w2) =>
        (Exec.ret runErr,
          { world := w2, calls := s.calls ++ [Call.Run runErr, Call.Cleanup cleanupErr] })

/-- The statements from `x, err := phaseFactory.New(...)` to the end of a phase operation. -/
def newThenRun {W : Type} (phaseFactory : PhaseFactory W) (phaseName : String)
    (configProvider : PhaseConfigProvider) (s : Sys W) : Exec (Option GoError) × Sys W :=
  match phaseFactory.invoke phaseName configProvider s with
  | ((_, some err), s1) => (Exec.ret (some err), s1)
  | ((phase, none), s1) => deferCleanupRun phase s1

def Lifecycle.Detect {V W : Type} (semver : SemverPkg V) (l : Lifecycle) (networkMode : String)
    (volumes : List String) (phaseFactory : PhaseFactory W) (s : Sys W) :
    Exec (Option GoError) × Sys W :=
  let phaseName := "detector"
  match l.withLogLevel semver ["-app", appDir, "-platform", platformDir] with
  | Exec.panic => (Exec.panic, s)
  | Exec.ret logged =>
    match NewPhaseConfigProvider phaseName
        [WithArgs logged, WithNetwork networkMode, WithBinds volumes] s with
    | (Except.error err, s1) => (Exec.ret (some err), s1)
    | (Except.ok configProvider, s1) => newThenRun phaseFactory phaseName configProvider s1

def Lifecycle.Restore {V W : Type} (semver : SemverPkg V) (l : Lifecycle) (cacheName : String)
    (phaseFactory : PhaseFactory W) (s : Sys W) : Exec (Option GoError) × Sys W :=
  let phaseName := "restorer"
  match l.withLogLevel semver ["-cache-dir", cacheDir, "-layers", layersDir] with
  | Exec.panic => (Exec.panic, s)
  | Exec.ret logged =>
    match NewPhaseConfigProvider phaseName
        [WithDaemonAccess, WithArgs logged, WithBinds [cacheName ++ ":" ++ cacheDir]] s with
    | (Except.error err, s1) => (Exec.ret (some err), s1)
    | (Except.ok configProvider, s1) => newThenRun phaseFactory phaseName configProvider s1

def Lifecycle.newAnalyze {V W : Type} (semver : SemverPkg V) (auth : AuthPkg W) (l : Lifecycle)
    (repoName cacheName : String) (publish clearCache : Bool) (phaseFactory : PhaseFactory W)
    (s : Sys W) : Exec (Option (RunnerCleaner W) × Option GoError) × Sys W :=
  let args0 := ["-layers", layersDir, repoName]
  let args :=
    if clearCache then prependArg "-skip-layers" args0 else ["-cache-dir", cacheDir] ++ args0
  let phaseName := "analyzer"
  if publish then
    match NewPhaseConfigProvider phaseName
        [WithRegistryAccess auth [repoName], WithRoot, WithArgs args,
          WithBinds [cacheName ++ ":" ++ cacheDir]] s with
    | (Except.error err, s1) => (Exec.ret (none, some err), s1)
    | (Except.ok configProvider, s1) =>
      match phaseFactory.invoke phaseName configProvider s1 with
      | (r, s2) => (Exec.ret r, s2)
  else
    match l.withLogLevel semver (prependArg "-daemon" args) with
    | Exec.panic => (Exec.panic, s)
    | Exec.ret logged =>
      match NewPhaseConfigProvider phaseName
          [WithDaemonAccess, WithArgs logged, WithBinds [cacheName ++ ":" ++ cacheDir]] s with
      | (Except.error err, s1) => (Exec.ret (none, some err), s1)
      | (Except.ok configProvider, s1) =>
        match phaseFactory.invoke phaseName configProvider s1 with
        | (r, s2) => (Exec.ret r, s2)

def Lifecycle.Analyze {V W : Type} (semver : SemverPkg V) (auth : AuthPkg W) (l : Lifecycle)
    (repoName cacheName : String) (publish clearCache : Bool) (phaseFactory : PhaseFactory W)
    (s : Sys W) : Exec (Option GoError) × Sys W :=
  match l.newAnalyze semver auth repoName cacheName publish clearCache phaseFactory s with
  | (Exec.panic, s1) => (Exec.panic, s1)
  | (Exec.ret (_, some err), s1) => (Exec.ret (some err), s1)
  | (Exec.ret (analyze, none), s1) => deferCleanupRun analyze s1

def Lifecycle.Build {W : Type} (_l : Lifecycle) (networkMode : String) (volumes : List String)
    (phaseFactory : PhaseFactory W) (s : Sys W) : Exec (Option GoError) × Sys W :=
  let phaseName := "builder"
  match NewPhaseConfigProvider phaseName
      [WithArgs ["-layers", layersDir, "-app", appDir, "-platform", platformDir],
        WithNetwork networkMode, WithBinds volumes] s with
  | (Except.error err, s1) => (Exec.ret (some err), s1)
  | (Except.ok configProvider, s1) => newThenRun phaseFactory phaseName configProvider s1

def Lifecycle.newExport {V W : Type} (semver : SemverPkg V) (auth : AuthPkg W) (l : Lifecycle)
    (repoName runImage : String) (publish : Bool) (launchCacheName cacheName : String)
    (phaseFactory : PhaseFactory W) (s : Sys W) :
    Exec (Option (RunnerCleaner W) × Option GoError) × Sys W :=
  let args := ["-image", runImage, "-cache-dir", cacheDir, "-layers", layersDir, "-app", appDir,
    repoName]
  let binds := [cacheName ++ ":" ++ cacheDir]
  let phaseName := "exporter"
  if publish then
    match l.withLogLevel semver args with
    | Exec.panic => (Exec.panic, s)
    | Exec.ret logged =>
      match NewPhaseConfigProvider phaseName
          [WithRegistryAccess auth [repoName, runImage], WithArgs logged, WithRoot,
            WithBinds binds] s with
      | (Except.error err, s1) => (Exec.ret (none, some err), s1)
      | (Except.ok configProvider, s1) =>
        match phaseFactory.invoke phaseName configProvider s1 with
        | (r, s2) => (Exec.ret r, s2)
  else
    let args1 := ["-daemon", "-launch-cache", launchCacheDir] ++ args
    let binds1 := binds ++ [launchCacheName ++ ":" ++ launchCacheDir]
    match l.withLogLevel semver args1 with
    | Exec.panic => (Exec.panic, s)
    | Exec.ret logged =>
      match NewPhaseConfigProvider phaseName
          [WithDaemonAccess, WithArgs logged, WithBinds binds1] s with
      | (Except.error err, s1) => (Exec.ret (none, some err), s1)
      | (Except.ok configProvider, s1) =>
        match phaseFactory.invoke phaseName configProvider s1 with
        | (r, s2) => (Exec.ret r, s2)

def Lifecycle.Export {V W : Type} (semver : SemverPkg V) (auth : AuthPkg W) (l : Lifecycle)
    (repoName runImage : String) (publish : Bool) (launchCacheName cacheName : String)
    (phaseFactory : PhaseFactory W) (s : Sys W) : Exec (Option GoError) × Sys W :=
  match l.newExport semver auth repoName runImage publish launchCacheName cacheName
      phaseFactory s with
  | (Exec.panic, s1) => (Exec.panic, s1)
  | (Exec.ret (_, some err), s1) => (Exec.ret (some err), s1)
  | (Exec.ret (exportPhase, none), s1) => deferCleanupRun exportPhase s1

/-! ## The provider contract in the words of the specification -/

/-- The left fold of the specification: every operation is applied to the state its predecessors
left, whatever it returns. -/
def foldOps {W : Type} (ops : List (PhaseConfigProviderOperation W))
    (st : PhaseConfigProvider × Sys W) : PhaseConfigProvider × Sys W :=
  ops.foldl (fun st op => (op st.1 st.2).2) st

/-- Whether every operation of the list succeeds when the list is applied from `st`. -/
def allSucceed {W : Type} (ops : List (PhaseConfigProviderOperation W))
    (st : PhaseConfigProvider × Sys W) : Bool :=
  match ops with
  | [] => true
  | op :: rest => (op st.1 st.2).1.isNone && allSucceed rest (op st.1 st.2).2

/-! ## Concrete collaborators, for the worked instances -/

/-- Splits a character list at every full stop. -/
def splitOnDot : List Char → List (List Char)
  | [] => [[]]
  | c :: cs =>
    if c = '.' then [] :: splitOnDot cs
    else
      match splitOnDot cs with
      | [] => [[c]]
      | seg :: segs => (c :: seg) :: segs

/-- The number a non-empty run of decimal digits denotes. -/
def segmentValue (seg : List Char) : Option Nat :=
  if seg ≠ [] ∧ seg.all Char.isDigit = true then
    some (seg.foldl (fun n c => n * 10 + (c.toNat - 48)) 0)
  else none

/-- A small stand-in for the semver library: versions `MAJOR.MINOR.PATCH`, ordered
lexicographically. -/
def tripleSemver : SemverPkg (Nat × Nat × Nat) where
  MustParse := fun s =>
    match (splitOnDot s.toList).map segmentValue with
    | [some a, some b, some c] => some (a, b, c)
    | _ => none
  LessThan := fun a b =>
    decide (a.1 < b.1 ∨ (a.1 = b.1 ∧ (a.2.1 < b.2.1 ∨ (a.2.1 = b.2.1 ∧ a.2.2 < b.2.2))))

/-- A credential resolver that always answers `r`. -/
def fixedAuth (r : AuthResult) : AuthPkg Unit where
  BuildEnvVar := fun _ w => (r, w)

/-- A phase whose `Run` and `Cleanup` answer `runErr` and `cleanupErr`. -/
def fixedPhase (runErr cleanupErr : Option GoError) : RunnerCleaner Unit where
  Run := fun w => (runErr, w)
  Cleanup := fun w => (cleanupErr, w)

/-- A factory that always answers `(phase, err)`. -/
def fixedFactory (phase : Option (RunnerCleaner Unit)) (err : Option GoError) :
    PhaseFactory Unit where
  New := fun _ _ w => ((phase, err), w)

/-- A lifecycle with the given version and verbosity, and no proxy. -/
def sampleLifecycle (version : String) (verbose : Bool) : Lifecycle :=
  { builder := { Name := "some-builder", UID := 1000, GID := 1000 }
    logger := { IsVerbose := verbose }
    appPath := "some-app"
    httpProxy := ""
    httpsProxy := ""
    noProxy := ""
    version := version
    LayersVolume := "some-layers"
    AppVolume := "some-app-volume" }

/-! ## The five phase operations as one function -/

/-- A phase operation of `Lifecycle` together with its arguments (the context and the factory
apart). -/
inductive PhaseOp where
  | Detect (networkMode : String) (volumes : List String)
  | Restore (cacheName : String)
  | Analyze (repoName cacheName : String) (publish clearCache : Bool)
  | Build (networkMode : String) (volumes : List String)
  | Export (repoName runImage : String) (publish : Bool) (launchCacheName cacheName : String)
  deriving DecidableEq, Repr

/-- Runs the chosen phase operation. -/
def PhaseOp.run {V W : Type} (semver : SemverPkg V) (auth : AuthPkg W) (l : Lifecycle)
    (phaseFactory : PhaseFactory W) (op : PhaseOp) (s : Sys W) : Exec (Option GoError) × Sys W :=
  match op with
  | PhaseOp.Detect networkMode volumes => l.Detect semver networkMode volumes phaseFactory s
  | PhaseOp.Restore cacheName => l.Restore semver cacheName phaseFactory s
  | PhaseOp.Analyze repoName cacheName publish clearCache =>
    l.Analyze semver auth repoName cacheName publish clearCache phaseFactory s
  | PhaseOp.Build networkMode volumes => l.Build networkMode volumes phaseFactory s
  | PhaseOp.Export repoName runImage publish launchCacheName cacheName =>
    l.Export semver auth repoName runImage publish launchCacheName cacheName phaseFactory s

/-- Whether the operation was called with `publish = true` (only `Analyze` and `Export` have the
flag). -/
def PhaseOp.publish : PhaseOp → Bool
  | PhaseOp.Analyze _ _ publish _ => publish
  | PhaseOp.Export _ _ publish _ _ => publish
  | _ => false

/-! ## `phase_factory.go` -/

/-- Modelled from the spec: the struct `Phase` is declared outside the files at hand; these are
the fields `DefaultPhaseFactory.New` sets (the docker client and the one-time guard are left
out). -/
structure Phase where
  ctrConf : ContainerConfig
  hostConf : HostConfig
  name : String
  logger : Logger
  uid : Int
  gid : Int
  appPath : String
  deriving DecidableEq, Repr

/-- The struct `DefaultPhaseFactory`. -/
structure DefaultPhaseFactory where
  lifecycle : Lifecycle
  deriving DecidableEq, Repr

def NewDefaultPhaseFactory (lifecycle : Lifecycle) : DefaultPhaseFactory :=
  { lifecycle := lifecycle }

/-- The method `DefaultPhaseFactory.New`. Besides `(phase, nil)` or `(nil, err)` it gives the
provider as `Update` left it, since `Update` works on the caller's provider. -/
def DefaultPhaseFactory.New {W : Type} (m : DefaultPhaseFactory) (name : String)
    (provider : PhaseConfigProvider) (s : Sys W) :
    Except GoError Phase × PhaseConfigProvider × Sys W :=
  match provider.Update
      [WithLifecycle m.lifecycle,
        WithBinds [m.lifecycle.LayersVolume ++ ":" ++ layersDir,
          m.lifecycle.AppVolume ++ ":" ++ appDir]] s with
  | (some err, provider1, s1) => (Except.error err, provider1, s1)
  | (none, provider1, s1) =>
    (Except.ok
        { ctrConf := provider1.ctrConf
          hostConf := provider1.hostConf
          name := name
          logger := m.lifecycle.logger
          uid := m.lifecycle.builder.UID
          gid := m.lifecycle.builder.GID
          appPath := m.lifecycle.appPath },
      provider1, s1)

/-! ## The built-in operations as one type -/

/-- The seven operation constructors of `phase_config_provider.go`, with their arguments. -/
inductive BuiltinOp where
  | WithArgs (args : List String)
  | WithBinds (binds : List String)
  | WithDaemonAccess
  | WithLifecycle (lifecycle : Lifecycle)
  | WithNetwork (networkMode : String)
  | WithRegistryAccess (repos : List String)
  | WithRoot
  deriving DecidableEq, Repr

/-- The operation a constructor call yields. -/
def BuiltinOp.toOp {W : Type} (auth : AuthPkg W) : BuiltinOp → PhaseConfigProviderOperation W
  | BuiltinOp.WithArgs args => build.WithArgs args
  | BuiltinOp.WithBinds binds => build.WithBinds binds
  | BuiltinOp.WithDaemonAccess => build.WithDaemonAccess
  | BuiltinOp.WithLifecycle lifecycle => build.WithLifecycle lifecycle
  | BuiltinOp.WithNetwork networkMode => build.WithNetwork networkMode
  | BuiltinOp.WithRegistryAccess repos => build.WithRegistryAccess auth repos
  | BuiltinOp.WithRoot => build.WithRoot

/-- The lists a provider holds. -/
inductive ListField where
  | Cmd
  | Env
  | Binds
  deriving DecidableEq, Repr

/-- The list an operation appends to, if it appends at all. -/
def BuiltinOp.appendsTo : BuiltinOp → Option ListField
  | BuiltinOp.WithArgs _ => some ListField.Cmd
  | BuiltinOp.WithBinds _ => some ListField.Binds
  | BuiltinOp.WithDaemonAccess => some ListField.Binds
  | BuiltinOp.WithLifecycle _ => some ListField.Env
  | BuiltinOp.WithRegistryAccess _ => some ListField.Env
  | BuiltinOp.WithNetwork _ => none
  | BuiltinOp.WithRoot => none

/-- The string `s` begins with the string `start`. -/
def beginsWith (start s : String) : Prop :=
  start.toList <+: s.toList

instance (start s : String) : Decidable (beginsWith start s) :=
  inferInstanceAs (Decidable (start.toList <+: s.toList))

/-! ## Vocabulary of the later claims -/

/-- Whether the operation calls `withLogLevel`: all do but `Build` and `Analyze` with
`publish = true`. -/
def PhaseOp.usesLogLevel : PhaseOp → Bool
  | PhaseOp.Build _ _ => false
  | PhaseOp.Analyze _ _ publish _ => !publish
  | _ => true

/-- The calls of a log that were made on the phase factory and on the phase, in order. -/
def factoryPhaseCalls : List Call → List Call
  | [] => []
  | Call.BuildEnvVar _ _ :: rest => factoryPhaseCalls rest
  | c :: rest => c :: factoryPhaseCalls rest

/-- The network mode an operation sets, if it sets one. -/
def BuiltinOp.setsNetwork : BuiltinOp → Option String
  | BuiltinOp.WithNetwork networkMode => some networkMode
  | BuiltinOp.WithRegistryAccess _ => some "host"
  | _ => none

/-- Whether the operation sets the user (to `root`). -/
def BuiltinOp.setsRoot : BuiltinOp → Bool
  | BuiltinOp.WithRoot => true
  | BuiltinOp.WithDaemonAccess => true
  | _ => false

/-- An operation a caller can write: it sets the user, then fails. -/
def failingSetUser {W : Type} : PhaseConfigProviderOperation W :=
  fun provider s =>
    (some (GoError.base "boom"),
      { provider with ctrConf := { provider.ctrConf with User := "changed" } }, s)

end build

/-! ## `fakes/fake_phase_factory.go` -/

namespace fakes

/-- The least value of a Go `int` where it is 64 bits wide (`math.MinInt64`). -/
def MinInt64 : Int := -9223372036854775808

/-- The greatest value of a Go `int` where it is 64 bits wide (`math.MaxInt64`). -/
def MaxInt64 : Int := 9223372036854775807

/-- Go's `int` arithmetic wraps around in two's complement: the 64-bit `int` that stands for the
exact result `n`. -/
def wrapInt (n : Int) : Int :=
  (n + 9223372036854775808) % 18446744073709551616 - 9223372036854775808

/-- The struct `FakePhaseFactory`. `NewCallCount` is a Go `int`, 64 bits wide: an `Int` between
`MinInt64` and `MaxInt64`, whose arithmetic goes through `wrapInt`. The field is exported, so a
test may set it to any such value. A nil `ReturnForNew` or `NewCalledWithProvider` is `none`. -/
structure FakePhaseFactory (W : Type) where
  NewCallCount : Int
  ReturnForNew : Option (build.RunnerCleaner W)
  NewCalledWithName : String
  NewCalledWithProvider : Option build.PhaseConfigProvider

/-- The function `NewFakePhaseFactory`. The `&FakePhase{}` it starts from is declared outside the
files at hand and is the argument `fakePhase`. -/
def NewFakePhaseFactory {W : Type} (fakePhase : build.RunnerCleaner W)
    (ops : List (FakePhaseFactory W → FakePhaseFactory W)) : FakePhaseFactory W :=
  ops.foldl (fun fakePhaseFactory op => op fakePhaseFactory)
    { NewCallCount := 0
      ReturnForNew := some fakePhase
      NewCalledWithName := ""
      NewCalledWithProvider := none }

def WhichReturnsForNew {W : Type} (phase : Option (build.RunnerCleaner W)) :
    FakePhaseFactory W → FakePhaseFactory W :=
  fun factory => { factory with ReturnForNew := phase }

/-- The method `FakePhaseFactory.New`: the returned pair, the provider as the call left it, and
the factory after the call. `f.NewCallCount++` wraps around at `MaxInt64`. -/
def FakePhaseFactory.New {W : Type} (f : FakePhaseFactory W) (name : String)
    (phaseConfigProvider : build.PhaseConfigProvider) :
    (Option (build.RunnerCleaner W) × Option build.GoError) × build.PhaseConfigProvider ×
      FakePhaseFactory W :=
  ((f.ReturnForNew, none), phaseConfigProvider,
    { f with
      NewCallCount := wrapInt (f.NewCallCount + 1)
      NewCalledWithName := name
      NewCalledWithProvider := some phaseConfigProvider })

/-- The factory after a series of `New` calls, oldest first. -/
def newAll {W : Type} (f : FakePhaseFactory W)
    (calls : List (String × build.PhaseConfigProvider)) : FakePhaseFactory W :=
  calls.foldl (fun g c => (g.New c.1 c.2).2.2) f

end fakes

/-! ## `layer/windows_writer.go` -/

namespace layer

/-! ### Go's standard library, as far as the writer uses it (on characters) -/

/-- The pieces of `strings.Split(s, "/")`: the substrings between the slashes, `n + 1` pieces
for `n` slashes. -/
def splitSlash : List Char → List (List Char)
  | [] => [[]]
  | c :: cs =>
    if c = '/' then [] :: splitSlash cs
    else
      match splitSlash cs with
      | [] => [[c]]
      | seg :: segs => (c :: seg) :: segs

/-- The elements joined with one slash between neighbours (`strings.Join(elems, "/")`). -/
def joinSlash : List (List Char) → List Char
  | [] => []
  | [e] => e
  | e :: e1 :: rest => e ++ '/' :: joinSlash (e1 :: rest)

/-- The element pass of `path.Clean`: empty elements and `.` are dropped; `..` removes the
element before it, unless there is none to remove, and then it is dropped in a rooted path and
kept in an unrooted one. `out` holds the elements kept so far, last first. -/
def cleanElems (rooted : Bool) : List (List Char) → List (List Char) → List (List Char)
  | [], out => out.reverse
  | e :: es, out =>
    if e = [] ∨ e = ['.'] then cleanElems rooted es out
    else if e = ['.', '.'] then
      match out with
      | [] => if rooted then cleanElems rooted es [] else cleanElems rooted es [e]
      | top :: below =>
        if top = ['.', '.'] then cleanElems rooted es (e :: out)
        else cleanElems rooted es below
    else cleanElems rooted es (e :: out)

/-- The function `path.Clean` on characters: the empty path is `.`; a rooted path is `/` followed
by its cleaned elements; an unrooted path is its cleaned elements, or `.` if none is left. -/
def cleanChars (p : List Char) : List Char :=
  if p = [] then ['.']
  else if p.head? = some '/' then '/' :: joinSlash (cleanElems true (splitSlash p) [])
  else if cleanElems false (splitSlash p) [] = [] then ['.']
  else joinSlash (cleanElems false (splitSlash p) [])

/-- The part of a path up to and including its last slash (`path[:i+1]` with
`i = strings.LastIndex(path, "/")`), empty if there is no slash. -/
def dirChars : List Char → List Char
  | [] => []
  | c :: cs => if '/' ∈ cs then c :: dirChars cs else if c = '/' then ['/'] else []

/-- The function `path.Join` on characters: empty elements are ignored, the rest is joined with
slashes and cleaned; with nothing left the result is empty. -/
def joinChars (elem : List (List Char)) : List Char :=
  if elem.filter (fun e => decide (e ≠ [])) = [] then []
  else cleanChars (joinSlash (elem.filter (fun e => decide (e ≠ []))))

namespace path

/-- Go's `path.Clean`. -/
def Clean (p : String) : String :=
  String.mk (cleanChars p.toList)

/-- Go's `path.Join`. -/
def Join (elem : List String) : String :=
  String.mk (joinChars (elem.map String.toList))

/-- Go's `path.Dir`: the path is split after its last slash and the first part is cleaned. -/
def Dir (p : String) : String :=
  String.mk (cleanChars (dirChars p.toList))

end path

namespace strings

/-- Go's `strings.Split(s, "/")`, with the separator the writer passes. -/
def Split (s : String) : List String :=
  (splitSlash s.toList).map String.mk

end strings

/-! ### The tar writer -/

/-- The fields of `tar.Header` that matter here. `Typeflag` is a byte, written as a character in
Go (`tar.TypeDir` is `'5'`). -/
structure Header where
  Name : String
  Typeflag : Char
  Size : Int
  deriving DecidableEq, Repr

def TypeReg : Char := '0'
def TypeDir : Char := '5'

/-- The methods of `tar.Writer` the package calls, on a tar writer in state `T`. -/
structure TarPkg (T : Type) where
  WriteHeader : Header → T → Option build.GoError × T
  Close : T → Option build.GoError × T

/-- The struct `WindowsWriter`: the tar writer, and the headers the tar writer has accepted so
far, as they were handed to it, oldest first. -/
structure WindowsWriter (T : Type) where
  tarWriter : T
  entries : List Header

/-- The function `NewWindowsWriter`; `fresh` is the state of `tar.NewWriter(dataWriter)`. -/
def NewWindowsWriter {T : Type} (fresh : T) : WindowsWriter T :=
  { tarWriter := fresh, entries := [] }

/-- The call `w.tarWriter.WriteHeader(header)`: an accepted header is an entry of the archive. -/
def WindowsWriter.tarWriteHeader {T : Type} (tar : TarPkg T) (w : WindowsWriter T)
    (header : Header) : Option build.GoError × WindowsWriter T :=
  match tar.WriteHeader header w.tarWriter with
  | (some err, t) => (some err, { tarWriter := t, entries := w.entries })
  | (none, t) => (none, { tarWriter := t, entries := w.entries ++ [header] })

def layerFilesPath (origPath : String) : String :=
  path.Join ["Files", origPath]

def WindowsWriter.initializeLayer {T : Type} (tar : TarPkg T) (w : WindowsWriter T) :
    Option build.GoError × WindowsWriter T :=
  match w.tarWriteHeader tar { Name := "Files", Typeflag := TypeDir, Size := 0 } with
  | (some err, w1) => (some err, w1)
  | (none, w1) =>
    match w1.tarWriteHeader tar { Name := "Hives", Typeflag := TypeDir, Size := 0 } with
    | (some err, w2) => (some err, w2)
    | (none, w2) => (none, w2)

/-- The loop of `writeParentPaths` over the remaining path parts, with the value of
`shallowestDir` before the loop body. -/
def writeParentPathsLoop {T : Type} (tar : TarPkg T) :
    List String → String → WindowsWriter T → Option build.GoError × WindowsWriter T
  | [], _, w => (none, w)
  | pathPart :: rest, shallowestDir, w =>
    if path.Join [shallowestDir, pathPart] = "" then
      writeParentPathsLoop tar rest (path.Join [shallowestDir, pathPart]) w
    else
      match w.tarWriteHeader tar
          { Name := layerFilesPath (path.Join [shallowestDir, pathPart])
            Typeflag := TypeDir
            Size := 0 } with
      | (some err, w1) => (some err, w1)
      | (none, w1) =>
        writeParentPathsLoop tar rest (path.Join [shallowestDir, pathPart]) w1

def WindowsWriter.writeParentPaths {T : Type} (tar : TarPkg T) (w : WindowsWriter T)
    (childPath : String) : Option build.GoError × WindowsWriter T :=
  writeParentPathsLoop tar (strings.Split (path.Dir childPath)) "" w

/-- The method `WindowsWriter.WriteHeader`: the error, the caller's header (renamed once the
parent paths are written) and the writer. -/
def WindowsWriter.WriteHeader {T : Type} (tar : TarPkg T) (w : WindowsWriter T)
    (header : Header) : Option build.GoError × Header × WindowsWriter T :=
  match w.initializeLayer tar with
  | (some err, w1) => (some err, header, w1)
  | (none, w1) =>
    match w1.writeParentPaths tar header.Name with
    | (some err, w2) => (some err, header, w2)
    | (none, w2) =>
      match w2.tarWriteHeader tar { header with Name := layerFilesPath header.Name } with
      | (err, w3) => (err, { header with Name := layerFilesPath header.Name }, w3)

/-- The method `WindowsWriter.Close`. -/
def WindowsWriter.Close {T : Type} (tar : TarPkg T) (w : WindowsWriter T) :
    Option build.GoError × WindowsWriter T :=
  match tar.Close w.tarWriter with
  | (err, t) => (err, { w with tarWriter := t })

/-! ### Vocabulary of the claims -/

/-- The path `e1/e2/.../en`. -/
def slashPath (elems : List String) : String :=
  String.mk (joinSlash (elems.map String.toList))

/-- An element of a clean path: not empty, without a slash, and neither `.` nor `..`. -/
def isName (c : String) : Prop :=
  c.toList ≠ [] ∧ '/' ∉ c.toList ∧ c.toList ≠ ['.'] ∧ c.toList ≠ ['.', '.']

instance (c : String) : Decidable (isName c) :=
  inferInstanceAs (Decidable (_ ∧ _ ∧ _ ∧ _))

/-- Writing a list of headers in order, stopping at the first the tar writer refuses. -/
def writeAll {T : Type} (tar : TarPkg T) :
    List Header → WindowsWriter T → Option build.GoError × WindowsWriter T
  | [], w => (none, w)
  | h :: hs, w =>
    match w.tarWriteHeader tar h with
    | (some err, w1) => (some err, w1)
    | (none, w1) => writeAll tar hs w1

/-- A tar writer that accepts everything. -/
def acceptingTar : TarPkg Unit where
  WriteHeader := fun _ t => (none, t)
  Close := fun t => (none, t)

end layer

namespace build

/-! ## Shape of the operations -/

theorem withLogLevel_cases {V : Type} (semver : SemverPkg V) (l : Lifecycle) (args : List String) :
    l.withLogLevel semver args = Exec.panic ∨ l.withLogLevel semver args = Exec.ret args ∨
      l.withLogLevel semver args = Exec.ret (["-log-level", "debug"] ++ args) := by
  unfold Lifecycle.withLogLevel
  split
  · simp
  · split
    · simp
    · split <;> [split; skip] <;> simp

theorem handed_append (xs ys : List Call) : handed (xs ++ ys) = handed xs ++ handed ys := by
  induction xs with
  | nil => rfl
  | cons c xs ih => cases c <;> simp [handed, ih]

theorem runCount_append (xs ys : List Call) : runCount (xs ++ ys) = runCount xs + runCount ys := by
  induction xs with
  | nil => simp [runCount]
  | cons c xs ih => cases c <;> simp [runCount, ih]; omega

theorem cleanupCount_append (xs ys : List Call) :
    cleanupCount (xs ++ ys) = cleanupCount xs + cleanupCount ys := by
  induction xs with
  | nil => simp [cleanupCount]
  | cons c xs ih => cases c <;> simp [cleanupCount, ih]; omega

/-- What `newThenRun` does, by what the factory answers. -/
theorem newThenRun_cases {W : Type} (f : PhaseFactory W) (name : String)
    (p : PhaseConfigProvider) (s : Sys W) :
    (∃ ph e w1, f.New name p s.world = ((ph, some e), w1) ∧
        newThenRun f name p s =
          (Exec.ret (some e),
            { world := w1, calls := s.calls ++ [Call.New name p ph.isSome (some e)] })) ∨
    (∃ w1, f.New name p s.world = ((none, none), w1) ∧
        newThenRun f name p s =
          (Exec.panic, { world := w1, calls := s.calls ++ [Call.New name p false none] })) ∨
    (∃ x w1, f.New name p s.world = ((some x, none), w1) ∧
        newThenRun f name p s =
          (Exec.ret (x.Run w1).1,
            { world := (x.Cleanup (x.Run w1).2).2
              calls := s.calls ++ [Call.New name p true none, Call.Run (x.Run w1).1,
                Call.Cleanup (x.Cleanup (x.Run w1).2).1] })) := by
  rcases hN : f.New name p s.world with ⟨⟨ph, e⟩, w1⟩
  cases e with
  | some e =>
    left
    exact ⟨ph, e, w1, rfl, by simp [newThenRun, PhaseFactory.invoke, hN]⟩
  | none =>
    right
    cases ph with
    | none =>
      left
      exact ⟨w1, rfl, by simp [newThenRun, PhaseFactory.invoke, hN, deferCleanupRun]⟩
    | some x =>
      right
      exact ⟨x, w1, rfl, by simp [newThenRun, PhaseFactory.invoke, hN, deferCleanupRun]⟩

theorem Detect_eq {V W : Type} (semver : SemverPkg V) (l : Lifecycle) (networkMode : String)
    (volumes : List String) (f : PhaseFactory W) (s : Sys W) :
    l.Detect semver networkMode volumes f s =
      match l.withLogLevel semver ["-app", "/workspace", "-platform", "/platform"] with
      | Exec.panic => (Exec.panic, s)
      | Exec.ret logged =>
        newThenRun f "detector"
          { ctrConf :=
              { Cmd := "/cnb/lifecycle/detector" :: logged
                Labels := [("author", "pack")]
                Image := ""
                User := ""
                Env := [] }
            hostConf := { Binds := volumes, NetworkMode := networkMode } } s := by
  unfold Lifecycle.Detect
  simp only [appDir, platformDir]
  cases l.withLogLevel semver ["-app", "/workspace", "-platform", "/platform"] with
  | panic => rfl
  | ret logged => rfl

theorem Analyze_publish_eq {V W : Type} (semver : SemverPkg V) (auth : AuthPkg W) (l : Lifecycle)
    (repoName cacheName : String) (clearCache : Bool) (f : PhaseFactory W) (s : Sys W) :
    l.Analyze semver auth repoName cacheName true clearCache f s =
      match auth.BuildEnvVar [repoName] s.world with
      | (AuthResult.fail e, w1) =>
        (Exec.ret (some (GoError.Wrap e "create phase config")),
          { world := w1, calls := s.calls ++ [Call.BuildEnvVar [repoName] (AuthResult.fail e)] })
      | (AuthResult.ok a, w1) =>
        newThenRun f "analyzer"
          { ctrConf :=
              { Cmd := "/cnb/lifecycle/analyzer" ::
                  ((if clearCache = true then ["-skip-layers"] else ["-cache-dir", "/cache"]) ++
                    ["-layers", "/layers", repoName])
                Labels := [("author", "pack")]
                Image := ""
                User := "root"
                Env := ["CNB_REGISTRY_AUTH=" ++ a] }
            hostConf := { Binds := [cacheName ++ ":" ++ "/cache"], NetworkMode := "host" } }
          { world := w1, calls := s.calls ++ [Call.BuildEnvVar [repoName] (AuthResult.ok a)] } := by
  unfold Lifecycle.Analyze Lifecycle.newAnalyze
  rcases hA : auth.BuildEnvVar [repoName] s.world with ⟨r, w1⟩
  cases r with
  | fail e =>
    simp [NewPhaseConfigProvider, rangeOps, WithRegistryAccess, hA]
  | ok a =>
    cases clearCache <;>
    simp [NewPhaseConfigProvider, rangeOps, WithRegistryAccess, hA, WithRoot, WithArgs, WithBinds, newProvider, newThenRun, prependArg, layersDir, cacheDir]
    all_goals
      generalize f.invoke "analyzer" _ _ = r
      rcases r with ⟨⟨ph, _ | e⟩, s2⟩ <;> rfl

theorem Restore_eq {V W : Type} (semver : SemverPkg V) (l : Lifecycle) (cacheName : String)
    (f : PhaseFactory W) (s : Sys W) :
    l.Restore semver cacheName f s =
      match l.withLogLevel semver ["-cache-dir", "/cache", "-layers", "/layers"] with
      | Exec.panic => (Exec.panic, s)
      | Exec.ret logged =>
        newThenRun f "restorer"
          { ctrConf :=
              { Cmd := "/cnb/lifecycle/restorer" :: logged
                Labels := [("author", "pack")]
                Image := ""
                User := "root"
                Env := [] }
            hostConf :=
              { Binds := ["/var/run/docker.sock:/var/run/docker.sock", cacheName ++ ":" ++ "/cache"]
                NetworkMode := "" } } s := by
  unfold Lifecycle.Restore
  simp only [cacheDir, layersDir]
  cases l.withLogLevel semver ["-cache-dir", "/cache", "-layers", "/layers"] with
  | panic => rfl
  | ret logged => rfl

theorem Build_eq {W : Type} (l : Lifecycle) (networkMode : String) (volumes : List String)
    (f : PhaseFactory W) (s : Sys W) :
    l.Build networkMode volumes f s =
      newThenRun f "builder"
        { ctrConf :=
            { Cmd := ["/cnb/lifecycle/builder", "-layers", "/layers", "-app", "/workspace",
                "-platform", "/platform"]
              Labels := [("author", "pack")]
              Image := ""
              User := ""
              Env := [] }
          hostConf := { Binds := volumes, NetworkMode := networkMode } } s := by
  rfl

theorem Analyze_daemon_eq {V W : Type} (semver : SemverPkg V) (auth : AuthPkg W) (l : Lifecycle)
    (repoName cacheName : String) (clearCache : Bool) (f : PhaseFactory W) (s : Sys W) :
    l.Analyze semver auth repoName cacheName false clearCache f s =
      match l.withLogLevel semver
          ("-daemon" :: ((if clearCache = true then ["-skip-layers"] else ["-cache-dir", "/cache"]) ++
            ["-layers", "/layers", repoName])) with
      | Exec.panic => (Exec.panic, s)
      | Exec.ret logged =>
        newThenRun f "analyzer"
          { ctrConf :=
              { Cmd := "/cnb/lifecycle/analyzer" :: logged
                Labels := [("author", "pack")]
                Image := ""
                User := "root"
                Env := [] }
            hostConf :=
              { Binds := ["/var/run/docker.sock:/var/run/docker.sock", cacheName ++ ":" ++ "/cache"]
                NetworkMode := "" } } s := by
  unfold Lifecycle.Analyze Lifecycle.newAnalyze
  cases clearCache <;>
    simp only [Bool.false_eq_true, if_false, if_true, prependArg, layersDir, cacheDir,
      List.singleton_append, List.cons_append, List.nil_append]
  all_goals
    generalize l.withLogLevel semver _ = r
    cases r with
    | panic => rfl
    | ret logged =>
      simp [NewPhaseConfigProvider, rangeOps, WithDaemonAccess, WithArgs, WithBinds,
        newProvider, newThenRun]
      generalize f.invoke "analyzer" _ _ = r
      rcases r with ⟨⟨ph, _ | e⟩, s2⟩ <;> rfl

theorem Export_publish_eq {V W : Type} (semver : SemverPkg V) (auth : AuthPkg W) (l : Lifecycle)
    (repoName runImage launchCacheName cacheName : String) (f : PhaseFactory W) (s : Sys W) :
    l.Export semver auth repoName runImage true launchCacheName cacheName f s =
      match l.withLogLevel semver
          ["-image", runImage, "-cache-dir", "/cache", "-layers", "/layers", "-app", "/workspace",
            repoName] with
      | Exec.panic => (Exec.panic, s)
      | Exec.ret logged =>
        match auth.BuildEnvVar [repoName, runImage] s.world with
        | (AuthResult.fail e, w1) =>
          (Exec.ret (some (GoError.Wrap e "create phase config")),
            { world := w1
              calls := s.calls ++ [Call.BuildEnvVar [repoName, runImage] (AuthResult.fail e)] })
        | (AuthResult.ok a, w1) =>
          newThenRun f "exporter"
            { ctrConf :=
                { Cmd := "/cnb/lifecycle/exporter" :: logged
                  Labels := [("author", "pack")]
                  Image := ""
                  User := "root"
                  Env := ["CNB_REGISTRY_AUTH=" ++ a] }
              hostConf := { Binds := [cacheName ++ ":" ++ "/cache"], NetworkMode := "host" } }
            { world := w1
              calls := s.calls ++ [Call.BuildEnvVar [repoName, runImage] (AuthResult.ok a)] } := by
  unfold Lifecycle.Export Lifecycle.newExport
  simp only [if_true, layersDir, cacheDir, appDir]
  generalize l.withLogLevel semver _ = r
  cases r with
  | panic => rfl
  | ret logged =>
    rcases hA : auth.BuildEnvVar [repoName, runImage] s.world with ⟨r, w1⟩
    cases r with
    | fail e => simp [NewPhaseConfigProvider, rangeOps, WithRegistryAccess, hA]
    | ok a =>
      simp [NewPhaseConfigProvider, rangeOps, WithRegistryAccess, hA, WithRoot, WithArgs,
        WithBinds, newProvider, newThenRun]
      generalize f.invoke "exporter" _ _ = r
      rcases r with ⟨⟨ph, _ | e⟩, s2⟩ <;> rfl

theorem Export_daemon_eq {V W : Type} (semver : SemverPkg V) (auth : AuthPkg W) (l : Lifecycle)
    (repoName runImage launchCacheName cacheName : String) (f : PhaseFactory W) (s : Sys W) :
    l.Export semver auth repoName runImage false launchCacheName cacheName f s =
      match l.withLogLevel semver
          ["-daemon", "-launch-cache", "/launch-cache", "-image", runImage, "-cache-dir", "/cache",
            "-layers", "/layers", "-app", "/workspace", repoName] with
      | Exec.panic => (Exec.panic, s)
      | Exec.ret logged =>
        newThenRun f "exporter"
          { ctrConf :=
              { Cmd := "/cnb/lifecycle/exporter" :: logged
                Labels := [("author", "pack")]
                Image := ""
                User := "root"
                Env := [] }
            hostConf :=
              { Binds := ["/var/run/docker.sock:/var/run/docker.sock", cacheName ++ ":" ++ "/cache",
                  launchCacheName ++ ":" ++ "/launch-cache"]
                NetworkMode := "" } } s := by
  unfold Lifecycle.Export Lifecycle.newExport
  simp only [Bool.false_eq_true, if_false, layersDir, cacheDir, appDir, launchCacheDir,
    List.cons_append, List.nil_append]
  generalize l.withLogLevel semver _ = r
  cases r with
  | panic => rfl
  | ret logged =>
    simp [NewPhaseConfigProvider, rangeOps, WithDaemonAccess, WithArgs, WithBinds,
      newProvider, newThenRun]
    generalize f.invoke "exporter" _ _ = r
    rcases r with ⟨⟨ph, _ | e⟩, s2⟩ <;> rfl

theorem handed_newThenRun {W : Type} (f : PhaseFactory W) (name : String)
    (p : PhaseConfigProvider) (s : Sys W) :
    handed (newThenRun f name p s).2.calls = handed s.calls ++ [(name, p)] := by
  rcases newThenRun_cases f name p s with ⟨ph, e, w1, _, h⟩ | ⟨w1, _, h⟩ | ⟨x, w1, _, h⟩ <;>
    simp [h, handed_append, handed]

/-- The argument vectors `Analyze` can hand to the factory. -/
theorem Analyze_handed {V W : Type} (semver : SemverPkg V) (auth : AuthPkg W) (l : Lifecycle)
    (repoName cacheName : String) (publish clearCache : Bool) (f : PhaseFactory W) (w : W)
    (name : String) (p : PhaseConfigProvider)
    (h : (name, p) ∈ handed
      (l.Analyze semver auth repoName cacheName publish clearCache f (Sys.init w)).2.calls) :
    ∃ pre, (pre = [] ∨ pre = ["-daemon"] ∨ pre = ["-log-level", "debug", "-daemon"]) ∧
      p.ctrConf.Cmd = "/cnb/lifecycle/analyzer" ::
        (pre ++ ((if clearCache = true then ["-skip-layers"] else ["-cache-dir", "/cache"]) ++
          ["-layers", "/layers", repoName])) := by
  cases publish with
  | true =>
    rw [Analyze_publish_eq] at h
    rcases hA : auth.BuildEnvVar [repoName] (Sys.init w).world with ⟨r, w1⟩
    rw [hA] at h
    cases r with
    | fail e => simp [Sys.init, handed] at h
    | ok a =>
      simp only [handed_newThenRun, Sys.init, handed_append, handed, List.nil_append,
        List.mem_singleton, Prod.mk.injEq] at h
      exact ⟨[], Or.inl rfl, by rw [h.2]; rfl⟩
  | false =>
    rw [Analyze_daemon_eq] at h
    rcases withLogLevel_cases semver l
      ("-daemon" :: ((if clearCache = true then ["-skip-layers"] else ["-cache-dir", "/cache"]) ++
        ["-layers", "/layers", repoName])) with hl | hl | hl
    · rw [hl] at h
      simp [Sys.init, handed] at h
    · rw [hl] at h
      simp only [handed_newThenRun, Sys.init, handed, List.nil_append,
        List.mem_singleton, Prod.mk.injEq] at h
      exact ⟨["-daemon"], Or.inr (Or.inl rfl), by rw [h.2]; rfl⟩
    · rw [hl] at h
      simp only [handed_newThenRun, Sys.init, handed, List.nil_append,
        List.mem_singleton, Prod.mk.injEq] at h
      exact ⟨["-log-level", "debug", "-daemon"], Or.inr (Or.inr rfl), by rw [h.2]; rfl⟩


/-- With both version strings parsed, `withLogLevel` returns, and what it returns. -/
theorem withLogLevel_of_parse {V : Type} (semver : SemverPkg V) (l : Lifecycle)
    (args : List String) (v c : V) (hv : semver.MustParse l.version = some v)
    (hc : semver.MustParse "0.4.0" = some c) :
    l.withLogLevel semver args =
      Exec.ret (if semver.LessThan c v = true ∧ l.logger.IsVerbose = true then
        ["-log-level", "debug"] ++ args else args) := by
  unfold Lifecycle.withLogLevel
  rw [hv, hc]
  by_cases h1 : semver.LessThan c v = true <;> by_cases h2 : l.logger.IsVerbose = true <;>
    simp [h1, h2]

/-- At version `0.4.0`, with a `LessThan` that is irreflexive there, `withLogLevel` adds
nothing. -/
theorem withLogLevel_at_040 {V : Type} (semver : SemverPkg V) (l : Lifecycle)
    (args : List String) (hver : l.version = "0.4.0")
    (hirr : ∀ c, semver.MustParse "0.4.0" = some c → semver.LessThan c c = false) :
    l.withLogLevel semver args = Exec.panic ∨ l.withLogLevel semver args = Exec.ret args := by
  cases hc : semver.MustParse "0.4.0" with
  | none =>
    left
    unfold Lifecycle.withLogLevel
    rw [hver, hc]
  | some c =>
    right
    rw [withLogLevel_of_parse semver l args c c (by rw [hver]; exact hc) hc]
    simp [hirr c hc]

theorem mem_calls_newThenRun_BuildEnvVar {W : Type} (f : PhaseFactory W) (name : String)
    (p : PhaseConfigProvider) (s : Sys W) (repos : List String) (r : AuthResult) :
    Call.BuildEnvVar repos r ∈ (newThenRun f name p s).2.calls ↔
      Call.BuildEnvVar repos r ∈ s.calls := by
  rcases newThenRun_cases f name p s with ⟨ph, e, w1, _, h⟩ | ⟨w1, _, h⟩ | ⟨x, w1, _, h⟩ <;>
    simp [h]

/-- Every phase operation either panics at once, or stops at a failed credential resolution, or
goes on to `newThenRun`, after at most one successful credential resolution. -/
theorem run_shape {V W : Type} (semver : SemverPkg V) (auth : AuthPkg W) (l : Lifecycle)
    (f : PhaseFactory W) (op : PhaseOp) (s : Sys W) :
    op.run semver auth l f s = (Exec.panic, s) ∨
    (∃ repos e w1, op.run semver auth l f s =
        (Exec.ret (some (GoError.Wrap e "create phase config")),
          { world := w1, calls := s.calls ++ [Call.BuildEnvVar repos (AuthResult.fail e)] })) ∨
    (∃ name p, op.run semver auth l f s = newThenRun f name p s) ∨
    (∃ repos a w1 name p, op.run semver auth l f s =
        newThenRun f name p
          { world := w1, calls := s.calls ++ [Call.BuildEnvVar repos (AuthResult.ok a)] }) := by
  cases op with
  | Detect networkMode volumes =>
    simp only [PhaseOp.run, Detect_eq]
    cases l.withLogLevel semver ["-app", "/workspace", "-platform", "/platform"] with
    | panic => exact Or.inl rfl
    | ret logged => exact Or.inr (Or.inr (Or.inl ⟨_, _, rfl⟩))
  | Restore cacheName =>
    simp only [PhaseOp.run, Restore_eq]
    cases l.withLogLevel semver ["-cache-dir", "/cache", "-layers", "/layers"] with
    | panic => exact Or.inl rfl
    | ret logged => exact Or.inr (Or.inr (Or.inl ⟨_, _, rfl⟩))
  | Build networkMode volumes =>
    simp only [PhaseOp.run, Build_eq]
    exact Or.inr (Or.inr (Or.inl ⟨_, _, rfl⟩))
  | Analyze repoName cacheName publish clearCache =>
    cases publish with
    | true =>
      simp only [PhaseOp.run, Analyze_publish_eq]
      rcases auth.BuildEnvVar [repoName] s.world with ⟨r, w1⟩
      cases r with
      | fail e => exact Or.inr (Or.inl ⟨_, _, _, rfl⟩)
      | ok a => exact Or.inr (Or.inr (Or.inr ⟨_, _, _, _, _, rfl⟩))
    | false =>
      simp only [PhaseOp.run, Analyze_daemon_eq]
      generalize l.withLogLevel semver _ = r
      cases r with
      | panic => exact Or.inl rfl
      | ret logged => exact Or.inr (Or.inr (Or.inl ⟨_, _, rfl⟩))
  | Export repoName runImage publish launchCacheName cacheName =>
    cases publish with
    | true =>
      simp only [PhaseOp.run, Export_publish_eq]
      generalize l.withLogLevel semver _ = r
      cases r with
      | panic => exact Or.inl rfl
      | ret logged =>
        rcases auth.BuildEnvVar [repoName, runImage] s.world with ⟨r, w1⟩
        cases r with
        | fail e => exact Or.inr (Or.inl ⟨_, _, _, rfl⟩)
        | ok a => exact Or.inr (Or.inr (Or.inr ⟨_, _, _, _, _, rfl⟩))
    | false =>
      simp only [PhaseOp.run, Export_daemon_eq]
      generalize l.withLogLevel semver _ = r
      cases r with
      | panic => exact Or.inl rfl
      | ret logged => exact Or.inr (Or.inr (Or.inl ⟨_, _, rfl⟩))


theorem withLogLevel_at_040_eq {V : Type} (semver : SemverPkg V) (l : Lifecycle)
    (args : List String) (hver : l.version = "0.4.0")
    (hirr : ∀ c, semver.MustParse "0.4.0" = some c → semver.LessThan c c = false)
    (r : Exec (List String)) (hr : l.withLogLevel semver args = r) :
    r = Exec.panic ∨ r = Exec.ret args := by
  subst hr
  exact withLogLevel_at_040 semver l args hver hirr

/-- The outcomes and call logs a phase operation started on an empty log can have. -/
theorem run_outcomes {V W : Type} (semver : SemverPkg V) (auth : AuthPkg W) (l : Lifecycle)
    (f : PhaseFactory W) (op : PhaseOp) (w : W) (out : Exec (Option GoError))
    (calls : List Call) (hout : out = (op.run semver auth l f (Sys.init w)).1)
    (hcalls : calls = (op.run semver auth l f (Sys.init w)).2.calls) :
    (out = Exec.panic ∧ calls = []) ∨
    (∃ repos e, out = Exec.ret (some (GoError.Wrap e "create phase config")) ∧
      calls = [Call.BuildEnvVar repos (AuthResult.fail e)]) ∨
    (∃ pre name p, (pre = [] ∨ ∃ repos a, pre = [Call.BuildEnvVar repos (AuthResult.ok a)]) ∧
      ((∃ b e, out = Exec.ret (some e) ∧ calls = pre ++ [Call.New name p b (some e)]) ∨
        (out = Exec.panic ∧ calls = pre ++ [Call.New name p false none]) ∨
        (∃ runErr cleanupErr, out = Exec.ret runErr ∧
          calls = pre ++ [Call.New name p true none, Call.Run runErr,
            Call.Cleanup cleanupErr]))) := by
  subst hout hcalls
  rcases run_shape semver auth l f op (Sys.init w) with h | ⟨repos, e, w1, h⟩ | ⟨name, p, h⟩ |
    ⟨repos, a, w1, name, p, h⟩
  · left
    rw [h]
    exact ⟨rfl, rfl⟩
  · right
    left
    rw [h]
    exact ⟨repos, e, rfl, rfl⟩
  · right
    right
    refine ⟨[], name, p, Or.inl rfl, ?_⟩
    rw [h]
    rcases newThenRun_cases f name p (Sys.init w) with ⟨ph, e, w1, _, h1⟩ | ⟨w1, _, h1⟩ |
      ⟨x, w1, _, h1⟩
    · rw [h1]
      exact Or.inl ⟨_, e, rfl, rfl⟩
    · rw [h1]
      exact Or.inr (Or.inl ⟨rfl, rfl⟩)
    · rw [h1]
      exact Or.inr (Or.inr ⟨_, _, rfl, rfl⟩)
  · right
    right
    refine ⟨[Call.BuildEnvVar repos (AuthResult.ok a)], name, p, Or.inr ⟨repos, a, rfl⟩, ?_⟩
    rw [h]
    rcases newThenRun_cases f name p
        { world := w1, calls := (Sys.init w).calls ++ [Call.BuildEnvVar repos (AuthResult.ok a)] }
      with ⟨ph, e, w2, _, h1⟩ | ⟨w2, _, h1⟩ | ⟨x, w2, _, h1⟩
    · rw [h1]
      exact Or.inl ⟨_, e, rfl, rfl⟩
    · rw [h1]
      exact Or.inr (Or.inl ⟨rfl, rfl⟩)
    · rw [h1]
      exact Or.inr (Or.inr ⟨_, _, rfl, rfl⟩)


/-- When every operation succeeds, the loop computes the left fold. -/
theorem rangeOps_of_allSucceed {W : Type} (ops : List (PhaseConfigProviderOperation W))
    (p : PhaseConfigProvider) (s : Sys W) (h : allSucceed ops (p, s) = true) :
    rangeOps ops p s = (none, foldOps ops (p, s)) := by
  induction ops generalizing p s with
  | nil => rfl
  | cons op rest ih =>
    simp only [allSucceed, Bool.and_eq_true, Option.isNone_iff_eq_none] at h
    rcases hop : op p s with ⟨e, p1, s1⟩
    rw [hop] at h
    obtain ⟨he, hrest⟩ := h
    simp only at he
    subst he
    simp only [rangeOps, hop, foldOps, List.foldl_cons]
    exact ih p1 s1 hrest

/-- The loop stops at the first operation that fails: the operations after it do not matter. -/
theorem rangeOps_first_failure {W : Type} (pre post : List (PhaseConfigProviderOperation W))
    (opk : PhaseConfigProviderOperation W) (p : PhaseConfigProvider) (s : Sys W) (e : GoError)
    (hpre : allSucceed pre (p, s) = true)
    (hfail : (opk (foldOps pre (p, s)).1 (foldOps pre (p, s)).2).1 = some e) :
    rangeOps (pre ++ opk :: post) p s =
      (some e, (opk (foldOps pre (p, s)).1 (foldOps pre (p, s)).2).2) := by
  induction pre generalizing p s with
  | nil =>
    simp only [foldOps, List.foldl_nil] at hfail ⊢
    rcases hop : opk p s with ⟨e1, p1, s1⟩
    rw [hop] at hfail
    simp only at hfail
    subst hfail
    simp [rangeOps, hop]
  | cons op rest ih =>
    simp only [allSucceed, Bool.and_eq_true, Option.isNone_iff_eq_none] at hpre
    rcases hop : op p s with ⟨e1, p1, s1⟩
    rw [hop] at hpre
    obtain ⟨he, hrest⟩ := hpre
    simp only at he
    subst he
    simp only [foldOps, List.foldl_cons, hop] at hfail
    simp only [List.cons_append, rangeOps, hop, foldOps, List.foldl_cons]
    exact ih p1 s1 hrest hfail


/-- The env list `WithLifecycle` leaves: the old list, then one pair per non-empty proxy
setting. -/
theorem proxyEnv_eq (lifecycle : Lifecycle) (env : List String) :
    proxyEnv lifecycle env =
      env ++
        ((if lifecycle.httpProxy ≠ "" then
            ["HTTP_PROXY=" ++ lifecycle.httpProxy, "http_proxy=" ++ lifecycle.httpProxy]
          else []) ++
        ((if lifecycle.httpsProxy ≠ "" then
            ["HTTPS_PROXY=" ++ lifecycle.httpsProxy, "https_proxy=" ++ lifecycle.httpsProxy]
          else []) ++
        (if lifecycle.noProxy ≠ "" then
            ["NO_PROXY=" ++ lifecycle.noProxy, "no_proxy=" ++ lifecycle.noProxy]
          else []))) := by
  unfold proxyEnv
  by_cases h1 : lifecycle.httpProxy = "" <;> by_cases h2 : lifecycle.httpsProxy = "" <;>
    by_cases h3 : lifecycle.noProxy = "" <;> simp [h1, h2, h3]

/-- One built-in operation only appends to the three lists and keeps the labels. -/
theorem builtin_step_appends {W : Type} (auth : AuthPkg W) (b : BuiltinOp)
    (p : PhaseConfigProvider) (s : Sys W) :
    p.ctrConf.Cmd <+: (b.toOp auth p s).2.1.ctrConf.Cmd ∧
    p.ctrConf.Env <+: (b.toOp auth p s).2.1.ctrConf.Env ∧
    p.hostConf.Binds <+: (b.toOp auth p s).2.1.hostConf.Binds ∧
    (b.toOp auth p s).2.1.ctrConf.Labels = p.ctrConf.Labels := by
  cases b with
  | WithArgs args => simp [BuiltinOp.toOp, WithArgs]
  | WithBinds binds => simp [BuiltinOp.toOp, WithBinds]
  | WithDaemonAccess => simp [BuiltinOp.toOp, WithDaemonAccess]
  | WithLifecycle lifecycle => simp [BuiltinOp.toOp, WithLifecycle, proxyEnv_eq]
  | WithNetwork networkMode => simp [BuiltinOp.toOp, WithNetwork]
  | WithRegistryAccess repos =>
    simp only [BuiltinOp.toOp, WithRegistryAccess]
    rcases auth.BuildEnvVar repos s.world with ⟨r, w1⟩
    cases r <;> simp
  | WithRoot => simp [BuiltinOp.toOp, WithRoot]

/-- The loop over built-in operations only appends to the three lists and keeps the labels,
also when it stops at a failing operation. -/
theorem rangeOps_builtin_appends {W : Type} (auth : AuthPkg W) (bs : List BuiltinOp)
    (p : PhaseConfigProvider) (s : Sys W) :
    p.ctrConf.Cmd <+: (rangeOps (bs.map (BuiltinOp.toOp auth)) p s).2.1.ctrConf.Cmd ∧
    p.ctrConf.Env <+: (rangeOps (bs.map (BuiltinOp.toOp auth)) p s).2.1.ctrConf.Env ∧
    p.hostConf.Binds <+: (rangeOps (bs.map (BuiltinOp.toOp auth)) p s).2.1.hostConf.Binds ∧
    (rangeOps (bs.map (BuiltinOp.toOp auth)) p s).2.1.ctrConf.Labels = p.ctrConf.Labels := by
  induction bs generalizing p s with
  | nil => simp [rangeOps]
  | cons b rest ih =>
    have hb := builtin_step_appends auth b p s
    simp only [List.map_cons, rangeOps]
    rcases hop : b.toOp auth p s with ⟨e, p1, s1⟩
    rw [hop] at hb
    cases e with
    | some err => exact hb
    | none =>
      have hr := ih p1 s1
      exact ⟨hb.1.trans hr.1, hb.2.1.trans hr.2.1, hb.2.2.1.trans hr.2.2.1,
        hr.2.2.2.trans hb.2.2.2⟩

theorem Update_snd {W : Type} (p : PhaseConfigProvider)
    (ops : List (PhaseConfigProviderOperation W)) (s : Sys W) :
    (p.Update ops s).2 = (rangeOps ops p s).2 := by
  unfold PhaseConfigProvider.Update
  rcases rangeOps ops p s with ⟨_ | e, p1, s1⟩ <;> rfl


/-- What the production factory's `New` returns. -/
theorem DefaultPhaseFactory_New_eq {W : Type} (m : DefaultPhaseFactory) (name : String)
    (p : PhaseConfigProvider) (s : Sys W) :
    m.New name p s =
      (Except.ok
          { ctrConf :=
              { p.ctrConf with
                Image := m.lifecycle.builder.Name
                Env := proxyEnv m.lifecycle p.ctrConf.Env }
            hostConf :=
              { p.hostConf with
                Binds := p.hostConf.Binds ++
                  [m.lifecycle.LayersVolume ++ ":" ++ "/layers",
                    m.lifecycle.AppVolume ++ ":" ++ "/workspace"] }
            name := name
            logger := m.lifecycle.logger
            uid := m.lifecycle.builder.UID
            gid := m.lifecycle.builder.GID
            appPath := m.lifecycle.appPath },
        { ctrConf :=
            { p.ctrConf with
              Image := m.lifecycle.builder.Name
              Env := proxyEnv m.lifecycle p.ctrConf.Env }
          hostConf :=
            { p.hostConf with
              Binds := p.hostConf.Binds ++
                [m.lifecycle.LayersVolume ++ ":" ++ "/layers",
                  m.lifecycle.AppVolume ++ ":" ++ "/workspace"] } },
        s) := by
  rfl

/-- No entry that `WithLifecycle` appends begins with `CNB_REGISTRY_AUTH=`. -/
theorem proxyEnv_nil_no_auth (lifecycle : Lifecycle) (e : String)
    (he : e ∈ proxyEnv lifecycle []) : ¬ beginsWith "CNB_REGISTRY_AUTH=" e := by
  rw [proxyEnv_eq] at he
  unfold beginsWith
  by_cases h1 : lifecycle.httpProxy = "" <;> by_cases h2 : lifecycle.httpsProxy = "" <;>
    by_cases h3 : lifecycle.noProxy = "" <;> simp [h1, h2, h3] at he
  all_goals
    rcases he with rfl | rfl | rfl | rfl | rfl | rfl <;>
      simp [String.toList, String.data_append]

/-- The operations called without `publish` hand over a provider with an empty env list. -/
theorem handed_env_nil {V W : Type} (semver : SemverPkg V) (auth : AuthPkg W) (l : Lifecycle)
    (f : PhaseFactory W) (w : W) (op : PhaseOp) (hop : op.publish = false)
    (np : String × PhaseConfigProvider)
    (h : np ∈ handed (op.run semver auth l f (Sys.init w)).2.calls) :
    np.2.ctrConf.Env = [] := by
  cases op with
  | Detect networkMode volumes =>
    simp only [PhaseOp.run, Detect_eq] at h
    generalize l.withLogLevel semver _ = r at h
    cases r with
    | panic => simp [Sys.init, handed] at h
    | ret logged =>
      simp only [handed_newThenRun, Sys.init, handed, List.nil_append, List.mem_singleton] at h
      subst h
      rfl
  | Restore cacheName =>
    simp only [PhaseOp.run, Restore_eq] at h
    generalize l.withLogLevel semver _ = r at h
    cases r with
    | panic => simp [Sys.init, handed] at h
    | ret logged =>
      simp only [handed_newThenRun, Sys.init, handed, List.nil_append, List.mem_singleton] at h
      subst h
      rfl
  | Build networkMode volumes =>
    simp only [PhaseOp.run, Build_eq, handed_newThenRun, Sys.init, handed, List.nil_append,
      List.mem_singleton] at h
    subst h
    rfl
  | Analyze repoName cacheName publish clearCache =>
    simp only [PhaseOp.publish] at hop
    subst hop
    simp only [PhaseOp.run, Analyze_daemon_eq] at h
    generalize l.withLogLevel semver _ = r at h
    cases r with
    | panic => simp [Sys.init, handed] at h
    | ret logged =>
      simp only [handed_newThenRun, Sys.init, handed, List.nil_append, List.mem_singleton] at h
      subst h
      rfl
  | Export repoName runImage publish launchCacheName cacheName =>
    simp only [PhaseOp.publish] at hop
    subst hop
    simp only [PhaseOp.run, Export_daemon_eq] at h
    generalize l.withLogLevel semver _ = r at h
    cases r with
    | panic => simp [Sys.init, handed] at h
    | ret logged =>
      simp only [handed_newThenRun, Sys.init, handed, List.nil_append, List.mem_singleton] at h
      subst h
      rfl


/-- Without a parsed version `withLogLevel` panics. -/
theorem withLogLevel_of_unparsable {V : Type} (semver : SemverPkg V) (l : Lifecycle)
    (args : List String) (hv : semver.MustParse l.version = none) :
    l.withLogLevel semver args = Exec.panic := by
  unfold Lifecycle.withLogLevel
  rw [hv]

/-- With a factory that never answers a nil phase with a nil error, `newThenRun` returns. -/
theorem newThenRun_returns {W : Type} (f : PhaseFactory W) (name : String)
    (p : PhaseConfigProvider) (s : Sys W)
    (hf : ∀ name p w, (f.New name p w).1 ≠ (none, none)) :
    ∃ err, (newThenRun f name p s).1 = Exec.ret err := by
  rcases newThenRun_cases f name p s with ⟨ph, e, w1, _, h⟩ | ⟨w1, hN, h⟩ | ⟨x, w1, _, h⟩
  · exact ⟨some e, by rw [h]⟩
  · exact absurd (by rw [hN]) (hf name p s.world)
  · exact ⟨_, by rw [h]⟩

/-- The log of `newThenRun` when the factory answers a phase: the factory call, `Run`, then
`Cleanup` on the state `Run` left. -/
theorem newThenRun_phase {W : Type} (f : PhaseFactory W) (name : String)
    (p : PhaseConfigProvider) (s : Sys W) (n : String) (q : PhaseConfigProvider)
    (hmem : Call.New n q true none ∈ (newThenRun f name p s).2.calls)
    (hs : ∀ n q, Call.New n q true none ∉ s.calls) :
    ∃ x w1, f.New name p s.world = ((some x, none), w1) ∧
      newThenRun f name p s =
        (Exec.ret (x.Run w1).1,
          { world := (x.Cleanup (x.Run w1).2).2
            calls := s.calls ++ [Call.New name p true none, Call.Run (x.Run w1).1,
              Call.Cleanup (x.Cleanup (x.Run w1).2).1] }) := by
  rcases newThenRun_cases f name p s with ⟨ph, e, w1, _, h⟩ | ⟨w1, _, h⟩ | ⟨x, w1, hN, h⟩
  · rw [h] at hmem
    simp [hs] at hmem
  · rw [h] at hmem
    simp [hs] at hmem
  · exact ⟨x, w1, hN, h⟩


theorem foldOps_append {W : Type} (xs ys : List (PhaseConfigProviderOperation W))
    (st : PhaseConfigProvider × Sys W) : foldOps (xs ++ ys) st = foldOps ys (foldOps xs st) := by
  simp [foldOps, List.foldl_append]

theorem allSucceed_append {W : Type} (xs ys : List (PhaseConfigProviderOperation W))
    (st : PhaseConfigProvider × Sys W) (h : allSucceed (xs ++ ys) st = true) :
    allSucceed xs st = true ∧ allSucceed ys (foldOps xs st) = true := by
  induction xs generalizing st with
  | nil => exact ⟨rfl, h⟩
  | cons op rest ih =>
    simp only [List.cons_append, allSucceed, Bool.and_eq_true] at h ⊢
    obtain ⟨h1, h2⟩ := ih _ h.2
    exact ⟨⟨h.1, h1⟩, by simpa [foldOps] using h2⟩

/-- A loop that returns nil ran every operation with success. -/
theorem allSucceed_of_rangeOps {W : Type} (ops : List (PhaseConfigProviderOperation W))
    (p : PhaseConfigProvider) (s : Sys W) (h : (rangeOps ops p s).1 = none) :
    allSucceed ops (p, s) = true := by
  induction ops generalizing p s with
  | nil => rfl
  | cons op rest ih =>
    simp only [rangeOps] at h
    simp only [allSucceed, Bool.and_eq_true, Option.isNone_iff_eq_none]
    rcases hop : op p s with ⟨e, p1, s1⟩
    rw [hop] at h
    cases e with
    | some err => simp at h
    | none => exact ⟨rfl, ih p1 s1 h⟩

/-- What one built-in operation does to the user. -/
theorem builtin_step_user {W : Type} (auth : AuthPkg W) (b : BuiltinOp)
    (p : PhaseConfigProvider) (s : Sys W) :
    (b.toOp auth p s).2.1.ctrConf.User = if b.setsRoot = true then "root" else p.ctrConf.User := by
  cases b with
  | WithRegistryAccess repos =>
    simp only [BuiltinOp.toOp, WithRegistryAccess, BuiltinOp.setsRoot]
    rcases auth.BuildEnvVar repos s.world with ⟨r, w1⟩
    cases r <;> simp
  | _ => simp [BuiltinOp.toOp, BuiltinOp.setsRoot, WithArgs, WithBinds, WithDaemonAccess,
      WithLifecycle, WithNetwork, WithRoot]

/-- What one built-in operation does to the network mode: it sets it if it succeeds and is a
network-setting operation, and leaves it otherwise. -/
theorem builtin_step_network {W : Type} (auth : AuthPkg W) (b : BuiltinOp)
    (p : PhaseConfigProvider) (s : Sys W) :
    (∀ m, b.setsNetwork = some m → (b.toOp auth p s).1 = none →
      (b.toOp auth p s).2.1.hostConf.NetworkMode = m) ∧
    (b.setsNetwork = none →
      (b.toOp auth p s).2.1.hostConf.NetworkMode = p.hostConf.NetworkMode) := by
  cases b with
  | WithRegistryAccess repos =>
    simp only [BuiltinOp.toOp, WithRegistryAccess, BuiltinOp.setsNetwork]
    rcases auth.BuildEnvVar repos s.world with ⟨r, w1⟩
    cases r <;> simp
  | _ => simp [BuiltinOp.toOp, BuiltinOp.setsNetwork, WithArgs, WithBinds, WithDaemonAccess,
      WithLifecycle, WithNetwork, WithRoot]

theorem foldOps_builtin_user {W : Type} (auth : AuthPkg W) (bs : List BuiltinOp)
    (st : PhaseConfigProvider × Sys W) :
    (foldOps (bs.map (BuiltinOp.toOp auth)) st).1.ctrConf.User =
      if bs.any BuiltinOp.setsRoot = true then "root" else st.1.ctrConf.User := by
  induction bs generalizing st with
  | nil => simp [foldOps]
  | cons b rest ih =>
    have hb := builtin_step_user auth b st.1 st.2
    simp only [List.map_cons, foldOps, List.foldl_cons, List.any_cons, Bool.or_eq_true]
    have := ih (b.toOp auth st.1 st.2).2
    simp only [foldOps] at this
    rw [this, hb]
    by_cases h1 : b.setsRoot = true <;> by_cases h2 : rest.any BuiltinOp.setsRoot = true <;>
      simp [h1, h2]

theorem foldOps_builtin_network_keep {W : Type} (auth : AuthPkg W) (bs : List BuiltinOp)
    (st : PhaseConfigProvider × Sys W) (h : ∀ b ∈ bs, b.setsNetwork = none) :
    (foldOps (bs.map (BuiltinOp.toOp auth)) st).1.hostConf.NetworkMode =
      st.1.hostConf.NetworkMode := by
  induction bs generalizing st with
  | nil => simp [foldOps]
  | cons b rest ih =>
    have hb := (builtin_step_network auth b st.1 st.2).2 (h b (List.mem_cons_self _ _))
    have := ih (b.toOp auth st.1 st.2).2 (fun b' hb' => h b' (List.mem_cons_of_mem _ hb'))
    simp only [foldOps] at this
    simp only [List.map_cons, foldOps, List.foldl_cons]
    rw [this, hb]

/-- The scalar fields after a loop of built-in operations that returned nil. -/
theorem rangeOps_builtin_scalars {W : Type} (auth : AuthPkg W) (bs : List BuiltinOp)
    (p0 : PhaseConfigProvider) (s : Sys W)
    (h : (rangeOps (bs.map (BuiltinOp.toOp auth)) p0 s).1 = none) :
    (∀ pre b post m, bs = pre ++ b :: post → b.setsNetwork = some m →
      (∀ b1 ∈ post, b1.setsNetwork = none) →
      (rangeOps (bs.map (BuiltinOp.toOp auth)) p0 s).2.1.hostConf.NetworkMode = m) ∧
    (rangeOps (bs.map (BuiltinOp.toOp auth)) p0 s).2.1.ctrConf.User =
      if bs.any BuiltinOp.setsRoot = true then "root" else p0.ctrConf.User := by
  have hall := allSucceed_of_rangeOps _ p0 s h
  rw [rangeOps_of_allSucceed _ p0 s hall]
  refine ⟨fun pre b post m hbs hm hpost => ?_, foldOps_builtin_user auth bs (p0, s)⟩
  subst hbs
  simp only [List.map_append, List.map_cons] at hall ⊢
  obtain ⟨_, h2⟩ := allSucceed_append _ _ _ hall
  simp only [allSucceed, Bool.and_eq_true, Option.isNone_iff_eq_none] at h2
  rw [foldOps_append]
  show (foldOps (List.map (BuiltinOp.toOp auth) post)
    (b.toOp auth (foldOps _ (p0, s)).1 (foldOps _ (p0, s)).2).2).1.hostConf.NetworkMode = m
  rw [foldOps_builtin_network_keep auth post _ hpost]
  exact (builtin_step_network auth b _ _).1 m hm h2.1


/-- A built-in operation that fails leaves the provider as it found it. -/
theorem builtin_fail_keeps {W : Type} (auth : AuthPkg W) (b : BuiltinOp)
    (p : PhaseConfigProvider) (s : Sys W) (e : GoError) (h : (b.toOp auth p s).1 = some e) :
    (b.toOp auth p s).2.1 = p := by
  cases b with
  | WithRegistryAccess repos =>
    simp only [BuiltinOp.toOp, WithRegistryAccess] at h ⊢
    rcases hA : auth.BuildEnvVar repos s.world with ⟨r, w1⟩
    rw [hA] at h
    cases r with
    | ok a => simp at h
    | fail e1 => rfl
  | _ => simp [BuiltinOp.toOp, WithArgs, WithBinds, WithDaemonAccess, WithLifecycle, WithNetwork,
      WithRoot] at h

/-! ## Claims -/

/-- C1 (as amended): for every `Analyze` call, the argument vector handed to the factory, with
`clearCache = false`, contains `-cache-dir` immediately followed by `/cache`, and does not
contain `-skip-layers` unless the repository name is itself `-skip-layers`; with
`clearCache = true` it contains `-skip-layers` and never `-cache-dir` followed by `/cache`. -/
theorem Analyze_cache_flags {V W : Type} (semver : SemverPkg V) (auth : AuthPkg W)
    (l : Lifecycle) (repoName cacheName : String) (publish clearCache : Bool)
    (f : PhaseFactory W) (w : W) (name : String) (p : PhaseConfigProvider)
    (h : (name, p) ∈ handed
      (l.Analyze semver auth repoName cacheName publish clearCache f (Sys.init w)).2.calls) :
    (clearCache = false →
      ["-cache-dir", "/cache"] <:+: p.ctrConf.Cmd ∧
        (repoName ≠ "-skip-layers" → "-skip-layers" ∉ p.ctrConf.Cmd)) ∧
    (clearCache = true →
      "-skip-layers" ∈ p.ctrConf.Cmd ∧ ¬ ["-cache-dir", "/cache"] <:+: p.ctrConf.Cmd) := by
  obtain ⟨pre, hpre, hcmd⟩ := Analyze_handed semver auth l repoName cacheName publish clearCache
    f w name p h
  rw [hcmd]
  constructor
  · intro hc
    subst hc
    refine ⟨?_, fun hne => ?_⟩
    · rcases hpre with rfl | rfl | rfl <;> simp [List.infix_cons_iff, List.cons_prefix_cons]
    · rcases hpre with rfl | rfl | rfl <;> simp [Ne.symm hne]
  · intro hc
    subst hc
    refine ⟨?_, ?_⟩
    · rcases hpre with rfl | rfl | rfl <;> simp
    · rcases hpre with rfl | rfl | rfl <;> simp [List.infix_cons_iff, List.cons_prefix_cons]

/-- Worked instance of C1 as amended: `Analyze("some-repo-name", "test", publish = false,
clearCache = false)` at version 0.4.1, verbose. -/
theorem Analyze_cache_flags_witness :
    ("analyzer",
        ({ ctrConf :=
            { Cmd := ["/cnb/lifecycle/analyzer", "-log-level", "debug", "-daemon", "-cache-dir",
                "/cache", "-layers", "/layers", "some-repo-name"]
              Labels := [("author", "pack")]
              Image := ""
              User := "root"
              Env := [] }
           hostConf :=
            { Binds := ["/var/run/docker.sock:/var/run/docker.sock", "test:/cache"]
              NetworkMode := "" } } : PhaseConfigProvider)) ∈
      handed ((sampleLifecycle "0.4.1" true).Analyze tripleSemver
        (fixedAuth (AuthResult.ok "creds")) "some-repo-name" "test" false false
        (fixedFactory (some (fixedPhase none none)) none) (Sys.init ())).2.calls ∧
    ["-cache-dir", "/cache"] <:+:
      ["/cnb/lifecycle/analyzer", "-log-level", "debug", "-daemon", "-cache-dir", "/cache",
        "-layers", "/layers", "some-repo-name"] ∧
    "-skip-layers" ∉
      ["/cnb/lifecycle/analyzer", "-log-level", "debug", "-daemon", "-cache-dir", "/cache",
        "-layers", "/layers", "some-repo-name"] :=
  have hmem : ("analyzer",
        ({ ctrConf :=
            { Cmd := ["/cnb/lifecycle/analyzer", "-log-level", "debug", "-daemon", "-cache-dir",
                "/cache", "-layers", "/layers", "some-repo-name"]
              Labels := [("author", "pack")]
              Image := ""
              User := "root"
              Env := [] }
           hostConf :=
            { Binds := ["/var/run/docker.sock:/var/run/docker.sock", "test:/cache"]
              NetworkMode := "" } } : PhaseConfigProvider)) ∈
      handed ((sampleLifecycle "0.4.1" true).Analyze tripleSemver
        (fixedAuth (AuthResult.ok "creds")) "some-repo-name" "test" false false
        (fixedFactory (some (fixedPhase none none)) none) (Sys.init ())).2.calls := by decide
  have hall := (Analyze_cache_flags tripleSemver (fixedAuth (AuthResult.ok "creds"))
    (sampleLifecycle "0.4.1" true) "some-repo-name" "test" false false
    (fixedFactory (some (fixedPhase none none)) none) () "analyzer" _ hmem).1 rfl
  ⟨hmem, hall.1, hall.2 (by decide)⟩

/-- C1 fails as stated: `Analyze("-skip-layers", "test", publish = false, clearCache = false)`
hands the factory an argument vector that contains `-skip-layers` (the repository name). -/
theorem Analyze_cache_flags_counterexample :
    handed ((sampleLifecycle "0.4.1" false).Analyze tripleSemver
        (fixedAuth (AuthResult.ok "creds")) "-skip-layers" "test" false false
        (fixedFactory (some (fixedPhase none none)) none) (Sys.init ())).2.calls =
      [("analyzer",
        { ctrConf :=
            { Cmd := ["/cnb/lifecycle/analyzer", "-daemon", "-cache-dir", "/cache", "-layers",
                "/layers", "-skip-layers"]
              Labels := [("author", "pack")]
              Image := ""
              User := "root"
              Env := [] }
          hostConf :=
            { Binds := ["/var/run/docker.sock:/var/run/docker.sock", "test:/cache"]
              NetworkMode := "" } })] ∧
    "-skip-layers" ∈ ["/cnb/lifecycle/analyzer", "-daemon", "-cache-dir", "/cache", "-layers",
      "/layers", "-skip-layers"] := by
  decide

/-- C2: for `Analyze` and `Export` called with `publish = true`, whenever the registry-credential
resolution succeeds with serialized credentials `a`, the provider handed to the factory has
network mode `host`, user `root`, and the env entry `CNB_REGISTRY_AUTH=` followed by `a`.
`Analyze` then hands over exactly one provider; `Export` hands over exactly one when the version
parses (it panics before resolving anything otherwise), and whatever it hands over has these
three settings. -/
theorem publish_registry_access {V W : Type} (semver : SemverPkg V) (auth : AuthPkg W)
    (l : Lifecycle) (f : PhaseFactory W) (w : W) :
    (∀ repoName cacheName clearCache a w1,
      auth.BuildEnvVar [repoName] w = (AuthResult.ok a, w1) →
        ∃ p, handed
            (l.Analyze semver auth repoName cacheName true clearCache f (Sys.init w)).2.calls =
              [("analyzer", p)] ∧
          p.hostConf.NetworkMode = "host" ∧ p.ctrConf.User = "root" ∧
          "CNB_REGISTRY_AUTH=" ++ a ∈ p.ctrConf.Env) ∧
    (∀ repoName runImage launchCacheName cacheName a w1,
      auth.BuildEnvVar [repoName, runImage] w = (AuthResult.ok a, w1) →
        (∀ np ∈ handed
            (l.Export semver auth repoName runImage true launchCacheName cacheName f
              (Sys.init w)).2.calls,
          np.1 = "exporter" ∧ np.2.hostConf.NetworkMode = "host" ∧ np.2.ctrConf.User = "root" ∧
            "CNB_REGISTRY_AUTH=" ++ a ∈ np.2.ctrConf.Env) ∧
        (∀ v c, semver.MustParse l.version = some v → semver.MustParse "0.4.0" = some c →
          ∃ p, handed
              (l.Export semver auth repoName runImage true launchCacheName cacheName f
                (Sys.init w)).2.calls = [("exporter", p)] ∧
            p.hostConf.NetworkMode = "host" ∧ p.ctrConf.User = "root" ∧
            "CNB_REGISTRY_AUTH=" ++ a ∈ p.ctrConf.Env)) := by
  constructor
  · intro repoName cacheName clearCache a w1 hA
    rw [Analyze_publish_eq]
    simp only [Sys.init, hA]
    simp [handed_newThenRun, handed]
  · intro repoName runImage launchCacheName cacheName a w1 hA
    constructor
    · intro np h
      rw [Export_publish_eq] at h
      generalize l.withLogLevel semver _ = r at h
      cases r with
      | panic => simp [Sys.init, handed] at h
      | ret logged =>
        simp only [Sys.init, hA] at h
        simp only [handed_newThenRun, handed, handed_append, List.nil_append,
          List.mem_singleton] at h
        subst h
        simp
    · intro v c hv hc
      rw [Export_publish_eq, withLogLevel_of_parse semver l _ v c hv hc]
      simp only [Sys.init, hA]
      simp [handed_newThenRun, handed]

/-- Worked instance of C2: `Export("some-repo-name", "some-run-image", publish = true, ...)` at
version 0.4.1 and `Analyze("some-repo-name", "test", publish = true, clearCache = false)`, with a
resolver answering `creds`. -/
theorem publish_registry_access_witness :
    (fixedAuth (AuthResult.ok "creds")).BuildEnvVar ["some-repo-name", "some-run-image"] () =
      (AuthResult.ok "creds", ()) ∧
    tripleSemver.MustParse (sampleLifecycle "0.4.1" false).version = some (0, 4, 1) ∧
    tripleSemver.MustParse "0.4.0" = some (0, 4, 0) ∧
    (∃ p, handed
        ((sampleLifecycle "0.4.1" false).Export tripleSemver (fixedAuth (AuthResult.ok "creds"))
          "some-repo-name" "some-run-image" true "some-launch-cache" "some-cache"
          (fixedFactory (some (fixedPhase none none)) none) (Sys.init ())).2.calls =
          [("exporter", p)] ∧
      p.hostConf.NetworkMode = "host" ∧ p.ctrConf.User = "root" ∧
      "CNB_REGISTRY_AUTH=" ++ "creds" ∈ p.ctrConf.Env) ∧
    (fixedAuth (AuthResult.ok "creds")).BuildEnvVar ["some-repo-name"] () =
      (AuthResult.ok "creds", ()) ∧
    ∃ p, handed
        ((sampleLifecycle "0.4.1" false).Analyze tripleSemver (fixedAuth (AuthResult.ok "creds"))
          "some-repo-name" "test" true false (fixedFactory (some (fixedPhase none none)) none)
          (Sys.init ())).2.calls = [("analyzer", p)] ∧
      p.hostConf.NetworkMode = "host" ∧ p.ctrConf.User = "root" ∧
      "CNB_REGISTRY_AUTH=" ++ "creds" ∈ p.ctrConf.Env :=
  ⟨rfl, by decide, by decide,
    ((publish_registry_access tripleSemver (fixedAuth (AuthResult.ok "creds"))
      (sampleLifecycle "0.4.1" false) (fixedFactory (some (fixedPhase none none)) none) ()).2
      "some-repo-name" "some-run-image" "some-launch-cache" "some-cache" "creds" () rfl).2
      (0, 4, 1) (0, 4, 0) (by decide) (by decide),
    rfl,
    (publish_registry_access tripleSemver (fixedAuth (AuthResult.ok "creds"))
      (sampleLifecycle "0.4.1" false) (fixedFactory (some (fixedPhase none none)) none) ()).1
      "some-repo-name" "test" false "creds" () rfl⟩

/-- C3: with a lifecycle version that parses (and the constant `0.4.0` parsing), `Restore`, and
`Analyze` and `Export` called with `publish = false`, hand the factory exactly one provider; its
user is `root` and its binds include the docker socket. -/
theorem daemon_access {V W : Type} (semver : SemverPkg V) (auth : AuthPkg W) (l : Lifecycle)
    (f : PhaseFactory W) (w : W) (v c : V) (hv : semver.MustParse l.version = some v)
    (hc : semver.MustParse "0.4.0" = some c) :
    (∀ cacheName,
      ∃ p, handed (l.Restore semver cacheName f (Sys.init w)).2.calls = [("restorer", p)] ∧
        p.ctrConf.User = "root" ∧
        "/var/run/docker.sock:/var/run/docker.sock" ∈ p.hostConf.Binds) ∧
    (∀ repoName cacheName clearCache,
      ∃ p, handed
          (l.Analyze semver auth repoName cacheName false clearCache f (Sys.init w)).2.calls =
            [("analyzer", p)] ∧
        p.ctrConf.User = "root" ∧
        "/var/run/docker.sock:/var/run/docker.sock" ∈ p.hostConf.Binds) ∧
    (∀ repoName runImage launchCacheName cacheName,
      ∃ p, handed
          (l.Export semver auth repoName runImage false launchCacheName cacheName f
            (Sys.init w)).2.calls = [("exporter", p)] ∧
        p.ctrConf.User = "root" ∧
        "/var/run/docker.sock:/var/run/docker.sock" ∈ p.hostConf.Binds) := by
  refine ⟨fun cacheName => ?_, fun repoName cacheName clearCache => ?_,
    fun repoName runImage launchCacheName cacheName => ?_⟩
  · rw [Restore_eq, withLogLevel_of_parse semver l _ v c hv hc]
    simp [handed_newThenRun, Sys.init, handed]
  · rw [Analyze_daemon_eq, withLogLevel_of_parse semver l _ v c hv hc]
    simp [handed_newThenRun, Sys.init, handed]
  · rw [Export_daemon_eq, withLogLevel_of_parse semver l _ v c hv hc]
    simp [handed_newThenRun, Sys.init, handed]

/-- Worked instance of C3: version 0.4.1, `Restore("test")`. -/
theorem daemon_access_witness :
    tripleSemver.MustParse (sampleLifecycle "0.4.1" false).version = some (0, 4, 1) ∧
    tripleSemver.MustParse "0.4.0" = some (0, 4, 0) ∧
    ∃ p, handed ((sampleLifecycle "0.4.1" false).Restore tripleSemver "test"
        (fixedFactory (some (fixedPhase none none)) none) (Sys.init ())).2.calls =
          [("restorer", p)] ∧
      p.ctrConf.User = "root" ∧
      "/var/run/docker.sock:/var/run/docker.sock" ∈ p.hostConf.Binds :=
  ⟨by decide, by decide,
    (daemon_access tripleSemver (fixedAuth (AuthResult.ok "creds"))
      (sampleLifecycle "0.4.1" false) (fixedFactory (some (fixedPhase none none)) none) ()
      (0, 4, 1) (0, 4, 0) (by decide) (by decide)).1 "test"⟩

/-- C4: when the lifecycle version parses to `v` (and `0.4.0` to `c`), `withLogLevel(args)`
returns `-log-level debug` followed by `args` if `c.LessThan(v)` and the logger is verbose, and
`args` unchanged otherwise; in particular it returns `args` when the logger is not verbose, and
at version `0.4.0` itself whenever `LessThan` is irreflexive there. -/
theorem withLogLevel_spec {V : Type} (semver : SemverPkg V) (l : Lifecycle)
    (args : List String) (v c : V) (hv : semver.MustParse l.version = some v)
    (hc : semver.MustParse "0.4.0" = some c) :
    (semver.LessThan c v = true ∧ l.logger.IsVerbose = true →
      l.withLogLevel semver args = Exec.ret (["-log-level", "debug"] ++ args)) ∧
    (¬ (semver.LessThan c v = true ∧ l.logger.IsVerbose = true) →
      l.withLogLevel semver args = Exec.ret args) ∧
    (l.logger.IsVerbose = false → l.withLogLevel semver args = Exec.ret args) ∧
    (l.version = "0.4.0" → semver.LessThan c c = false →
      l.withLogLevel semver args = Exec.ret args) := by
  rw [withLogLevel_of_parse semver l args v c hv hc]
  refine ⟨fun h => by rw [if_pos h], fun h => by rw [if_neg h], fun h => ?_, fun hver hirr => ?_⟩
  · simp [h]
  · rw [hver, hc] at hv
    cases hv
    simp [hirr]

/-- Worked instance of C4 with the `MAJOR.MINOR.PATCH` stand-in: version 0.4.1, verbose. -/
theorem withLogLevel_spec_witness :
    tripleSemver.MustParse (sampleLifecycle "0.4.1" true).version = some (0, 4, 1) ∧
    tripleSemver.MustParse "0.4.0" = some (0, 4, 0) ∧
    tripleSemver.LessThan (0, 4, 0) (0, 4, 1) = true ∧
    (sampleLifecycle "0.4.1" true).withLogLevel tripleSemver ["-app", "/workspace"] =
      Exec.ret (["-log-level", "debug"] ++ ["-app", "/workspace"]) :=
  ⟨by decide, by decide, by decide,
    (withLogLevel_spec tripleSemver (sampleLifecycle "0.4.1" true) ["-app", "/workspace"]
      (0, 4, 1) (0, 4, 0) (by decide) (by decide)).1 ⟨by decide, by decide⟩⟩

/-- C5: at lifecycle version `0.4.0` (with a `LessThan` that is irreflexive there), for every
phase operation and every choice of its inputs, no argument vector handed to the factory
contains `-log-level` immediately followed by `debug`. -/
theorem no_log_level_at_040 {V W : Type} (semver : SemverPkg V) (auth : AuthPkg W)
    (l : Lifecycle) (f : PhaseFactory W) (w : W) (hver : l.version = "0.4.0")
    (hirr : ∀ c, semver.MustParse "0.4.0" = some c → semver.LessThan c c = false)
    (op : PhaseOp) (np : String × PhaseConfigProvider)
    (h : np ∈ handed (op.run semver auth l f (Sys.init w)).2.calls) :
    ¬ ["-log-level", "debug"] <:+: np.2.ctrConf.Cmd := by
  cases op with
  | Detect networkMode volumes =>
    simp only [PhaseOp.run, Detect_eq] at h
    generalize hr : l.withLogLevel semver _ = r at h
    rcases withLogLevel_at_040_eq semver l _ hver hirr r hr with rfl | rfl
    · simp [Sys.init, handed] at h
    · simp only [handed_newThenRun, Sys.init, handed, List.nil_append, List.mem_singleton] at h
      subst h
      simp [List.infix_cons_iff, List.cons_prefix_cons]
  | Restore cacheName =>
    simp only [PhaseOp.run, Restore_eq] at h
    generalize hr : l.withLogLevel semver _ = r at h
    rcases withLogLevel_at_040_eq semver l _ hver hirr r hr with rfl | rfl
    · simp [Sys.init, handed] at h
    · simp only [handed_newThenRun, Sys.init, handed, List.nil_append, List.mem_singleton] at h
      subst h
      simp [List.infix_cons_iff, List.cons_prefix_cons]
  | Build networkMode volumes =>
    simp only [PhaseOp.run, Build_eq, handed_newThenRun, Sys.init, handed, List.nil_append,
      List.mem_singleton] at h
    subst h
    simp [List.infix_cons_iff, List.cons_prefix_cons]
  | Analyze repoName cacheName publish clearCache =>
    cases publish with
    | true =>
      simp only [PhaseOp.run, Analyze_publish_eq] at h
      rcases hA : auth.BuildEnvVar [repoName] (Sys.init w).world with ⟨r, w1⟩
      rw [hA] at h
      cases r with
      | fail e => simp [Sys.init, handed] at h
      | ok a =>
        simp only [handed_newThenRun, Sys.init, handed, handed_append, List.nil_append,
          List.mem_singleton] at h
        subst h
        cases clearCache <;> simp [List.infix_cons_iff, List.cons_prefix_cons]
    | false =>
      simp only [PhaseOp.run, Analyze_daemon_eq] at h
      generalize hr : l.withLogLevel semver _ = r at h
      rcases withLogLevel_at_040_eq semver l _ hver hirr r hr with rfl | rfl
      · simp [Sys.init, handed] at h
      · simp only [handed_newThenRun, Sys.init, handed, List.nil_append,
          List.mem_singleton] at h
        subst h
        cases clearCache <;> simp [List.infix_cons_iff, List.cons_prefix_cons]
  | Export repoName runImage publish launchCacheName cacheName =>
    cases publish with
    | true =>
      simp only [PhaseOp.run, Export_publish_eq] at h
      generalize hr : l.withLogLevel semver _ = r at h
      rcases withLogLevel_at_040_eq semver l _ hver hirr r hr with rfl | rfl
      · simp [Sys.init, handed] at h
      · simp only at h
        rcases hA : auth.BuildEnvVar [repoName, runImage] (Sys.init w).world with ⟨r, w1⟩
        rw [hA] at h
        cases r with
        | fail e => simp [Sys.init, handed] at h
        | ok a =>
          simp only [handed_newThenRun, Sys.init, handed, handed_append, List.nil_append,
            List.mem_singleton] at h
          subst h
          simp [List.infix_cons_iff, List.cons_prefix_cons]
    | false =>
      simp only [PhaseOp.run, Export_daemon_eq] at h
      generalize hr : l.withLogLevel semver _ = r at h
      rcases withLogLevel_at_040_eq semver l _ hver hirr r hr with rfl | rfl
      · simp [Sys.init, handed] at h
      · simp only [handed_newThenRun, Sys.init, handed, List.nil_append,
          List.mem_singleton] at h
        subst h
        simp [List.infix_cons_iff, List.cons_prefix_cons]

/-- Worked instance of C5: version 0.4.0, verbose, `Detect("test", ["test"])`. -/
theorem no_log_level_at_040_witness :
    (sampleLifecycle "0.4.0" true).version = "0.4.0" ∧
    handed ((PhaseOp.Detect "test" ["test"]).run tripleSemver (fixedAuth (AuthResult.ok "creds"))
        (sampleLifecycle "0.4.0" true) (fixedFactory (some (fixedPhase none none)) none)
        (Sys.init ())).2.calls =
      [("detector",
        { ctrConf :=
            { Cmd := ["/cnb/lifecycle/detector", "-app", "/workspace", "-platform", "/platform"]
              Labels := [("author", "pack")]
              Image := ""
              User := ""
              Env := [] }
          hostConf := { Binds := ["test"], NetworkMode := "test" } })] ∧
    ¬ ["-log-level", "debug"] <:+:
      ["/cnb/lifecycle/detector", "-app", "/workspace", "-platform", "/platform"] :=
  have hh : handed ((PhaseOp.Detect "test" ["test"]).run tripleSemver
        (fixedAuth (AuthResult.ok "creds")) (sampleLifecycle "0.4.0" true)
        (fixedFactory (some (fixedPhase none none)) none) (Sys.init ())).2.calls =
      [("detector",
        { ctrConf :=
            { Cmd := ["/cnb/lifecycle/detector", "-app", "/workspace", "-platform", "/platform"]
              Labels := [("author", "pack")]
              Image := ""
              User := ""
              Env := [] }
          hostConf := { Binds := ["test"], NetworkMode := "test" } })] := by decide
  ⟨rfl, hh,
    no_log_level_at_040 tripleSemver (fixedAuth (AuthResult.ok "creds"))
      (sampleLifecycle "0.4.0" true) (fixedFactory (some (fixedPhase none none)) none) () rfl
      (fun c _ => by simp [tripleSemver]) (PhaseOp.Detect "test" ["test"]) _
      (by rw [hh]; exact List.mem_singleton.mpr rfl)⟩

/-- C6: in every phase operation, if the factory returned a phase (and no error), `Run` is called
exactly once and `Cleanup` exactly once, whatever `Run` returns; if the factory returned an
error, or building the provider failed (a credential resolution failed), no provider's phase is
run or cleaned up. -/
theorem run_cleanup_counts {V W : Type} (semver : SemverPkg V) (auth : AuthPkg W)
    (l : Lifecycle) (f : PhaseFactory W) (op : PhaseOp) (w : W) :
    ((∃ name p, Call.New name p true none ∈ (op.run semver auth l f (Sys.init w)).2.calls) →
      runCount (op.run semver auth l f (Sys.init w)).2.calls = 1 ∧
        cleanupCount (op.run semver auth l f (Sys.init w)).2.calls = 1) ∧
    ((∃ name p b e,
        Call.New name p b (some e) ∈ (op.run semver auth l f (Sys.init w)).2.calls) →
      runCount (op.run semver auth l f (Sys.init w)).2.calls = 0 ∧
        cleanupCount (op.run semver auth l f (Sys.init w)).2.calls = 0) ∧
    ((∃ repos e, Call.BuildEnvVar repos (AuthResult.fail e) ∈
        (op.run semver auth l f (Sys.init w)).2.calls) →
      handed (op.run semver auth l f (Sys.init w)).2.calls = [] ∧
        runCount (op.run semver auth l f (Sys.init w)).2.calls = 0 ∧
        cleanupCount (op.run semver auth l f (Sys.init w)).2.calls = 0) := by
  rcases run_outcomes semver auth l f op w _ _ rfl rfl with ⟨_, hc⟩ | ⟨repos, e, _, hc⟩ |
    ⟨pre, name, p, hpre, ⟨b, e, _, hc⟩ | ⟨_, hc⟩ | ⟨runErr, cleanupErr, _, hc⟩⟩
  · simp [hc, runCount, cleanupCount, handed]
  · simp [hc, runCount, cleanupCount, handed]
  · rcases hpre with rfl | ⟨repos, a, rfl⟩ <;> simp [hc, runCount, cleanupCount, handed]
  · rcases hpre with rfl | ⟨repos, a, rfl⟩ <;> simp [hc, runCount, cleanupCount, handed]
  · rcases hpre with rfl | ⟨repos, a, rfl⟩ <;> simp [hc, runCount, cleanupCount, handed]

/-- Worked instance of C6: `Detect("test", [])` with a phase whose `Run` fails. -/
theorem run_cleanup_counts_witness :
    (∃ name p, Call.New name p true none ∈
      ((PhaseOp.Detect "test" []).run tripleSemver (fixedAuth (AuthResult.ok "creds"))
        (sampleLifecycle "0.4.1" false)
        (fixedFactory (some (fixedPhase (some (GoError.base "run failed")) none)) none)
        (Sys.init ())).2.calls) ∧
    runCount ((PhaseOp.Detect "test" []).run tripleSemver (fixedAuth (AuthResult.ok "creds"))
      (sampleLifecycle "0.4.1" false)
      (fixedFactory (some (fixedPhase (some (GoError.base "run failed")) none)) none)
      (Sys.init ())).2.calls = 1 ∧
    cleanupCount ((PhaseOp.Detect "test" []).run tripleSemver (fixedAuth (AuthResult.ok "creds"))
      (sampleLifecycle "0.4.1" false)
      (fixedFactory (some (fixedPhase (some (GoError.base "run failed")) none)) none)
      (Sys.init ())).2.calls = 1 :=
  have hnew : ∃ name p, Call.New name p true none ∈
      ((PhaseOp.Detect "test" []).run tripleSemver (fixedAuth (AuthResult.ok "creds"))
        (sampleLifecycle "0.4.1" false)
        (fixedFactory (some (fixedPhase (some (GoError.base "run failed")) none)) none)
        (Sys.init ())).2.calls :=
    ⟨"detector",
      { ctrConf :=
          { Cmd := ["/cnb/lifecycle/detector", "-app", "/workspace", "-platform", "/platform"]
            Labels := [("author", "pack")]
            Image := ""
            User := ""
            Env := [] }
        hostConf := { Binds := [], NetworkMode := "test" } }, by decide⟩
  ⟨hnew,
    (run_cleanup_counts tripleSemver (fixedAuth (AuthResult.ok "creds"))
      (sampleLifecycle "0.4.1" false)
      (fixedFactory (some (fixedPhase (some (GoError.base "run failed")) none)) none)
      (PhaseOp.Detect "test" []) ()).1 hnew⟩

/-- C7: in every phase operation, the value returned to the caller is the one `Run` returned,
whatever `Cleanup` returned; and when the factory returned a phase, the log ends with the
factory call, `Run`, then `Cleanup`, the operation returning `Run`'s value. -/
theorem result_is_run_result {V W : Type} (semver : SemverPkg V) (auth : AuthPkg W)
    (l : Lifecycle) (f : PhaseFactory W) (op : PhaseOp) (w : W) :
    (∀ runErr, Call.Run runErr ∈ (op.run semver auth l f (Sys.init w)).2.calls →
      (op.run semver auth l f (Sys.init w)).1 = Exec.ret runErr) ∧
    ((∃ name p, Call.New name p true none ∈ (op.run semver auth l f (Sys.init w)).2.calls) →
      ∃ pre name p runErr cleanupErr,
        (op.run semver auth l f (Sys.init w)).2.calls =
          pre ++ [Call.New name p true none, Call.Run runErr, Call.Cleanup cleanupErr] ∧
        (op.run semver auth l f (Sys.init w)).1 = Exec.ret runErr) := by
  rcases run_outcomes semver auth l f op w _ _ rfl rfl with ⟨_, hc⟩ | ⟨repos, e, _, hc⟩ |
    ⟨pre, name, p, hpre, ⟨b, e, _, hc⟩ | ⟨_, hc⟩ | ⟨runErr, cleanupErr, ho, hc⟩⟩
  · simp [hc]
  · simp [hc]
  · rcases hpre with rfl | ⟨repos, a, rfl⟩ <;> simp [hc]
  · rcases hpre with rfl | ⟨repos, a, rfl⟩ <;> simp [hc]
  · refine ⟨fun r hr => ?_, fun _ => ⟨pre, name, p, runErr, cleanupErr, hc, ho⟩⟩
    rw [ho]
    rcases hpre with rfl | ⟨repos, a, rfl⟩ <;> simp [hc] at hr <;> rw [hr]

/-- Worked instance of C7: `Build("test", [])` with a phase whose `Run` and `Cleanup` both fail;
the operation returns `Run`'s error. -/
theorem result_is_run_result_witness :
    Call.Run (some (GoError.base "run failed")) ∈
      ((PhaseOp.Build "test" []).run tripleSemver (fixedAuth (AuthResult.ok "creds"))
        (sampleLifecycle "0.4.1" false)
        (fixedFactory (some (fixedPhase (some (GoError.base "run failed"))
          (some (GoError.base "cleanup failed")))) none) (Sys.init ())).2.calls ∧
    Call.Cleanup (some (GoError.base "cleanup failed")) ∈
      ((PhaseOp.Build "test" []).run tripleSemver (fixedAuth (AuthResult.ok "creds"))
        (sampleLifecycle "0.4.1" false)
        (fixedFactory (some (fixedPhase (some (GoError.base "run failed"))
          (some (GoError.base "cleanup failed")))) none) (Sys.init ())).2.calls ∧
    ((PhaseOp.Build "test" []).run tripleSemver (fixedAuth (AuthResult.ok "creds"))
      (sampleLifecycle "0.4.1" false)
      (fixedFactory (some (fixedPhase (some (GoError.base "run failed"))
        (some (GoError.base "cleanup failed")))) none) (Sys.init ())).1 =
      Exec.ret (some (GoError.base "run failed")) :=
  have hrun : Call.Run (some (GoError.base "run failed")) ∈
      ((PhaseOp.Build "test" []).run tripleSemver (fixedAuth (AuthResult.ok "creds"))
        (sampleLifecycle "0.4.1" false)
        (fixedFactory (some (fixedPhase (some (GoError.base "run failed"))
          (some (GoError.base "cleanup failed")))) none) (Sys.init ())).2.calls := by decide
  ⟨hrun, by decide,
    (result_is_run_result tripleSemver (fixedAuth (AuthResult.ok "creds"))
      (sampleLifecycle "0.4.1" false)
      (fixedFactory (some (fixedPhase (some (GoError.base "run failed"))
        (some (GoError.base "cleanup failed")))) none) (PhaseOp.Build "test" []) ()).1 _ hrun⟩

/-- C8: for `Analyze` and `Export` called with `publish = true`, if a registry-credential
resolution failed with error `e`, the operation returns `e` wrapped with `create phase config`,
and the credential resolution is the only call made: the factory is never invoked, nothing is
run or cleaned up. -/
theorem credential_failure_aborts {V W : Type} (semver : SemverPkg V) (auth : AuthPkg W)
    (l : Lifecycle) (f : PhaseFactory W) (w : W) (repos : List String) (e : GoError) :
    (∀ repoName cacheName clearCache,
      Call.BuildEnvVar repos (AuthResult.fail e) ∈
          (l.Analyze semver auth repoName cacheName true clearCache f (Sys.init w)).2.calls →
        (l.Analyze semver auth repoName cacheName true clearCache f (Sys.init w)).1 =
            Exec.ret (some (GoError.Wrap e "create phase config")) ∧
          (l.Analyze semver auth repoName cacheName true clearCache f (Sys.init w)).2.calls =
            [Call.BuildEnvVar [repoName] (AuthResult.fail e)] ∧
          handed (l.Analyze semver auth repoName cacheName true clearCache f
            (Sys.init w)).2.calls = []) ∧
    (∀ repoName runImage launchCacheName cacheName,
      Call.BuildEnvVar repos (AuthResult.fail e) ∈
          (l.Export semver auth repoName runImage true launchCacheName cacheName f
            (Sys.init w)).2.calls →
        (l.Export semver auth repoName runImage true launchCacheName cacheName f
            (Sys.init w)).1 = Exec.ret (some (GoError.Wrap e "create phase config")) ∧
          (l.Export semver auth repoName runImage true launchCacheName cacheName f
            (Sys.init w)).2.calls = [Call.BuildEnvVar [repoName, runImage] (AuthResult.fail e)] ∧
          handed (l.Export semver auth repoName runImage true launchCacheName cacheName f
            (Sys.init w)).2.calls = []) := by
  constructor
  · intro repoName cacheName clearCache h
    rw [Analyze_publish_eq] at h ⊢
    rcases hA : auth.BuildEnvVar [repoName] (Sys.init w).world with ⟨r, w1⟩
    rw [hA] at h
    cases r with
    | fail e1 =>
      simp only [Sys.init, List.nil_append, List.mem_singleton, Call.BuildEnvVar.injEq,
        AuthResult.fail.injEq] at h
      simp [Sys.init, handed, h.2]
    | ok a =>
      simp [mem_calls_newThenRun_BuildEnvVar, Sys.init] at h
  · intro repoName runImage launchCacheName cacheName h
    rw [Export_publish_eq] at h ⊢
    generalize l.withLogLevel semver _ = r at h ⊢
    cases r with
    | panic => simp [Sys.init] at h
    | ret logged =>
      rcases hA : auth.BuildEnvVar [repoName, runImage] (Sys.init w).world with ⟨r, w1⟩
      rw [hA] at h
      cases r with
      | fail e1 =>
        simp only [Sys.init, List.nil_append, List.mem_singleton, Call.BuildEnvVar.injEq,
          AuthResult.fail.injEq] at h
        simp [Sys.init, handed, h.2]
      | ok a =>
        simp [mem_calls_newThenRun_BuildEnvVar, Sys.init] at h

/-- Worked instance of C8: `Export("some-repo-name", "some-run-image", publish = true, ...)` with
a resolver that fails. -/
theorem credential_failure_aborts_witness :
    Call.BuildEnvVar ["some-repo-name", "some-run-image"]
        (AuthResult.fail (GoError.base "no credentials")) ∈
      ((sampleLifecycle "0.4.1" true).Export tripleSemver
        (fixedAuth (AuthResult.fail (GoError.base "no credentials"))) "some-repo-name"
        "some-run-image" true "some-launch-cache" "some-cache"
        (fixedFactory (some (fixedPhase none none)) none) (Sys.init ())).2.calls ∧
    ((sampleLifecycle "0.4.1" true).Export tripleSemver
        (fixedAuth (AuthResult.fail (GoError.base "no credentials"))) "some-repo-name"
        "some-run-image" true "some-launch-cache" "some-cache"
        (fixedFactory (some (fixedPhase none none)) none) (Sys.init ())).1 =
      Exec.ret (some (GoError.Wrap (GoError.base "no credentials") "create phase config")) :=
  have hcred : Call.BuildEnvVar ["some-repo-name", "some-run-image"]
        (AuthResult.fail (GoError.base "no credentials")) ∈
      ((sampleLifecycle "0.4.1" true).Export tripleSemver
        (fixedAuth (AuthResult.fail (GoError.base "no credentials"))) "some-repo-name"
        "some-run-image" true "some-launch-cache" "some-cache"
        (fixedFactory (some (fixedPhase none none)) none) (Sys.init ())).2.calls := by decide
  ⟨hcred,
    ((credential_failure_aborts tripleSemver
      (fixedAuth (AuthResult.fail (GoError.base "no credentials")))
      (sampleLifecycle "0.4.1" true) (fixedFactory (some (fixedPhase none none)) none) ()
      ["some-repo-name", "some-run-image"] (GoError.base "no credentials")).2 "some-repo-name"
      "some-run-image" "some-launch-cache" "some-cache" hcred).1⟩

/-- C9: `NewPhaseConfigProvider(name, ops)` starts from argv `["/cnb/lifecycle/" + name]`, labels
`author: pack` and everything else empty, and applies `ops` left to right: if all succeed it
returns the left fold of `ops` over that state; if the first failing operation fails with `e`, it
returns no provider but `e` wrapped with `create phase config`, and the operations after the
failing one are not applied (the result does not depend on them). -/
theorem NewPhaseConfigProvider_contract {W : Type} (name : String) (s : Sys W) :
    newProvider name =
      { ctrConf :=
          { Cmd := ["/cnb/lifecycle/" ++ name]
            Labels := [("author", "pack")]
            Image := ""
            User := ""
            Env := [] }
        hostConf := { Binds := [], NetworkMode := "" } } ∧
    NewPhaseConfigProvider name ([] : List (PhaseConfigProviderOperation W)) s =
      (Except.ok (newProvider name), s) ∧
    (∀ ops : List (PhaseConfigProviderOperation W),
      allSucceed ops (newProvider name, s) = true →
        NewPhaseConfigProvider name ops s =
          (Except.ok (foldOps ops (newProvider name, s)).1,
            (foldOps ops (newProvider name, s)).2)) ∧
    (∀ (pre post : List (PhaseConfigProviderOperation W)) (opk : PhaseConfigProviderOperation W)
        (e : GoError),
      allSucceed pre (newProvider name, s) = true →
      (opk (foldOps pre (newProvider name, s)).1 (foldOps pre (newProvider name, s)).2).1 =
          some e →
        (pre ++ opk :: post)[pre.length]? = some opk ∧
        NewPhaseConfigProvider name (pre ++ opk :: post) s =
          (Except.error (GoError.Wrap e "create phase config"),
            (opk (foldOps pre (newProvider name, s)).1
              (foldOps pre (newProvider name, s)).2).2.2)) := by
  refine ⟨rfl, rfl, fun ops h => ?_, fun pre post opk e hpre hfail =>
    ⟨by rw [List.getElem?_append_right (le_refl _)]; simp, ?_⟩⟩
  · unfold NewPhaseConfigProvider
    rw [rangeOps_of_allSucceed ops (newProvider name) s h]
  · unfold NewPhaseConfigProvider
    rw [rangeOps_first_failure pre post opk (newProvider name) s e hpre hfail]

/-- Worked instance of C9: `WithRoot` succeeds, the credential resolution of
`WithRegistryAccess` fails, and the `WithArgs` after it is never applied. -/
theorem NewPhaseConfigProvider_contract_witness :
    allSucceed [WithRoot] (newProvider "analyzer", Sys.init ()) = true ∧
    (WithRegistryAccess (fixedAuth (AuthResult.fail (GoError.base "no credentials"))) ["r"]
        (foldOps [WithRoot] (newProvider "analyzer", Sys.init ())).1
        (foldOps [WithRoot] (newProvider "analyzer", Sys.init ())).2).1 =
      some (GoError.base "no credentials") ∧
    (NewPhaseConfigProvider "analyzer"
        ([WithRoot] ++
          WithRegistryAccess (fixedAuth (AuthResult.fail (GoError.base "no credentials"))) ["r"] ::
            [WithArgs ["never-added"]]) (Sys.init ())).1 =
      Except.error (GoError.Wrap (GoError.base "no credentials") "create phase config") :=
  ⟨rfl, rfl,
    congrArg Prod.fst
      ((NewPhaseConfigProvider_contract "analyzer" (Sys.init ())).2.2.2 [WithRoot]
        [WithArgs ["never-added"]]
        (WithRegistryAccess (fixedAuth (AuthResult.fail (GoError.base "no credentials"))) ["r"])
        (GoError.base "no credentials") rfl rfl).2⟩

/-- C10: `Update` with an empty operation list returns no error and leaves the provider (its
container and host configuration) and everything else unchanged. -/
theorem Update_nil {W : Type} (p : PhaseConfigProvider) (s : Sys W) :
    p.Update ([] : List (PhaseConfigProviderOperation W)) s = (none, p, s) ∧
    (p.Update ([] : List (PhaseConfigProviderOperation W)) s).1 = none ∧
    (p.Update ([] : List (PhaseConfigProviderOperation W)) s).2.1.ctrConf = p.ctrConf ∧
    (p.Update ([] : List (PhaseConfigProviderOperation W)) s).2.1.hostConf = p.hostConf :=
  ⟨rfl, rfl, rfl, rfl⟩

/-- C11: every built-in operation leaves the argument vector, the env list and the bind list it
found as a beginning of the list it leaves, and keeps the labels; so does `Update` with any list
of built-in operations; hence a provider built by `NewPhaseConfigProvider` from built-in
operations starts its argument vector with `/cnb/lifecycle/` + name and has the labels
`author: pack`, and keeps both through every later `Update`. -/
theorem append_only {W : Type} (auth : AuthPkg W) :
    (∀ (b : BuiltinOp) (p : PhaseConfigProvider) (s : Sys W),
      p.ctrConf.Cmd <+: (b.toOp auth p s).2.1.ctrConf.Cmd ∧
      p.ctrConf.Env <+: (b.toOp auth p s).2.1.ctrConf.Env ∧
      p.hostConf.Binds <+: (b.toOp auth p s).2.1.hostConf.Binds ∧
      (b.toOp auth p s).2.1.ctrConf.Labels = p.ctrConf.Labels) ∧
    (∀ (bs : List BuiltinOp) (p : PhaseConfigProvider) (s : Sys W),
      p.ctrConf.Cmd <+: (p.Update (bs.map (BuiltinOp.toOp auth)) s).2.1.ctrConf.Cmd ∧
      p.ctrConf.Env <+: (p.Update (bs.map (BuiltinOp.toOp auth)) s).2.1.ctrConf.Env ∧
      p.hostConf.Binds <+: (p.Update (bs.map (BuiltinOp.toOp auth)) s).2.1.hostConf.Binds ∧
      (p.Update (bs.map (BuiltinOp.toOp auth)) s).2.1.ctrConf.Labels = p.ctrConf.Labels) ∧
    (∀ (name : String) (bs : List BuiltinOp) (s s1 : Sys W) (p : PhaseConfigProvider),
      NewPhaseConfigProvider name (bs.map (BuiltinOp.toOp auth)) s = (Except.ok p, s1) →
        ["/cnb/lifecycle/" ++ name] <+: p.ctrConf.Cmd ∧
        p.ctrConf.Labels = [("author", "pack")] ∧
        ∀ (bs2 : List BuiltinOp) (s2 : Sys W),
          ["/cnb/lifecycle/" ++ name] <+:
              (p.Update (bs2.map (BuiltinOp.toOp auth)) s2).2.1.ctrConf.Cmd ∧
            (p.Update (bs2.map (BuiltinOp.toOp auth)) s2).2.1.ctrConf.Labels =
              [("author", "pack")]) := by
  refine ⟨builtin_step_appends auth, fun bs p s => ?_, fun name bs s s1 p h => ?_⟩
  · rw [Update_snd]
    exact rangeOps_builtin_appends auth bs p s
  · have hr := rangeOps_builtin_appends auth bs (newProvider name) s
    unfold NewPhaseConfigProvider at h
    rcases hro : rangeOps (bs.map (BuiltinOp.toOp auth)) (newProvider name) s with
      ⟨_ | e, p1, s2⟩
    · rw [hro] at h hr
      simp only [Prod.mk.injEq, Except.ok.injEq] at h
      obtain ⟨rfl, _⟩ := h
      have hcmd : ["/cnb/lifecycle/" ++ name] <+: p1.ctrConf.Cmd := hr.1
      have hlab : p1.ctrConf.Labels = [("author", "pack")] := hr.2.2.2
      refine ⟨hcmd, hlab, fun bs2 s3 => ?_⟩
      rw [Update_snd]
      have hu := rangeOps_builtin_appends auth bs2 p1 s3
      exact ⟨hcmd.trans hu.1, hu.2.2.2.trans hlab⟩
    · rw [hro] at h
      simp at h

/-- Worked instance of C11: the provider of `Restore`, then the update the production factory
makes. -/
theorem append_only_witness :
    NewPhaseConfigProvider "restorer"
        ([BuiltinOp.WithDaemonAccess, BuiltinOp.WithArgs ["-cache-dir", "/cache"],
          BuiltinOp.WithBinds ["test:/cache"]].map
            (BuiltinOp.toOp (fixedAuth (AuthResult.ok "creds")))) (Sys.init ()) =
      (Except.ok
          { ctrConf :=
              { Cmd := ["/cnb/lifecycle/restorer", "-cache-dir", "/cache"]
                Labels := [("author", "pack")]
                Image := ""
                User := "root"
                Env := [] }
            hostConf :=
              { Binds := ["/var/run/docker.sock:/var/run/docker.sock", "test:/cache"]
                NetworkMode := "" } },
        Sys.init ()) ∧
    ["/cnb/lifecycle/" ++ "restorer"] <+:
      ["/cnb/lifecycle/restorer", "-cache-dir", "/cache"] :=
  have hnew : NewPhaseConfigProvider "restorer"
        ([BuiltinOp.WithDaemonAccess, BuiltinOp.WithArgs ["-cache-dir", "/cache"],
          BuiltinOp.WithBinds ["test:/cache"]].map
            (BuiltinOp.toOp (fixedAuth (AuthResult.ok "creds")))) (Sys.init ()) =
      (Except.ok
          { ctrConf :=
              { Cmd := ["/cnb/lifecycle/restorer", "-cache-dir", "/cache"]
                Labels := [("author", "pack")]
                Image := ""
                User := "root"
                Env := [] }
            hostConf :=
              { Binds := ["/var/run/docker.sock:/var/run/docker.sock", "test:/cache"]
                NetworkMode := "" } },
        Sys.init ()) := rfl
  ⟨hnew,
    ((append_only (fixedAuth (AuthResult.ok "creds"))).2.2 "restorer" _ _ _ _ hnew).1⟩

/-- The loop over two appending operations that append to different lists: when it returns no
error in one order, it returns the same triple in the other order. -/
theorem rangeOps_appends_swap {W : Type} (auth : AuthPkg W) (p q : BuiltinOp)
    (fp fq : ListField) (hp : p.appendsTo = some fp) (hq : q.appendsTo = some fq) (hne : fp ≠ fq)
    (p0 : PhaseConfigProvider) (s : Sys W)
    (hsucc : (rangeOps [p.toOp auth, q.toOp auth] p0 s).1 = none) :
    rangeOps [q.toOp auth, p.toOp auth] p0 s = rangeOps [p.toOp auth, q.toOp auth] p0 s := by
  cases p <;> cases q <;> simp only [BuiltinOp.appendsTo, Option.some.injEq, reduceCtorEq] at hp hq
  all_goals subst hp hq
  all_goals first
    | exact absurd rfl hne
    | rfl
    | (simp only [rangeOps, BuiltinOp.toOp, WithRegistryAccess, WithArgs, WithBinds,
        WithDaemonAccess] at hsucc ⊢
       rcases hA : auth.BuildEnvVar _ s.world with ⟨r, w1⟩
       rw [hA] at hsucc
       cases r with
       | fail err => simp at hsucc
       | ok a => rfl)

/-- C12 (as amended): two appending operations that append to different lists commute when both
succeed: if `Update` with one then the other returns no error, `Update` with the other order
returns the same result, provider and outside state; and if `NewPhaseConfigProvider` with one
then the other returns a provider, the other order returns the same provider and outside
state. -/
theorem appends_commute {W : Type} (auth : AuthPkg W) (p q : BuiltinOp) (fp fq : ListField)
    (hp : p.appendsTo = some fp) (hq : q.appendsTo = some fq) (hne : fp ≠ fq) (s : Sys W) :
    (∀ p0 : PhaseConfigProvider,
      (p0.Update [p.toOp auth, q.toOp auth] s).1 = none →
        p0.Update [q.toOp auth, p.toOp auth] s = p0.Update [p.toOp auth, q.toOp auth] s) ∧
    (∀ name pr s1,
      NewPhaseConfigProvider name [p.toOp auth, q.toOp auth] s = (Except.ok pr, s1) →
        NewPhaseConfigProvider name [q.toOp auth, p.toOp auth] s = (Except.ok pr, s1)) := by
  constructor
  · intro p0 h
    have hr : (rangeOps [p.toOp auth, q.toOp auth] p0 s).1 = none := by
      unfold PhaseConfigProvider.Update at h
      rcases hR : rangeOps [p.toOp auth, q.toOp auth] p0 s with ⟨e, p1, s1⟩
      rw [hR] at h
      cases e with
      | none => rfl
      | some err => simp at h
    unfold PhaseConfigProvider.Update
    rw [rangeOps_appends_swap auth p q fp fq hp hq hne p0 s hr]
  · intro name pr s1 h
    have hr : (rangeOps [p.toOp auth, q.toOp auth] (newProvider name) s).1 = none := by
      unfold NewPhaseConfigProvider at h
      rcases hR : rangeOps [p.toOp auth, q.toOp auth] (newProvider name) s with ⟨e, p1, s2⟩
      rw [hR] at h
      cases e with
      | none => rfl
      | some err => simp at h
    rw [← h]
    unfold NewPhaseConfigProvider
    rw [rangeOps_appends_swap auth p q fp fq hp hq hne (newProvider name) s hr]

/-- Worked instance of C12 as amended: `WithRegistryAccess` with credentials that resolve, and
`WithArgs`, through `Update` and `NewPhaseConfigProvider` in either order. -/
theorem appends_commute_witness :
    (BuiltinOp.WithRegistryAccess ["some-repo-name"]).appendsTo = some ListField.Env ∧
    (BuiltinOp.WithArgs ["-daemon"]).appendsTo = some ListField.Cmd ∧
    ListField.Env ≠ ListField.Cmd ∧
    ((newProvider "analyzer").Update
        [(BuiltinOp.WithRegistryAccess ["some-repo-name"]).toOp (fixedAuth (AuthResult.ok "creds")),
          (BuiltinOp.WithArgs ["-daemon"]).toOp (fixedAuth (AuthResult.ok "creds"))]
        (Sys.init ())).1 = none ∧
    (newProvider "analyzer").Update
        [(BuiltinOp.WithArgs ["-daemon"]).toOp (fixedAuth (AuthResult.ok "creds")),
          (BuiltinOp.WithRegistryAccess ["some-repo-name"]).toOp
            (fixedAuth (AuthResult.ok "creds"))]
        (Sys.init ()) =
      (newProvider "analyzer").Update
        [(BuiltinOp.WithRegistryAccess ["some-repo-name"]).toOp (fixedAuth (AuthResult.ok "creds")),
          (BuiltinOp.WithArgs ["-daemon"]).toOp (fixedAuth (AuthResult.ok "creds"))]
        (Sys.init ()) ∧
    ((newProvider "analyzer").Update
        [(BuiltinOp.WithArgs ["-daemon"]).toOp (fixedAuth (AuthResult.ok "creds")),
          (BuiltinOp.WithRegistryAccess ["some-repo-name"]).toOp
            (fixedAuth (AuthResult.ok "creds"))]
        (Sys.init ())).2.1.ctrConf.Cmd = ["/cnb/lifecycle/analyzer", "-daemon"] ∧
    ((newProvider "analyzer").Update
        [(BuiltinOp.WithArgs ["-daemon"]).toOp (fixedAuth (AuthResult.ok "creds")),
          (BuiltinOp.WithRegistryAccess ["some-repo-name"]).toOp
            (fixedAuth (AuthResult.ok "creds"))]
        (Sys.init ())).2.1.ctrConf.Env = ["CNB_REGISTRY_AUTH=creds"] :=
  ⟨rfl, rfl, by decide, by decide,
    (appends_commute (fixedAuth (AuthResult.ok "creds"))
      (BuiltinOp.WithRegistryAccess ["some-repo-name"]) (BuiltinOp.WithArgs ["-daemon"])
      ListField.Env ListField.Cmd rfl rfl (by decide) (Sys.init ())).1
      (newProvider "analyzer") (by decide),
    by decide, by decide⟩

/-- C12 fails as stated. `Update` with `WithArgs(a)` then `WithArgs(b)` returns no error and
leaves the argument vector `..., a, b`; the other order returns no error and leaves `..., b, a`.
And with credentials that do not resolve, `Update` with `WithRegistryAccess` then `WithArgs(a)`
stops before the append and leaves the argument vector as it was, while the other order has
appended `a` when it stops. -/
theorem appends_commute_counterexample :
    ((newProvider "detector").Update
        [(WithArgs ["a"] : PhaseConfigProviderOperation Unit), WithArgs ["b"]]
        (Sys.init ())).1 = none ∧
    ((newProvider "detector").Update
        [(WithArgs ["b"] : PhaseConfigProviderOperation Unit), WithArgs ["a"]]
        (Sys.init ())).1 = none ∧
    ((newProvider "detector").Update
        [(WithArgs ["a"] : PhaseConfigProviderOperation Unit), WithArgs ["b"]]
        (Sys.init ())).2.1.ctrConf.Cmd = ["/cnb/lifecycle/detector", "a", "b"] ∧
    ((newProvider "detector").Update
        [(WithArgs ["b"] : PhaseConfigProviderOperation Unit), WithArgs ["a"]]
        (Sys.init ())).2.1.ctrConf.Cmd = ["/cnb/lifecycle/detector", "b", "a"] ∧
    ((newProvider "detector").Update
        [(WithArgs ["a"] : PhaseConfigProviderOperation Unit), WithArgs ["b"]]
        (Sys.init ())).2.1 ≠
      ((newProvider "detector").Update
        [(WithArgs ["b"] : PhaseConfigProviderOperation Unit), WithArgs ["a"]]
        (Sys.init ())).2.1 ∧
    ((newProvider "analyzer").Update
        [WithRegistryAccess (fixedAuth (AuthResult.fail (GoError.base "no credentials")))
            ["some-repo-name"],
          WithArgs ["a"]]
        (Sys.init ())).2.1.ctrConf.Cmd = ["/cnb/lifecycle/analyzer"] ∧
    ((newProvider "analyzer").Update
        [WithArgs ["a"],
          WithRegistryAccess (fixedAuth (AuthResult.fail (GoError.base "no credentials")))
            ["some-repo-name"]]
        (Sys.init ())).2.1.ctrConf.Cmd = ["/cnb/lifecycle/analyzer", "a"] := by
  decide

/-- C13: `WithLifecycle` never fails; it sets the image to the builder's name and appends to env,
in this order, the pair `HTTP_PROXY=`, `http_proxy=` if httpProxy is non-empty, the pair
`HTTPS_PROXY=`, `https_proxy=` if httpsProxy is non-empty, the pair `NO_PROXY=`, `no_proxy=` if
noProxy is non-empty: two entries per non-empty setting and none for an empty one; argv, labels,
user, binds, network mode and the outside state are left as they were. -/
theorem WithLifecycle_spec {W : Type} (lifecycle : Lifecycle) (p : PhaseConfigProvider)
    (s : Sys W) :
    (WithLifecycle lifecycle p s).1 = none ∧
    (WithLifecycle lifecycle p s).2.1.ctrConf.Image = lifecycle.builder.Name ∧
    (WithLifecycle lifecycle p s).2.1.ctrConf.Env =
      p.ctrConf.Env ++
        ((if lifecycle.httpProxy ≠ "" then
            ["HTTP_PROXY=" ++ lifecycle.httpProxy, "http_proxy=" ++ lifecycle.httpProxy]
          else []) ++
        ((if lifecycle.httpsProxy ≠ "" then
            ["HTTPS_PROXY=" ++ lifecycle.httpsProxy, "https_proxy=" ++ lifecycle.httpsProxy]
          else []) ++
        (if lifecycle.noProxy ≠ "" then
            ["NO_PROXY=" ++ lifecycle.noProxy, "no_proxy=" ++ lifecycle.noProxy]
          else []))) ∧
    (WithLifecycle lifecycle p s).2.1.ctrConf.Env.length =
      p.ctrConf.Env.length + 2 * ((if lifecycle.httpProxy ≠ "" then 1 else 0) +
        (if lifecycle.httpsProxy ≠ "" then 1 else 0) + (if lifecycle.noProxy ≠ "" then 1 else 0)) ∧
    (WithLifecycle lifecycle p s).2.1.ctrConf.Cmd = p.ctrConf.Cmd ∧
    (WithLifecycle lifecycle p s).2.1.ctrConf.Labels = p.ctrConf.Labels ∧
    (WithLifecycle lifecycle p s).2.1.ctrConf.User = p.ctrConf.User ∧
    (WithLifecycle lifecycle p s).2.1.hostConf = p.hostConf ∧
    (WithLifecycle lifecycle p s).2.2 = s := by
  refine ⟨rfl, rfl, proxyEnv_eq lifecycle p.ctrConf.Env, ?_, rfl, rfl, rfl, rfl, rfl⟩
  show (proxyEnv lifecycle p.ctrConf.Env).length = _
  rw [proxyEnv_eq]
  by_cases h1 : lifecycle.httpProxy = "" <;> by_cases h2 : lifecycle.httpsProxy = "" <;>
    by_cases h3 : lifecycle.noProxy = "" <;> simp [h1, h2, h3]

/-- C14: for `Detect`, `Restore`, `Build`, and `Analyze` and `Export` called with
`publish = false`, whatever the inputs and the proxy settings, the production factory makes, from
any provider handed over, a phase whose env list has no entry beginning with
`CNB_REGISTRY_AUTH=`. -/
theorem no_registry_auth_without_publish {V W : Type} (semver : SemverPkg V) (auth : AuthPkg W)
    (l : Lifecycle) (f : PhaseFactory W) (w : W) (op : PhaseOp) (hop : op.publish = false)
    (np : String × PhaseConfigProvider)
    (h : np ∈ handed (op.run semver auth l f (Sys.init w)).2.calls)
    (m : DefaultPhaseFactory) (s : Sys W) :
    ∃ phase, (m.New np.1 np.2 s).1 = Except.ok phase ∧
      ∀ e ∈ phase.ctrConf.Env, ¬ beginsWith "CNB_REGISTRY_AUTH=" e := by
  have henv := handed_env_nil semver auth l f w op hop np h
  rw [DefaultPhaseFactory_New_eq]
  refine ⟨_, rfl, fun e he => ?_⟩
  simp only [henv] at he
  exact proxyEnv_nil_no_auth m.lifecycle e he

/-- Worked instance of C14: `Restore("test")` at version 0.4.1, then the production factory of a
lifecycle with an HTTP proxy. -/
theorem no_registry_auth_without_publish_witness :
    (PhaseOp.Restore "test").publish = false ∧
    ("restorer",
        ({ ctrConf :=
            { Cmd := ["/cnb/lifecycle/restorer", "-cache-dir", "/cache", "-layers", "/layers"]
              Labels := [("author", "pack")]
              Image := ""
              User := "root"
              Env := [] }
           hostConf :=
            { Binds := ["/var/run/docker.sock:/var/run/docker.sock", "test:/cache"]
              NetworkMode := "" } } : PhaseConfigProvider)) ∈
      handed ((PhaseOp.Restore "test").run tripleSemver (fixedAuth (AuthResult.ok "creds"))
        (sampleLifecycle "0.4.1" false) (fixedFactory (some (fixedPhase none none)) none)
        (Sys.init ())).2.calls ∧
    ∃ phase,
      ((NewDefaultPhaseFactory
          { sampleLifecycle "0.4.1" false with httpProxy := "http://proxy:3128" }).New "restorer"
        { ctrConf :=
            { Cmd := ["/cnb/lifecycle/restorer", "-cache-dir", "/cache", "-layers", "/layers"]
              Labels := [("author", "pack")]
              Image := ""
              User := "root"
              Env := [] }
          hostConf :=
            { Binds := ["/var/run/docker.sock:/var/run/docker.sock", "test:/cache"]
              NetworkMode := "" } } (Sys.init ())).1 = Except.ok phase ∧
      ∀ e ∈ phase.ctrConf.Env, ¬ beginsWith "CNB_REGISTRY_AUTH=" e :=
  have hmem : ("restorer",
        ({ ctrConf :=
            { Cmd := ["/cnb/lifecycle/restorer", "-cache-dir", "/cache", "-layers", "/layers"]
              Labels := [("author", "pack")]
              Image := ""
              User := "root"
              Env := [] }
           hostConf :=
            { Binds := ["/var/run/docker.sock:/var/run/docker.sock", "test:/cache"]
              NetworkMode := "" } } : PhaseConfigProvider)) ∈
      handed ((PhaseOp.Restore "test").run tripleSemver (fixedAuth (AuthResult.ok "creds"))
        (sampleLifecycle "0.4.1" false) (fixedFactory (some (fixedPhase none none)) none)
        (Sys.init ())).2.calls := by decide
  ⟨rfl, hmem,
    no_registry_auth_without_publish tripleSemver (fixedAuth (AuthResult.ok "creds"))
      (sampleLifecycle "0.4.1" false) (fixedFactory (some (fixedPhase none none)) none) ()
      (PhaseOp.Restore "test") rfl _ hmem
      (NewDefaultPhaseFactory
        { sampleLifecycle "0.4.1" false with httpProxy := "http://proxy:3128" })
      (Sys.init ())⟩

/-- C15: the production factory's `New` never fails; the provider it leaves differs from the one
it got only in the image (set to the builder's name), the env list (the proxy entries of
`WithLifecycle` appended) and the bind list (`<LayersVolume>:/layers` then
`<AppVolume>:/workspace` appended after the binds present); the phase carries that container and
host configuration, so its argument vector, user and network mode are those the provider had. -/
theorem DefaultPhaseFactory_New_spec {W : Type} (m : DefaultPhaseFactory) (name : String)
    (p : PhaseConfigProvider) (s : Sys W) :
    ∃ phase p1,
      m.New name p s = (Except.ok phase, p1, s) ∧
      phase.ctrConf = p1.ctrConf ∧ phase.hostConf = p1.hostConf ∧ phase.name = name ∧
      p1.ctrConf.Image = m.lifecycle.builder.Name ∧
      p1.ctrConf.Env = (WithLifecycle m.lifecycle p s).2.1.ctrConf.Env ∧
      p1.ctrConf.Env =
        p.ctrConf.Env ++
          ((if m.lifecycle.httpProxy ≠ "" then
              ["HTTP_PROXY=" ++ m.lifecycle.httpProxy, "http_proxy=" ++ m.lifecycle.httpProxy]
            else []) ++
          ((if m.lifecycle.httpsProxy ≠ "" then
              ["HTTPS_PROXY=" ++ m.lifecycle.httpsProxy, "https_proxy=" ++ m.lifecycle.httpsProxy]
            else []) ++
          (if m.lifecycle.noProxy ≠ "" then
              ["NO_PROXY=" ++ m.lifecycle.noProxy, "no_proxy=" ++ m.lifecycle.noProxy]
            else []))) ∧
      p1.hostConf.Binds =
        p.hostConf.Binds ++
          [m.lifecycle.LayersVolume ++ ":/layers", m.lifecycle.AppVolume ++ ":/workspace"] ∧
      p1.ctrConf.Cmd = p.ctrConf.Cmd ∧ p1.ctrConf.User = p.ctrConf.User ∧
      p1.ctrConf.Labels = p.ctrConf.Labels ∧
      p1.hostConf.NetworkMode = p.hostConf.NetworkMode ∧
      phase.ctrConf.Cmd = p.ctrConf.Cmd ∧ phase.ctrConf.User = p.ctrConf.User ∧
      phase.hostConf.NetworkMode = p.hostConf.NetworkMode := by
  refine ⟨_, _, DefaultPhaseFactory_New_eq m name p s, rfl, rfl, rfl, rfl, rfl,
    proxyEnv_eq m.lifecycle p.ctrConf.Env, ?_, rfl, rfl, rfl, rfl, rfl, rfl, rfl⟩
  simp [String.append_assoc]

/-- C16: with a version that parses, `Export` hands the factory the name `exporter` and a
provider whose argument vector is `/cnb/lifecycle/exporter` followed by `withLogLevel(A)`, with
`A` the list `-image runImage -cache-dir /cache -layers /layers -app /workspace repoName` when
`publish = true` and `-daemon -launch-cache /launch-cache` followed by that list when
`publish = false`; the binds are exactly the cache bind when `publish = true`, and the docker
socket, the cache bind and the launch-cache bind when `publish = false`. With `publish = true`
the provider is handed over once the credential resolution has succeeded. -/
theorem Export_handed {V W : Type} (semver : SemverPkg V) (auth : AuthPkg W) (l : Lifecycle)
    (f : PhaseFactory W) (w : W) (repoName runImage launchCacheName cacheName : String) (v c : V)
    (hv : semver.MustParse l.version = some v) (hc : semver.MustParse "0.4.0" = some c) :
    (∃ logged,
      l.withLogLevel semver
          ["-image", runImage, "-cache-dir", "/cache", "-layers", "/layers", "-app", "/workspace",
            repoName] = Exec.ret logged ∧
      (∀ np ∈ handed (l.Export semver auth repoName runImage true launchCacheName cacheName f
          (Sys.init w)).2.calls,
        np.1 = "exporter" ∧ np.2.ctrConf.Cmd = ["/cnb/lifecycle/exporter"] ++ logged ∧
          np.2.hostConf.Binds = [cacheName ++ ":/cache"]) ∧
      (∀ a w1, auth.BuildEnvVar [repoName, runImage] w = (AuthResult.ok a, w1) →
        ∃ p, handed (l.Export semver auth repoName runImage true launchCacheName cacheName f
            (Sys.init w)).2.calls = [("exporter", p)])) ∧
    (∃ logged,
      l.withLogLevel semver
          (["-daemon", "-launch-cache", "/launch-cache"] ++
            ["-image", runImage, "-cache-dir", "/cache", "-layers", "/layers", "-app",
              "/workspace", repoName]) = Exec.ret logged ∧
      ∃ p, handed (l.Export semver auth repoName runImage false launchCacheName cacheName f
          (Sys.init w)).2.calls = [("exporter", p)] ∧
        p.ctrConf.Cmd = ["/cnb/lifecycle/exporter"] ++ logged ∧
        p.hostConf.Binds =
          ["/var/run/docker.sock:/var/run/docker.sock", cacheName ++ ":/cache",
            launchCacheName ++ ":/launch-cache"]) := by
  constructor
  · refine ⟨_, withLogLevel_of_parse semver l _ v c hv hc, ?_, ?_⟩
    · intro np h
      rw [Export_publish_eq, withLogLevel_of_parse semver l _ v c hv hc] at h
      simp only at h
      rcases hA : auth.BuildEnvVar [repoName, runImage] (Sys.init w).world with ⟨r, w1⟩
      rw [hA] at h
      cases r with
      | fail e => simp [Sys.init, handed] at h
      | ok a =>
        simp only [handed_newThenRun, Sys.init, handed, handed_append, List.nil_append,
          List.mem_singleton] at h
        subst h
        simp [String.append_assoc]
    · intro a w1 hA
      rw [Export_publish_eq, withLogLevel_of_parse semver l _ v c hv hc]
      simp only [Sys.init, hA]
      simp [handed_newThenRun, handed]
  · refine ⟨_, withLogLevel_of_parse semver l _ v c hv hc, ?_⟩
    rw [Export_daemon_eq]
    simp only [List.cons_append, List.nil_append] at *
    rw [withLogLevel_of_parse semver l _ v c hv hc]
    simp [handed_newThenRun, Sys.init, handed, String.append_assoc]

/-- Worked instance of C16: `Export("some-repo-name", "some-run-image", publish = false,
"some-launch-cache", "some-cache")` at version 0.4.1, verbose. -/
theorem Export_handed_witness :
    tripleSemver.MustParse (sampleLifecycle "0.4.1" true).version = some (0, 4, 1) ∧
    tripleSemver.MustParse "0.4.0" = some (0, 4, 0) ∧
    ∃ logged,
      (sampleLifecycle "0.4.1" true).withLogLevel tripleSemver
          (["-daemon", "-launch-cache", "/launch-cache"] ++
            ["-image", "some-run-image", "-cache-dir", "/cache", "-layers", "/layers", "-app",
              "/workspace", "some-repo-name"]) = Exec.ret logged ∧
      ∃ p, handed ((sampleLifecycle "0.4.1" true).Export tripleSemver
          (fixedAuth (AuthResult.ok "creds")) "some-repo-name" "some-run-image" false
          "some-launch-cache" "some-cache" (fixedFactory (some (fixedPhase none none)) none)
          (Sys.init ())).2.calls = [("exporter", p)] ∧
        p.ctrConf.Cmd = ["/cnb/lifecycle/exporter"] ++ logged ∧
        p.hostConf.Binds =
          ["/var/run/docker.sock:/var/run/docker.sock", "some-cache" ++ ":/cache",
            "some-launch-cache" ++ ":/launch-cache"] :=
  ⟨by decide, by decide,
    (Export_handed tripleSemver (fixedAuth (AuthResult.ok "creds")) (sampleLifecycle "0.4.1" true)
      (fixedFactory (some (fixedPhase none none)) none) () "some-repo-name" "some-run-image"
      "some-launch-cache" "some-cache" (0, 4, 1) (0, 4, 0) (by decide) (by decide)).2⟩

/-- C17: with `B` the list `-skip-layers` (if `clearCache`) or `-cache-dir /cache` (otherwise)
followed by `-layers /layers repoName`: `Analyze` with `publish = true` hands the factory the
name `analyzer` and the argument vector `/cnb/lifecycle/analyzer` followed by `B`, nothing
else, whatever the version and the verbosity (and does hand it over once the credential
resolution has succeeded); with `publish = false` and a version that parses it hands over
`/cnb/lifecycle/analyzer` followed by `withLogLevel(-daemon, B)`. -/
theorem Analyze_argv {V W : Type} (semver : SemverPkg V) (auth : AuthPkg W) (l : Lifecycle)
    (f : PhaseFactory W) (w : W) (repoName cacheName : String) (clearCache : Bool) :
    (∀ np ∈ handed (l.Analyze semver auth repoName cacheName true clearCache f
        (Sys.init w)).2.calls,
      np.1 = "analyzer" ∧
        np.2.ctrConf.Cmd =
          ["/cnb/lifecycle/analyzer"] ++
            ((if clearCache = true then ["-skip-layers"] else ["-cache-dir", "/cache"]) ++
              ["-layers", "/layers", repoName])) ∧
    (∀ a w1, auth.BuildEnvVar [repoName] w = (AuthResult.ok a, w1) →
      ∃ p, handed (l.Analyze semver auth repoName cacheName true clearCache f
          (Sys.init w)).2.calls = [("analyzer", p)]) ∧
    (∀ v c, semver.MustParse l.version = some v → semver.MustParse "0.4.0" = some c →
      ∃ logged,
        l.withLogLevel semver
            (["-daemon"] ++
              ((if clearCache = true then ["-skip-layers"] else ["-cache-dir", "/cache"]) ++
                ["-layers", "/layers", repoName])) = Exec.ret logged ∧
        ∃ p, handed (l.Analyze semver auth repoName cacheName false clearCache f
            (Sys.init w)).2.calls = [("analyzer", p)] ∧
          p.ctrConf.Cmd = ["/cnb/lifecycle/analyzer"] ++ logged) := by
  refine ⟨fun np h => ?_, fun a w1 hA => ?_, fun v c hv hc => ?_⟩
  · rw [Analyze_publish_eq] at h
    rcases hA : auth.BuildEnvVar [repoName] (Sys.init w).world with ⟨r, w1⟩
    rw [hA] at h
    cases r with
    | fail e => simp [Sys.init, handed] at h
    | ok a =>
      simp only [handed_newThenRun, Sys.init, handed, handed_append, List.nil_append,
        List.mem_singleton] at h
      subst h
      simp
  · rw [Analyze_publish_eq]
    simp only [Sys.init, hA]
    simp [handed_newThenRun, handed]
  · refine ⟨_, withLogLevel_of_parse semver l _ v c hv hc, ?_⟩
    rw [Analyze_daemon_eq]
    simp only [List.singleton_append] at *
    rw [withLogLevel_of_parse semver l _ v c hv hc]
    simp [handed_newThenRun, Sys.init, handed]

/-- Worked instance of C17: `Analyze("some-repo-name", "test", publish = false,
clearCache = true)` at version 0.4.1, verbose. -/
theorem Analyze_argv_witness :
    tripleSemver.MustParse (sampleLifecycle "0.4.1" true).version = some (0, 4, 1) ∧
    tripleSemver.MustParse "0.4.0" = some (0, 4, 0) ∧
    ∃ logged,
      (sampleLifecycle "0.4.1" true).withLogLevel tripleSemver
          (["-daemon"] ++
            ((if true = true then ["-skip-layers"] else ["-cache-dir", "/cache"]) ++
              ["-layers", "/layers", "some-repo-name"])) = Exec.ret logged ∧
      ∃ p, handed ((sampleLifecycle "0.4.1" true).Analyze tripleSemver
          (fixedAuth (AuthResult.ok "creds")) "some-repo-name" "test" false true
          (fixedFactory (some (fixedPhase none none)) none) (Sys.init ())).2.calls =
            [("analyzer", p)] ∧
        p.ctrConf.Cmd = ["/cnb/lifecycle/analyzer"] ++ logged :=
  ⟨by decide, by decide,
    (Analyze_argv tripleSemver (fixedAuth (AuthResult.ok "creds")) (sampleLifecycle "0.4.1" true)
      (fixedFactory (some (fixedPhase none none)) none) () "some-repo-name" "test" true).2.2
      (0, 4, 1) (0, 4, 0) (by decide) (by decide)⟩

/-- C18: with a version that parses, `Detect` hands the factory the name `detector` and a
provider whose argument vector is `/cnb/lifecycle/detector` followed by
`withLogLevel(-app, /workspace, -platform, /platform)`, whose network mode is `networkMode`,
whose bind list is `volumes` and whose user is empty. -/
theorem Detect_handed {V W : Type} (semver : SemverPkg V) (l : Lifecycle) (f : PhaseFactory W)
    (w : W) (networkMode : String) (volumes : List String) (v c : V)
    (hv : semver.MustParse l.version = some v) (hc : semver.MustParse "0.4.0" = some c) :
    ∃ logged,
      l.withLogLevel semver ["-app", "/workspace", "-platform", "/platform"] =
        Exec.ret logged ∧
      ∃ p, handed (l.Detect semver networkMode volumes f (Sys.init w)).2.calls =
          [("detector", p)] ∧
        p.ctrConf.Cmd = ["/cnb/lifecycle/detector"] ++ logged ∧
        p.hostConf.NetworkMode = networkMode ∧ p.hostConf.Binds = volumes ∧
        p.ctrConf.User = "" := by
  refine ⟨_, withLogLevel_of_parse semver l _ v c hv hc, ?_⟩
  rw [Detect_eq, withLogLevel_of_parse semver l _ v c hv hc]
  simp [handed_newThenRun, Sys.init, handed]

/-- Worked instance of C18: `Detect("test", ["test"])` at version 0.4.1, verbose. -/
theorem Detect_handed_witness :
    tripleSemver.MustParse (sampleLifecycle "0.4.1" true).version = some (0, 4, 1) ∧
    tripleSemver.MustParse "0.4.0" = some (0, 4, 0) ∧
    ∃ logged,
      (sampleLifecycle "0.4.1" true).withLogLevel tripleSemver
          ["-app", "/workspace", "-platform", "/platform"] = Exec.ret logged ∧
      ∃ p, handed ((sampleLifecycle "0.4.1" true).Detect tripleSemver "test" ["test"]
          (fixedFactory (some (fixedPhase none none)) none) (Sys.init ())).2.calls =
            [("detector", p)] ∧
        p.ctrConf.Cmd = ["/cnb/lifecycle/detector"] ++ logged ∧
        p.hostConf.NetworkMode = "test" ∧ p.hostConf.Binds = ["test"] ∧ p.ctrConf.User = "" :=
  ⟨by decide, by decide,
    Detect_handed tripleSemver (sampleLifecycle "0.4.1" true)
      (fixedFactory (some (fixedPhase none none)) none) () "test" ["test"] (0, 4, 1) (0, 4, 0)
      (by decide) (by decide)⟩

/-- C19: whatever the version string and the verbosity, `Build` hands the factory the name
`builder` and a provider whose argument vector is exactly `/cnb/lifecycle/builder -layers
/layers -app /workspace -platform /platform`, whose network mode is `networkMode` and whose bind
list is `volumes`. -/
theorem Build_handed {W : Type} (l : Lifecycle) (f : PhaseFactory W) (w : W)
    (networkMode : String) (volumes : List String) :
    ∃ p, handed (l.Build networkMode volumes f (Sys.init w)).2.calls = [("builder", p)] ∧
      p.ctrConf.Cmd =
        ["/cnb/lifecycle/builder", "-layers", "/layers", "-app", "/workspace", "-platform",
          "/platform"] ∧
      p.hostConf.NetworkMode = networkMode ∧ p.hostConf.Binds = volumes := by
  rw [Build_eq]
  simp [handed_newThenRun, Sys.init, handed]

/-- C20: with a version that parses, `Restore` hands the factory the name `restorer` and a
provider whose argument vector is `/cnb/lifecycle/restorer` followed by
`withLogLevel(-cache-dir, /cache, -layers, /layers)`, whose user is `root` and whose bind list is
exactly the docker socket then `<cacheName>:/cache`. -/
theorem Restore_handed {V W : Type} (semver : SemverPkg V) (l : Lifecycle) (f : PhaseFactory W)
    (w : W) (cacheName : String) (v c : V) (hv : semver.MustParse l.version = some v)
    (hc : semver.MustParse "0.4.0" = some c) :
    ∃ logged,
      l.withLogLevel semver ["-cache-dir", "/cache", "-layers", "/layers"] = Exec.ret logged ∧
      ∃ p, handed (l.Restore semver cacheName f (Sys.init w)).2.calls = [("restorer", p)] ∧
        p.ctrConf.Cmd = ["/cnb/lifecycle/restorer"] ++ logged ∧
        p.ctrConf.User = "root" ∧
        p.hostConf.Binds =
          ["/var/run/docker.sock:/var/run/docker.sock", cacheName ++ ":/cache"] := by
  refine ⟨_, withLogLevel_of_parse semver l _ v c hv hc, ?_⟩
  rw [Restore_eq, withLogLevel_of_parse semver l _ v c hv hc]
  simp [handed_newThenRun, Sys.init, handed, String.append_assoc]

/-- Worked instance of C20: `Restore("test")` at version 0.4.0, verbose. -/
theorem Restore_handed_witness :
    tripleSemver.MustParse (sampleLifecycle "0.4.0" true).version = some (0, 4, 0) ∧
    tripleSemver.MustParse "0.4.0" = some (0, 4, 0) ∧
    ∃ logged,
      (sampleLifecycle "0.4.0" true).withLogLevel tripleSemver
          ["-cache-dir", "/cache", "-layers", "/layers"] = Exec.ret logged ∧
      ∃ p, handed ((sampleLifecycle "0.4.0" true).Restore tripleSemver "test"
          (fixedFactory (some (fixedPhase none none)) none) (Sys.init ())).2.calls =
            [("restorer", p)] ∧
        p.ctrConf.Cmd = ["/cnb/lifecycle/restorer"] ++ logged ∧
        p.ctrConf.User = "root" ∧
        p.hostConf.Binds = ["/var/run/docker.sock:/var/run/docker.sock", "test" ++ ":/cache"] :=
  ⟨by decide, by decide,
    Restore_handed tripleSemver (sampleLifecycle "0.4.0" true)
      (fixedFactory (some (fixedPhase none none)) none) () "test" (0, 4, 0) (0, 4, 0)
      (by decide) (by decide)⟩

/-- C21: when the lifecycle version does not parse, `withLogLevel` panics (it returns neither a
list nor an error value), and `Detect`, `Restore`, `Analyze` with `publish = false` and `Export`
panic with the state untouched: nothing was called, no credential resolved, no factory
invoked. -/
theorem unparsable_version_panics {V W : Type} (semver : SemverPkg V) (auth : AuthPkg W)
    (l : Lifecycle) (f : PhaseFactory W) (s : Sys W)
    (hv : semver.MustParse l.version = none) :
    (∀ args, l.withLogLevel semver args = Exec.panic) ∧
    (∀ networkMode volumes, l.Detect semver networkMode volumes f s = (Exec.panic, s)) ∧
    (∀ cacheName, l.Restore semver cacheName f s = (Exec.panic, s)) ∧
    (∀ repoName cacheName clearCache,
      l.Analyze semver auth repoName cacheName false clearCache f s = (Exec.panic, s)) ∧
    (∀ repoName runImage publish launchCacheName cacheName,
      l.Export semver auth repoName runImage publish launchCacheName cacheName f s =
        (Exec.panic, s)) := by
  refine ⟨fun args => withLogLevel_of_unparsable semver l args hv, fun networkMode volumes => ?_,
    fun cacheName => ?_, fun repoName cacheName clearCache => ?_,
    fun repoName runImage publish launchCacheName cacheName => ?_⟩
  · rw [Detect_eq, withLogLevel_of_unparsable semver l _ hv]
  · rw [Restore_eq, withLogLevel_of_unparsable semver l _ hv]
  · rw [Analyze_daemon_eq, withLogLevel_of_unparsable semver l _ hv]
  · cases publish with
    | true => rw [Export_publish_eq, withLogLevel_of_unparsable semver l _ hv]
    | false => rw [Export_daemon_eq, withLogLevel_of_unparsable semver l _ hv]

/-- Worked instance of C21: the version `not-a-version`, `Export` with `publish = true`. -/
theorem unparsable_version_panics_witness :
    tripleSemver.MustParse (sampleLifecycle "not-a-version" true).version = none ∧
    (sampleLifecycle "not-a-version" true).Export tripleSemver
        (fixedAuth (AuthResult.ok "creds")) "some-repo-name" "some-run-image" true
        "some-launch-cache" "some-cache" (fixedFactory (some (fixedPhase none none)) none)
        (Sys.init ()) = (Exec.panic, Sys.init ()) :=
  ⟨by decide,
    (unparsable_version_panics tripleSemver (fixedAuth (AuthResult.ok "creds"))
      (sampleLifecycle "not-a-version" true) (fixedFactory (some (fixedPhase none none)) none)
      (Sys.init ()) (by decide)).2.2.2.2 "some-repo-name" "some-run-image" true
      "some-launch-cache" "some-cache"⟩

/-- C22 (as amended): every phase operation whose lifecycle version parses (`Build`, and
`Analyze` with `publish = true`, need no version) returns success or an error value to its
caller, whatever the credential resolution, the factory and the phase answer, provided the
factory never answers a nil phase with a nil error. -/
theorem returns_when_version_parses {V W : Type} (semver : SemverPkg V) (auth : AuthPkg W)
    (l : Lifecycle) (f : PhaseFactory W) (op : PhaseOp) (s : Sys W)
    (hparse : op.usesLogLevel = true →
      ∃ v c, semver.MustParse l.version = some v ∧ semver.MustParse "0.4.0" = some c)
    (hf : ∀ name p w, (f.New name p w).1 ≠ (none, none)) :
    ∃ err, (op.run semver auth l f s).1 = Exec.ret err := by
  cases op with
  | Detect networkMode volumes =>
    obtain ⟨v, c, hv, hc⟩ := hparse rfl
    simp only [PhaseOp.run, Detect_eq, withLogLevel_of_parse semver l _ v c hv hc]
    exact newThenRun_returns f _ _ s hf
  | Restore cacheName =>
    obtain ⟨v, c, hv, hc⟩ := hparse rfl
    simp only [PhaseOp.run, Restore_eq, withLogLevel_of_parse semver l _ v c hv hc]
    exact newThenRun_returns f _ _ s hf
  | Build networkMode volumes =>
    simp only [PhaseOp.run, Build_eq]
    exact newThenRun_returns f _ _ s hf
  | Analyze repoName cacheName publish clearCache =>
    cases publish with
    | true =>
      simp only [PhaseOp.run, Analyze_publish_eq]
      rcases auth.BuildEnvVar [repoName] s.world with ⟨r, w1⟩
      cases r with
      | fail e => exact ⟨_, rfl⟩
      | ok a => exact newThenRun_returns f _ _ _ hf
    | false =>
      obtain ⟨v, c, hv, hc⟩ := hparse rfl
      simp only [PhaseOp.run, Analyze_daemon_eq, withLogLevel_of_parse semver l _ v c hv hc]
      exact newThenRun_returns f _ _ s hf
  | Export repoName runImage publish launchCacheName cacheName =>
    obtain ⟨v, c, hv, hc⟩ := hparse rfl
    cases publish with
    | true =>
      simp only [PhaseOp.run, Export_publish_eq, withLogLevel_of_parse semver l _ v c hv hc]
      rcases auth.BuildEnvVar [repoName, runImage] s.world with ⟨r, w1⟩
      cases r with
      | fail e => exact ⟨_, rfl⟩
      | ok a => exact newThenRun_returns f _ _ _ hf
    | false =>
      simp only [PhaseOp.run, Export_daemon_eq, withLogLevel_of_parse semver l _ v c hv hc]
      exact newThenRun_returns f _ _ s hf

/-- Worked instance of C22 as amended: `Detect("test", [])` at version 0.4.1 with a phase whose
`Run` fails returns that error. -/
theorem returns_when_version_parses_witness :
    tripleSemver.MustParse (sampleLifecycle "0.4.1" false).version = some (0, 4, 1) ∧
    tripleSemver.MustParse "0.4.0" = some (0, 4, 0) ∧
    ∃ err, ((PhaseOp.Detect "test" []).run tripleSemver (fixedAuth (AuthResult.ok "creds"))
      (sampleLifecycle "0.4.1" false)
      (fixedFactory (some (fixedPhase (some (GoError.base "run failed")) none)) none)
      (Sys.init ())).1 = Exec.ret err :=
  ⟨by decide, by decide,
    returns_when_version_parses tripleSemver (fixedAuth (AuthResult.ok "creds"))
      (sampleLifecycle "0.4.1" false)
      (fixedFactory (some (fixedPhase (some (GoError.base "run failed")) none)) none)
      (PhaseOp.Detect "test" []) (Sys.init ())
      (fun _ => ⟨(0, 4, 1), (0, 4, 0), by decide, by decide⟩)
      (fun _ _ _ => by simp [fixedFactory])⟩

/-- C22 fails as stated: with the lifecycle version `not-a-version`, `Detect("test", [])` panics;
it returns neither success nor an error value. -/
theorem returns_when_version_parses_counterexample :
    ((sampleLifecycle "not-a-version" false).Detect tripleSemver "test" []
      (fixedFactory (some (fixedPhase none none)) none) (Sys.init ())).1 = Exec.panic ∧
    ∀ err, ((sampleLifecycle "not-a-version" false).Detect tripleSemver "test" []
      (fixedFactory (some (fixedPhase none none)) none) (Sys.init ())).1 ≠ Exec.ret err := by
  have h : ((sampleLifecycle "not-a-version" false).Detect tripleSemver "test" []
      (fixedFactory (some (fixedPhase none none)) none) (Sys.init ())).1 = Exec.panic := by
    decide
  exact ⟨h, fun err => by rw [h]; exact fun hc => Exec.noConfusion hc⟩

/-- C23: in every phase operation in which the factory returned a phase, the calls made on the
factory and on the phase are exactly the factory's `New`, then `Run`, then `Cleanup`, in this
order (preceded in the log only by a successful credential resolution, when there is one);
`Cleanup` is applied to the state `Run` left, whatever `Run` returned, and the operation then
returns `Run`'s value. -/
theorem call_order {V W : Type} (semver : SemverPkg V) (auth : AuthPkg W) (l : Lifecycle)
    (f : PhaseFactory W) (op : PhaseOp) (w : W) (name : String) (p : PhaseConfigProvider)
    (h : Call.New name p true none ∈ (op.run semver auth l f (Sys.init w)).2.calls) :
    ∃ x w0 w1, f.New name p w0 = ((some x, none), w1) ∧
      factoryPhaseCalls (op.run semver auth l f (Sys.init w)).2.calls =
        [Call.New name p true none, Call.Run (x.Run w1).1,
          Call.Cleanup (x.Cleanup (x.Run w1).2).1] ∧
      ((op.run semver auth l f (Sys.init w)).2.calls =
          [Call.New name p true none, Call.Run (x.Run w1).1,
            Call.Cleanup (x.Cleanup (x.Run w1).2).1] ∨
        ∃ repos a, (op.run semver auth l f (Sys.init w)).2.calls =
          [Call.BuildEnvVar repos (AuthResult.ok a), Call.New name p true none,
            Call.Run (x.Run w1).1, Call.Cleanup (x.Cleanup (x.Run w1).2).1]) ∧
      (op.run semver auth l f (Sys.init w)).1 = Exec.ret (x.Run w1).1 ∧
      (op.run semver auth l f (Sys.init w)).2.world = (x.Cleanup (x.Run w1).2).2 := by
  rcases run_shape semver auth l f op (Sys.init w) with hr | ⟨repos, e, w1, hr⟩ | ⟨n, q, hr⟩ |
    ⟨repos, a, w1, n, q, hr⟩
  · rw [hr] at h
    simp [Sys.init] at h
  · rw [hr] at h
    simp [Sys.init] at h
  · rw [hr] at h ⊢
    obtain ⟨x, w1, hN, hrun⟩ := newThenRun_phase f n q (Sys.init w) name p h
      (by simp [Sys.init])
    rw [hrun] at h ⊢
    simp only [Sys.init, List.nil_append, List.mem_cons, Call.New.injEq, and_true, reduceCtorEq,
      List.mem_singleton, or_false, List.not_mem_nil] at h
    obtain ⟨rfl, rfl⟩ := h
    exact ⟨x, w, w1, hN, by simp [Sys.init, factoryPhaseCalls], Or.inl (by simp [Sys.init]),
      rfl, rfl⟩
  · rw [hr] at h ⊢
    obtain ⟨x, w2, hN, hrun⟩ := newThenRun_phase f n q _ name p h (by simp [Sys.init])
    rw [hrun] at h ⊢
    simp only [Sys.init, List.nil_append, List.cons_append, List.mem_cons, Call.New.injEq,
      and_true, reduceCtorEq, List.mem_singleton, or_false, false_or, List.not_mem_nil] at h
    obtain ⟨rfl, rfl⟩ := h
    exact ⟨x, w1, w2, hN, by simp [Sys.init, factoryPhaseCalls],
      Or.inr ⟨repos, a, by simp [Sys.init]⟩, rfl, rfl⟩

/-- Worked instance of C23: `Restore("test")` at version 0.4.1 with a phase whose `Run`
fails. -/
theorem call_order_witness :
    Call.New "restorer"
        { ctrConf :=
            { Cmd := ["/cnb/lifecycle/restorer", "-cache-dir", "/cache", "-layers", "/layers"]
              Labels := [("author", "pack")]
              Image := ""
              User := "root"
              Env := [] }
          hostConf :=
            { Binds := ["/var/run/docker.sock:/var/run/docker.sock", "test:/cache"]
              NetworkMode := "" } } true none ∈
      ((PhaseOp.Restore "test").run tripleSemver (fixedAuth (AuthResult.ok "creds"))
        (sampleLifecycle "0.4.1" false)
        (fixedFactory (some (fixedPhase (some (GoError.base "run failed")) none)) none)
        (Sys.init ())).2.calls ∧
    ∃ x w0 w1,
      (fixedFactory (some (fixedPhase (some (GoError.base "run failed")) none)) none).New
          "restorer"
          { ctrConf :=
              { Cmd := ["/cnb/lifecycle/restorer", "-cache-dir", "/cache", "-layers", "/layers"]
                Labels := [("author", "pack")]
                Image := ""
                User := "root"
                Env := [] }
            hostConf :=
              { Binds := ["/var/run/docker.sock:/var/run/docker.sock", "test:/cache"]
                NetworkMode := "" } } w0 = ((some x, none), w1) ∧
      ((PhaseOp.Restore "test").run tripleSemver (fixedAuth (AuthResult.ok "creds"))
        (sampleLifecycle "0.4.1" false)
        (fixedFactory (some (fixedPhase (some (GoError.base "run failed")) none)) none)
        (Sys.init ())).1 = Exec.ret (x.Run w1).1 :=
  have hmem : Call.New "restorer"
        { ctrConf :=
            { Cmd := ["/cnb/lifecycle/restorer", "-cache-dir", "/cache", "-layers", "/layers"]
              Labels := [("author", "pack")]
              Image := ""
              User := "root"
              Env := [] }
          hostConf :=
            { Binds := ["/var/run/docker.sock:/var/run/docker.sock", "test:/cache"]
              NetworkMode := "" } } true none ∈
      ((PhaseOp.Restore "test").run tripleSemver (fixedAuth (AuthResult.ok "creds"))
        (sampleLifecycle "0.4.1" false)
        (fixedFactory (some (fixedPhase (some (GoError.base "run failed")) none)) none)
        (Sys.init ())).2.calls := by decide
  ⟨hmem,
    let ⟨x, w0, w1, hN, _, _, ho, _⟩ := call_order tripleSemver
      (fixedAuth (AuthResult.ok "creds")) (sampleLifecycle "0.4.1" false)
      (fixedFactory (some (fixedPhase (some (GoError.base "run failed")) none)) none)
      (PhaseOp.Restore "test") () _ _ hmem
    ⟨x, w0, w1, hN, ho⟩⟩

/-- C26: for every sequence of built-in operations that all succeed, at construction or through
`Update`: the final network mode is the one set by the last `WithNetwork` (its argument) or
`WithRegistryAccess` (`host`) of the sequence; the final user is `root` when the sequence
contains `WithRoot` or `WithDaemonAccess` and the user it started from otherwise, so at
construction it is `root` if and only if the sequence contains one of them; a sequence ending in
`WithRoot` yields `root`. -/
theorem last_write_wins {W : Type} (auth : AuthPkg W) :
    (∀ (bs : List BuiltinOp) (p0 p1 : PhaseConfigProvider) (s s1 : Sys W),
      p0.Update (bs.map (BuiltinOp.toOp auth)) s = (none, p1, s1) →
        (∀ pre b post m, bs = pre ++ b :: post → b.setsNetwork = some m →
          (∀ b1 ∈ post, b1.setsNetwork = none) → p1.hostConf.NetworkMode = m) ∧
        ((∃ b ∈ bs, b = BuiltinOp.WithRoot ∨ b = BuiltinOp.WithDaemonAccess) →
          p1.ctrConf.User = "root") ∧
        ((∀ b ∈ bs, b ≠ BuiltinOp.WithRoot ∧ b ≠ BuiltinOp.WithDaemonAccess) →
          p1.ctrConf.User = p0.ctrConf.User)) ∧
    (∀ (name : String) (bs : List BuiltinOp) (p : PhaseConfigProvider) (s s1 : Sys W),
      NewPhaseConfigProvider name (bs.map (BuiltinOp.toOp auth)) s = (Except.ok p, s1) →
        (∀ pre b post m, bs = pre ++ b :: post → b.setsNetwork = some m →
          (∀ b1 ∈ post, b1.setsNetwork = none) → p.hostConf.NetworkMode = m) ∧
        (p.ctrConf.User = "root" ↔
          ∃ b ∈ bs, b = BuiltinOp.WithRoot ∨ b = BuiltinOp.WithDaemonAccess) ∧
        (∀ pre, bs = pre ++ [BuiltinOp.WithRoot] → p.ctrConf.User = "root")) := by
  have hroot : ∀ bs : List BuiltinOp, bs.any BuiltinOp.setsRoot = true ↔
      ∃ b ∈ bs, b = BuiltinOp.WithRoot ∨ b = BuiltinOp.WithDaemonAccess := by
    intro bs
    simp only [List.any_eq_true]
    constructor
    · rintro ⟨b, hb, hs⟩
      refine ⟨b, hb, ?_⟩
      cases b <;> simp [BuiltinOp.setsRoot] at hs ⊢
    · rintro ⟨b, hb, rfl | rfl⟩ <;> exact ⟨_, hb, rfl⟩
  constructor
  · intro bs p0 p1 s s1 h
    have hnone : (rangeOps (bs.map (BuiltinOp.toOp auth)) p0 s).1 = none := by
      unfold PhaseConfigProvider.Update at h
      rcases hr : rangeOps (bs.map (BuiltinOp.toOp auth)) p0 s with ⟨_ | e, p2, s2⟩
      · rfl
      · rw [hr] at h
        simp at h
    have hp1 : p1 = (rangeOps (bs.map (BuiltinOp.toOp auth)) p0 s).2.1 := by
      have := Update_snd p0 (bs.map (BuiltinOp.toOp auth)) s
      rw [h] at this
      rw [← this]
    obtain ⟨hnet, huser⟩ := rangeOps_builtin_scalars auth bs p0 s hnone
    rw [hp1]
    refine ⟨hnet, fun hex => ?_, fun hno => ?_⟩
    · rw [huser, if_pos ((hroot bs).mpr hex)]
    · rw [huser, if_neg]
      intro hany
      obtain ⟨b, hb, hor⟩ := (hroot bs).mp hany
      rcases hor with rfl | rfl
      · exact (hno _ hb).1 rfl
      · exact (hno _ hb).2 rfl
  · intro name bs p s s1 h
    have hnone : (rangeOps (bs.map (BuiltinOp.toOp auth)) (newProvider name) s).1 = none := by
      unfold NewPhaseConfigProvider at h
      rcases hr : rangeOps (bs.map (BuiltinOp.toOp auth)) (newProvider name) s with
        ⟨_ | e, p2, s2⟩
      · rfl
      · rw [hr] at h
        simp at h
    have hp : p = (rangeOps (bs.map (BuiltinOp.toOp auth)) (newProvider name) s).2.1 := by
      unfold NewPhaseConfigProvider at h
      rcases hr : rangeOps (bs.map (BuiltinOp.toOp auth)) (newProvider name) s with
        ⟨_ | e, p2, s2⟩
      · rw [hr] at h
        simp only [Prod.mk.injEq, Except.ok.injEq] at h
        exact h.1.symm
      · rw [hr] at h
        simp at h
    obtain ⟨hnet, huser⟩ := rangeOps_builtin_scalars auth bs (newProvider name) s hnone
    rw [hp]
    refine ⟨hnet, ?_, fun pre hbs => ?_⟩
    · rw [huser, ← hroot bs]
      by_cases hany : bs.any BuiltinOp.setsRoot = true
      · simp [hany]
      · simp [hany, newProvider]
    · rw [huser, if_pos]
      rw [hbs]
      simp [BuiltinOp.setsRoot]

/-- Worked instance of C26: the operations of `Export` with `publish = true`, followed by a
`WithNetwork`, which replaces the forced `host`. -/
theorem last_write_wins_witness :
    NewPhaseConfigProvider "exporter"
        ([BuiltinOp.WithRegistryAccess ["some-repo-name"], BuiltinOp.WithRoot,
          BuiltinOp.WithNetwork "some-network"].map
            (BuiltinOp.toOp (fixedAuth (AuthResult.ok "creds")))) (Sys.init ()) =
      (Except.ok
          { ctrConf :=
              { Cmd := ["/cnb/lifecycle/exporter"]
                Labels := [("author", "pack")]
                Image := ""
                User := "root"
                Env := ["CNB_REGISTRY_AUTH=creds"] }
            hostConf := { Binds := [], NetworkMode := "some-network" } },
        { world := ()
          calls := [Call.BuildEnvVar ["some-repo-name"] (AuthResult.ok "creds")] }) ∧
    (BuiltinOp.WithNetwork "some-network").setsNetwork = some "some-network" ∧
    ({ Binds := [], NetworkMode := "some-network" } : HostConfig).NetworkMode =
      "some-network" :=
  have hnew : NewPhaseConfigProvider "exporter"
        ([BuiltinOp.WithRegistryAccess ["some-repo-name"], BuiltinOp.WithRoot,
          BuiltinOp.WithNetwork "some-network"].map
            (BuiltinOp.toOp (fixedAuth (AuthResult.ok "creds")))) (Sys.init ()) =
      (Except.ok
          { ctrConf :=
              { Cmd := ["/cnb/lifecycle/exporter"]
                Labels := [("author", "pack")]
                Image := ""
                User := "root"
                Env := ["CNB_REGISTRY_AUTH=creds"] }
            hostConf := { Binds := [], NetworkMode := "some-network" } },
        { world := ()
          calls := [Call.BuildEnvVar ["some-repo-name"] (AuthResult.ok "creds")] }) := by
    simp [NewPhaseConfigProvider, rangeOps, BuiltinOp.toOp, WithRegistryAccess, WithRoot,
      WithNetwork, fixedAuth, newProvider, Sys.init]
  ⟨hnew, rfl,
    ((last_write_wins (fixedAuth (AuthResult.ok "creds"))).2 "exporter" _ _ _ _ hnew).1
      [BuiltinOp.WithRegistryAccess ["some-repo-name"], BuiltinOp.WithRoot]
      (BuiltinOp.WithNetwork "some-network") [] "some-network" rfl rfl
      (fun _ hb => absurd hb (List.not_mem_nil _))⟩

/-- C28 (as amended): when the operations before `ops[k]` succeed and `ops[k]` fails with `e`,
`Update` returns `e` wrapped with `update phase config`, applies no operation after `ops[k]`
(the result does not depend on them), and leaves the provider as `ops[k]` left it after the
earlier operations were applied: their effects are kept. When the failing operation changes
nothing, as every failing built-in operation does (only `WithRegistryAccess` can fail), that is
the state obtained by applying the earlier operations. -/
theorem Update_not_atomic {W : Type} (p : PhaseConfigProvider) (s : Sys W)
    (pre post : List (PhaseConfigProviderOperation W)) (opk : PhaseConfigProviderOperation W)
    (e : GoError) (hpre : allSucceed pre (p, s) = true)
    (hfail : (opk (foldOps pre (p, s)).1 (foldOps pre (p, s)).2).1 = some e) :
    (pre ++ opk :: post)[pre.length]? = some opk ∧
    p.Update (pre ++ opk :: post) s =
      (some (GoError.Wrap e "update phase config"),
        (opk (foldOps pre (p, s)).1 (foldOps pre (p, s)).2).2) ∧
    ((opk (foldOps pre (p, s)).1 (foldOps pre (p, s)).2).2.1 = (foldOps pre (p, s)).1 →
      (p.Update (pre ++ opk :: post) s).2.1 = (foldOps pre (p, s)).1) ∧
    (∀ (auth : AuthPkg W) (b : BuiltinOp), opk = b.toOp auth →
      (p.Update (pre ++ opk :: post) s).2.1 = (foldOps pre (p, s)).1) ∧
    (∀ (auth : AuthPkg W) (repos : List String) (q : PhaseConfigProvider) (t : Sys W)
        (e1 : GoError),
      (WithRegistryAccess auth repos q t).1 = some e1 →
        (WithRegistryAccess auth repos q t).2.1 = q) := by
  have hupd : p.Update (pre ++ opk :: post) s =
      (some (GoError.Wrap e "update phase config"),
        (opk (foldOps pre (p, s)).1 (foldOps pre (p, s)).2).2) := by
    unfold PhaseConfigProvider.Update
    rw [rangeOps_first_failure pre post opk p s e hpre hfail]
  refine ⟨by rw [List.getElem?_append_right (le_refl _)]; simp, hupd, fun hsame => ?_,
    fun auth b hb => ?_, fun auth repos q t e1 h => ?_⟩
  · rw [hupd]
    exact hsame
  · rw [hupd]
    subst hb
    exact builtin_fail_keeps auth b _ _ e hfail
  · exact builtin_fail_keeps auth (BuiltinOp.WithRegistryAccess repos) q t e1 h

/-- Worked instance of C28 as amended: `WithRoot` succeeds, `WithRegistryAccess` fails, a
`WithArgs` follows; the user stays `root` and the argument is not added. -/
theorem Update_not_atomic_witness :
    allSucceed [WithRoot] (newProvider "analyzer", Sys.init ()) = true ∧
    (WithRegistryAccess (fixedAuth (AuthResult.fail (GoError.base "no credentials"))) ["r"]
        (foldOps [WithRoot] (newProvider "analyzer", Sys.init ())).1
        (foldOps [WithRoot] (newProvider "analyzer", Sys.init ())).2).1 =
      some (GoError.base "no credentials") ∧
    ((newProvider "analyzer").Update
        ([WithRoot] ++
          WithRegistryAccess (fixedAuth (AuthResult.fail (GoError.base "no credentials"))) ["r"] ::
            [WithArgs ["never-added"]]) (Sys.init ())).1 =
      some (GoError.Wrap (GoError.base "no credentials") "update phase config") ∧
    ((newProvider "analyzer").Update
        ([WithRoot] ++
          WithRegistryAccess (fixedAuth (AuthResult.fail (GoError.base "no credentials"))) ["r"] ::
            [WithArgs ["never-added"]]) (Sys.init ())).2.1 =
      { ctrConf :=
          { Cmd := ["/cnb/lifecycle/analyzer"]
            Labels := [("author", "pack")]
            Image := ""
            User := "root"
            Env := [] }
        hostConf := { Binds := [], NetworkMode := "" } } :=
  ⟨rfl, rfl,
    congrArg Prod.fst
      (Update_not_atomic (newProvider "analyzer") (Sys.init ()) [WithRoot]
        [WithArgs ["never-added"]]
        (WithRegistryAccess (fixedAuth (AuthResult.fail (GoError.base "no credentials"))) ["r"])
        (GoError.base "no credentials") rfl rfl).2.1,
    (Update_not_atomic (newProvider "analyzer") (Sys.init ()) [WithRoot]
      [WithArgs ["never-added"]]
      (WithRegistryAccess (fixedAuth (AuthResult.fail (GoError.base "no credentials"))) ["r"])
      (GoError.base "no credentials") rfl rfl).2.2.1 rfl⟩

/-- C28 fails as stated: an operation that sets the user and then fails is the first failing
operation of a one-element list; `Update` leaves the user it set, not the state obtained by
applying the (zero) operations before it. -/
theorem Update_not_atomic_counterexample :
    ((newProvider "detector").Update
        [(failingSetUser : PhaseConfigProviderOperation Unit)] (Sys.init ())).1 =
      some (GoError.Wrap (GoError.base "boom") "update phase config") ∧
    ((newProvider "detector").Update
        [(failingSetUser : PhaseConfigProviderOperation Unit)] (Sys.init ())).2.1.ctrConf.User =
      "changed" ∧
    (foldOps ([] : List (PhaseConfigProviderOperation Unit))
        (newProvider "detector", Sys.init ())).1.ctrConf.User = "" ∧
    ((newProvider "detector").Update
        [(failingSetUser : PhaseConfigProviderOperation Unit)] (Sys.init ())).2.1 ≠
      (foldOps ([] : List (PhaseConfigProviderOperation Unit))
        (newProvider "detector", Sys.init ())).1 := by
  decide

end build

namespace fakes

open build

theorem newAll_cons {W : Type} (f : FakePhaseFactory W) (c : String × PhaseConfigProvider)
    (cs : List (String × PhaseConfigProvider)) :
    newAll f (c :: cs) = newAll (f.New c.1 c.2).2.2 cs := by
  rfl

/-- An `int` result within the bounds is not changed by the wraparound. -/
theorem wrapInt_of_bounds (n : Int) (hlo : MinInt64 ≤ n) (hhi : n ≤ MaxInt64) :
    wrapInt n = n := by
  unfold MinInt64 at hlo
  unfold MaxInt64 at hhi
  unfold wrapInt
  omega

/-- The count after a series of calls that stays within the bounds of `int`. -/
theorem newAll_count {W : Type} (f : FakePhaseFactory W)
    (calls : List (String × PhaseConfigProvider)) (hlo : MinInt64 ≤ f.NewCallCount)
    (hhi : f.NewCallCount + calls.length ≤ MaxInt64) :
    (newAll f calls).NewCallCount = f.NewCallCount + calls.length := by
  induction calls generalizing f with
  | nil => simp [newAll]
  | cons c cs ih =>
    rw [newAll_cons]
    simp only [List.length_cons, Nat.cast_add, Nat.cast_one] at hhi ⊢
    have hstep : (f.New c.1 c.2).2.2.NewCallCount = f.NewCallCount + 1 := by
      simp only [FakePhaseFactory.New]
      exact wrapInt_of_bounds _ (by omega) (by omega)
    rw [ih (f.New c.1 c.2).2.2 (by rw [hstep]; omega) (by rw [hstep]; omega), hstep]
    ring

/-- The factory after a series of calls: the stand-in and, if there was a call, what the last
call recorded. -/
theorem newAll_fields {W : Type} (f : FakePhaseFactory W)
    (calls : List (String × PhaseConfigProvider)) :
    (newAll f calls).ReturnForNew = f.ReturnForNew ∧
    ∀ c, calls.getLast? = some c →
      (newAll f calls).NewCalledWithName = c.1 ∧
        (newAll f calls).NewCalledWithProvider = some c.2 := by
  induction calls generalizing f with
  | nil => simp [newAll]
  | cons c cs ih =>
    rw [newAll_cons]
    obtain ⟨h2, h3⟩ := ih (f.New c.1 c.2).2.2
    refine ⟨?_, fun d hd => ?_⟩
    · rw [h2]
      rfl
    · cases cs with
      | nil =>
        simp only [List.getLast?_singleton, Option.some.injEq] at hd
        subst hd
        exact ⟨rfl, rfl⟩
      | cons c2 cs2 =>
        rw [List.getLast?_cons_cons] at hd
        exact h3 d hd

/-- C27 (as amended): the test-double factory's `New` increases `NewCallCount` by exactly 1
unless the count is the greatest `int`, 9223372036854775807, where it wraps around to the least,
-9223372036854775808; it records the name and the provider it was called with, returns the
pre-configured `ReturnForNew` with no error, and leaves the provider (and `ReturnForNew`)
unchanged; after `n` calls on a new test double, `n` at most 9223372036854775807,
`NewCallCount` is `n`, and after any number of calls the recorded name and provider are those of
the last call. -/
theorem FakePhaseFactory_New_spec {W : Type} (f : FakePhaseFactory W) (name : String)
    (provider : PhaseConfigProvider) :
    (MinInt64 ≤ f.NewCallCount → f.NewCallCount < MaxInt64 →
      (f.New name provider).2.2.NewCallCount = f.NewCallCount + 1) ∧
    (f.NewCallCount = MaxInt64 → (f.New name provider).2.2.NewCallCount = MinInt64) ∧
    (f.New name provider).2.2.NewCalledWithName = name ∧
    (f.New name provider).2.2.NewCalledWithProvider = some provider ∧
    (f.New name provider).1 = (f.ReturnForNew, none) ∧
    (f.New name provider).2.1 = provider ∧
    (f.New name provider).2.2.ReturnForNew = f.ReturnForNew ∧
    (∀ (fakePhase : RunnerCleaner W) (phase : Option (RunnerCleaner W))
        (calls : List (String × PhaseConfigProvider)),
      ((calls.length : Int) ≤ MaxInt64 →
        (newAll (NewFakePhaseFactory fakePhase []) calls).NewCallCount = calls.length ∧
        (newAll (NewFakePhaseFactory fakePhase [WhichReturnsForNew phase]) calls).NewCallCount =
          calls.length) ∧
      (newAll (NewFakePhaseFactory fakePhase [WhichReturnsForNew phase]) calls).ReturnForNew =
        phase ∧
      ∀ c, calls.getLast? = some c →
        (newAll (NewFakePhaseFactory fakePhase [WhichReturnsForNew phase])
            calls).NewCalledWithName = c.1 ∧
          (newAll (NewFakePhaseFactory fakePhase [WhichReturnsForNew phase])
            calls).NewCalledWithProvider = some c.2) := by
  refine ⟨fun hlo hhi => ?_, fun hmax => ?_, rfl, rfl, rfl, rfl, rfl,
    fun fakePhase phase calls => ⟨fun hn => ⟨?_, ?_⟩, ?_, ?_⟩⟩
  · simp only [FakePhaseFactory.New]
    unfold MinInt64 at hlo
    unfold MaxInt64 at hhi
    exact wrapInt_of_bounds _ (by unfold MinInt64; omega) (by unfold MaxInt64; omega)
  · simp only [FakePhaseFactory.New, hmax]
    decide
  · rw [newAll_count (NewFakePhaseFactory fakePhase []) calls
      (by simp only [NewFakePhaseFactory, List.foldl_nil]; decide)
      (by simpa [NewFakePhaseFactory] using hn)]
    simp [NewFakePhaseFactory]
  · rw [newAll_count (NewFakePhaseFactory fakePhase [WhichReturnsForNew phase]) calls
      (by simp only [NewFakePhaseFactory, List.foldl_cons, List.foldl_nil, WhichReturnsForNew]
          decide)
      (by simpa [NewFakePhaseFactory, WhichReturnsForNew] using hn)]
    simp [NewFakePhaseFactory, WhichReturnsForNew]
  · rw [(newAll_fields (NewFakePhaseFactory fakePhase [WhichReturnsForNew phase]) calls).1]
    rfl
  · exact (newAll_fields (NewFakePhaseFactory fakePhase [WhichReturnsForNew phase]) calls).2

/-- Worked instance of C27 as amended: the first call on a new test double takes the count from
0 to 1, and after two calls, for `detector` and then `builder`, the count is 2 and the recorded
name and provider are those of `builder`. -/
theorem FakePhaseFactory_New_spec_witness :
    MinInt64 ≤ (NewFakePhaseFactory (fixedPhase none none) []).NewCallCount ∧
    (NewFakePhaseFactory (fixedPhase none none) []).NewCallCount < MaxInt64 ∧
    ((NewFakePhaseFactory (fixedPhase none none) []).New "detector"
        (newProvider "detector")).2.2.NewCallCount =
      (NewFakePhaseFactory (fixedPhase none none) []).NewCallCount + 1 ∧
    (([("detector", newProvider "detector"), ("builder", newProvider "builder")].length : Int) ≤
      MaxInt64) ∧
    (newAll (NewFakePhaseFactory (fixedPhase none none)
        [WhichReturnsForNew (some (fixedPhase (some (GoError.base "run failed")) none))])
        [("detector", newProvider "detector"), ("builder", newProvider "builder")]).NewCallCount =
      ([("detector", newProvider "detector"), ("builder", newProvider "builder")].length : Int) ∧
    [("detector", newProvider "detector"), ("builder", newProvider "builder")].getLast? =
      some ("builder", newProvider "builder") ∧
    (newAll (NewFakePhaseFactory (fixedPhase none none)
        [WhichReturnsForNew (some (fixedPhase (some (GoError.base "run failed")) none))])
        [("detector", newProvider "detector"),
          ("builder", newProvider "builder")]).NewCalledWithName = "builder" ∧
    (newAll (NewFakePhaseFactory (fixedPhase none none)
        [WhichReturnsForNew (some (fixedPhase (some (GoError.base "run failed")) none))])
        [("detector", newProvider "detector"),
          ("builder", newProvider "builder")]).NewCalledWithProvider =
      some (newProvider "builder") :=
  ⟨by decide, by decide,
    (FakePhaseFactory_New_spec (NewFakePhaseFactory (fixedPhase none none) []) "detector"
      (newProvider "detector")).1 (by decide) (by decide),
    by decide,
    (((FakePhaseFactory_New_spec (NewFakePhaseFactory (fixedPhase none none) []) "detector"
      (newProvider "detector")).2.2.2.2.2.2.2 (fixedPhase none none)
      (some (fixedPhase (some (GoError.base "run failed")) none))
      [("detector", newProvider "detector"), ("builder", newProvider "builder")]).1
      (by decide)).2,
    rfl,
    ((FakePhaseFactory_New_spec (NewFakePhaseFactory (fixedPhase none none) []) "detector"
      (newProvider "detector")).2.2.2.2.2.2.2 (fixedPhase none none)
      (some (fixedPhase (some (GoError.base "run failed")) none))
      [("detector", newProvider "detector"), ("builder", newProvider "builder")]).2.2
      ("builder", newProvider "builder") rfl⟩

/-- C27 fails as stated: on a test double whose exported `NewCallCount` holds the greatest `int`,
9223372036854775807, `New` leaves -9223372036854775808 in it, which is not the count plus 1. -/
theorem FakePhaseFactory_New_spec_counterexample :
    (({ NewCallCount := 9223372036854775807
        ReturnForNew := some (fixedPhase none none)
        NewCalledWithName := ""
        NewCalledWithProvider := none } : FakePhaseFactory Unit).New "detector"
      (newProvider "detector")).2.2.NewCallCount = -9223372036854775808 ∧
    (({ NewCallCount := 9223372036854775807
        ReturnForNew := some (fixedPhase none none)
        NewCalledWithName := ""
        NewCalledWithProvider := none } : FakePhaseFactory Unit).New "detector"
      (newProvider "detector")).2.2.NewCallCount ≠ 9223372036854775807 + 1 := by
  constructor <;> decide

end fakes

/-! ## The Windows layer writer -/

namespace layer

/-- A clean element on characters. -/
theorem splitSlash_of_no_slash (e : List Char) (h : '/' ∉ e) : splitSlash e = [e] := by
  induction e with
  | nil => rfl
  | cons c e ih =>
    simp only [List.mem_cons, not_or] at h
    simp [splitSlash, Ne.symm h.1, ih h.2]

theorem splitSlash_append_slash (e rest : List Char) (h : '/' ∉ e) :
    splitSlash (e ++ '/' :: rest) = e :: splitSlash rest := by
  induction e with
  | nil => simp [splitSlash]
  | cons c e ih =>
    simp only [List.mem_cons, not_or] at h
    simp [splitSlash, Ne.symm h.1, ih h.2]

theorem joinSlash_cons_cons (e e1 : List Char) (rest : List (List Char)) :
    joinSlash (e :: e1 :: rest) = e ++ '/' :: joinSlash (e1 :: rest) := rfl

theorem joinSlash_append_singleton (es : List (List Char)) (c : List Char) (hes : es ≠ []) :
    joinSlash (es ++ [c]) = joinSlash es ++ '/' :: c := by
  induction es with
  | nil => exact absurd rfl hes
  | cons e rest ih =>
    cases rest with
    | nil => rfl
    | cons e1 rest1 =>
      have := ih (by simp)
      simp only [List.cons_append] at this ⊢
      rw [joinSlash_cons_cons, this, joinSlash_cons_cons]
      simp

/-- Splitting what was joined, followed by a slash and more, gives the elements back. -/
theorem splitSlash_joinSlash_append (es : List (List Char)) (rest : List Char) (hes : es ≠ [])
    (h : ∀ e ∈ es, '/' ∉ e) :
    splitSlash (joinSlash es ++ '/' :: rest) = es ++ splitSlash rest := by
  induction es with
  | nil => exact absurd rfl hes
  | cons e tl ih =>
    cases tl with
    | nil =>
      simp only [joinSlash, List.singleton_append]
      exact splitSlash_append_slash e rest (h e (List.mem_cons_self _ _))
    | cons e1 tl1 =>
      rw [joinSlash_cons_cons, List.append_assoc, List.cons_append,
        splitSlash_append_slash e _ (h e (List.mem_cons_self _ _)),
        ih (by simp) (fun x hx => h x (List.mem_cons_of_mem _ hx))]
      rfl

theorem splitSlash_joinSlash (es : List (List Char)) (hes : es ≠ [])
    (h : ∀ e ∈ es, '/' ∉ e) : splitSlash (joinSlash es) = es := by
  induction es with
  | nil => exact absurd rfl hes
  | cons e tl ih =>
    cases tl with
    | nil => exact splitSlash_of_no_slash e (h e (List.mem_cons_self _ _))
    | cons e1 tl1 =>
      rw [joinSlash_cons_cons, splitSlash_append_slash e _ (h e (List.mem_cons_self _ _)),
        ih (by simp) (fun x hx => h x (List.mem_cons_of_mem _ hx))]


/-- On elements that are neither `.` nor `..`, the element pass of `Clean` only drops the empty
ones. -/
theorem cleanElems_of_no_dots (rooted : Bool) (es out : List (List Char))
    (h : ∀ e ∈ es, e ≠ ['.'] ∧ e ≠ ['.', '.']) :
    cleanElems rooted es out = out.reverse ++ es.filter (fun e => decide (e ≠ [])) := by
  induction es generalizing out with
  | nil => simp [cleanElems]
  | cons e tl ih =>
    have he := h e (List.mem_cons_self _ _)
    have htl := fun x hx => h x (List.mem_cons_of_mem _ hx)
    by_cases hnil : e = []
    · subst hnil
      simp [cleanElems, ih out htl]
    · simp [cleanElems, hnil, he.1, he.2, ih (e :: out) htl]

/-- What `Clean` returns on a non-empty path none of whose elements is `.` or `..`. -/
theorem cleanChars_of_no_dots (p : List Char) (hp : p ≠ [])
    (h : ∀ e ∈ splitSlash p, e ≠ ['.'] ∧ e ≠ ['.', '.']) :
    cleanChars p =
      if p.head? = some '/' then
        '/' :: joinSlash ((splitSlash p).filter (fun e => decide (e ≠ [])))
      else if (splitSlash p).filter (fun e => decide (e ≠ [])) = [] then ['.']
      else joinSlash ((splitSlash p).filter (fun e => decide (e ≠ []))) := by
  unfold cleanChars
  rw [if_neg hp, cleanElems_of_no_dots true _ [] h, cleanElems_of_no_dots false _ [] h]
  simp

theorem filter_nonempty_of_names (es : List (List Char)) (h : ∀ e ∈ es, e ≠ []) :
    es.filter (fun e => decide (e ≠ [])) = es := by
  rw [List.filter_eq_self]
  intro e he
  simpa using h e he

theorem joinSlash_head (es : List (List Char)) (e : List Char) (he : e ≠ []) (hs : '/' ∉ e) :
    (joinSlash (e :: es)).head? ≠ some '/' ∧ joinSlash (e :: es) ≠ [] := by
  cases e with
  | nil => exact absurd rfl he
  | cons c cs =>
    simp only [List.mem_cons, not_or] at hs
    cases es with
    | nil => simpa [joinSlash] using fun h => hs.1 h.symm
    | cons e1 rest => simpa [joinSlash] using fun h => hs.1 h.symm

/-- A relative path of clean elements is clean. -/
theorem cleanChars_joinSlash (es : List (List Char)) (hes : es ≠ [])
    (h : ∀ e ∈ es, e ≠ [] ∧ '/' ∉ e ∧ e ≠ ['.'] ∧ e ≠ ['.', '.']) :
    cleanChars (joinSlash es) = joinSlash es := by
  obtain ⟨e, tl, rfl⟩ := List.exists_cons_of_ne_nil hes
  have hhead := joinSlash_head tl e (h e (List.mem_cons_self _ _)).1
    (h e (List.mem_cons_self _ _)).2.1
  have hsplit := splitSlash_joinSlash (e :: tl) hes (fun x hx => (h x hx).2.1)
  rw [cleanChars_of_no_dots _ hhead.2 (by rw [hsplit]; exact fun x hx => (h x hx).2.2),
    hsplit, filter_nonempty_of_names _ (fun x hx => (h x hx).1), if_neg hhead.1,
    if_neg (by simp)]


theorem joinSlash_cons_of_ne_nil (e : List Char) (es : List (List Char)) (hes : es ≠ []) :
    joinSlash (e :: es) = e ++ '/' :: joinSlash es := by
  obtain ⟨e1, tl, rfl⟩ := List.exists_cons_of_ne_nil hes
  rfl

/-- Joining a clean element with a rooted clean path, as `layerFilesPath` does, and cleaning. -/
theorem cleanChars_name_slash_abs (e : List Char) (cs : List (List Char)) (hcs : cs ≠ [])
    (he : e ≠ [] ∧ '/' ∉ e ∧ e ≠ ['.'] ∧ e ≠ ['.', '.'])
    (h : ∀ c ∈ cs, c ≠ [] ∧ '/' ∉ c ∧ c ≠ ['.'] ∧ c ≠ ['.', '.']) :
    cleanChars (e ++ '/' :: '/' :: joinSlash cs) = joinSlash (e :: cs) := by
  have hsplit : splitSlash (e ++ '/' :: '/' :: joinSlash cs) = e :: [] :: cs := by
    rw [splitSlash_append_slash e _ he.2.1]
    simp [splitSlash, splitSlash_joinSlash cs hcs (fun x hx => (h x hx).2.1)]
  have hne : e ++ '/' :: '/' :: joinSlash cs ≠ [] := by simp
  have hhead : (e ++ '/' :: '/' :: joinSlash cs).head? ≠ some '/' := by
    obtain ⟨c0, tl, rfl⟩ := List.exists_cons_of_ne_nil he.1
    have := he.2.1
    simp only [List.mem_cons, not_or] at this
    simpa using fun h => this.1 h.symm
  rw [cleanChars_of_no_dots _ hne, hsplit, if_neg hhead]
  · have hf : List.filter (fun e => decide (e ≠ [])) (e :: [] :: cs) = e :: cs := by
      rw [List.filter_cons_of_pos (by simpa using he.1), List.filter_cons_of_neg (by simp),
        filter_nonempty_of_names cs (fun x hx => (h x hx).1)]
    rw [hf]
    simp
  · rw [hsplit]
    intro x hx
    simp only [List.mem_cons] at hx
    rcases hx with rfl | rfl | hx
    · exact ⟨he.2.2.1, he.2.2.2⟩
    · simp
    · exact (h x hx).2.2

theorem dirChars_append_slash (x c : List Char) (hc : '/' ∉ c) :
    dirChars (x ++ '/' :: c) = x ++ ['/'] := by
  induction x with
  | nil => simp [dirChars, hc]
  | cons a x ih => simp [dirChars, ih]

/-- The directory of a rooted clean path is the rooted path of all its elements but the last. -/
theorem cleanChars_dirChars_abs (pre : List (List Char)) (c : List Char)
    (hc : '/' ∉ c)
    (h : ∀ e ∈ pre, e ≠ [] ∧ '/' ∉ e ∧ e ≠ ['.'] ∧ e ≠ ['.', '.']) :
    cleanChars (dirChars ('/' :: joinSlash (pre ++ [c]))) = '/' :: joinSlash pre := by
  by_cases hpre : pre = []
  · subst hpre
    have : dirChars ('/' :: joinSlash ([] ++ [c])) = ['/'] := by
      simpa [joinSlash] using dirChars_append_slash [] c hc
    rw [this]
    decide
  · have hd : dirChars ('/' :: joinSlash (pre ++ [c])) = '/' :: joinSlash pre ++ ['/'] := by
      rw [joinSlash_append_singleton pre c hpre]
      exact dirChars_append_slash ('/' :: joinSlash pre) c hc
    have hsplit : splitSlash ('/' :: joinSlash pre ++ ['/']) = [] :: (pre ++ [[]]) := by
      have := splitSlash_joinSlash_append pre [] hpre (fun x hx => (h x hx).2.1)
      show splitSlash ('/' :: (joinSlash pre ++ ['/'])) = _
      rw [splitSlash, if_pos rfl, this]
      rfl
    rw [hd, cleanChars_of_no_dots _ (by simp), hsplit]
    · have hf : List.filter (fun e => decide (e ≠ [])) ([] :: (pre ++ [[]])) = pre := by
        rw [List.filter_cons_of_neg (by simp), List.filter_append,
          filter_nonempty_of_names pre (fun x hx => (h x hx).1)]
        simp
      rw [hf]
      simp
    · rw [hsplit]
      intro x hx
      simp only [List.mem_cons, List.mem_append, List.mem_singleton, List.not_mem_nil,
        or_false] at hx
      rcases hx with rfl | hx | rfl
      · simp
      · exact (h x hx).2.2
      · simp

theorem splitSlash_abs (pre : List (List Char)) (h : ∀ e ∈ pre, '/' ∉ e) :
    splitSlash ('/' :: joinSlash pre) = [] :: (if pre = [] then [[]] else pre) := by
  by_cases hpre : pre = []
  · subst hpre
    rfl
  · simp [splitSlash, splitSlash_joinSlash pre hpre h, hpre]


/-! ### The same on strings -/

theorem mk_eq_empty (l : List Char) : String.mk l = "" ↔ l = [] := by
  constructor
  · intro h
    exact congrArg String.data h
  · rintro rfl
    rfl

theorem files_is_name :
    "Files".toList ≠ [] ∧ '/' ∉ "Files".toList ∧ "Files".toList ≠ ['.'] ∧
      "Files".toList ≠ ['.', '.'] := by
  decide

theorem Join_empty_empty : path.Join ["", ""] = "" := by
  decide

/-- One step of the loop: the path so far joined with the next element. -/
theorem Join_step (done : List (List Char)) (part : List Char)
    (h : ∀ e ∈ done ++ [part], e ≠ [] ∧ '/' ∉ e ∧ e ≠ ['.'] ∧ e ≠ ['.', '.']) :
    path.Join [String.mk (joinSlash done), String.mk part] =
      String.mk (joinSlash (done ++ [part])) := by
  have hpart := h part (by simp)
  unfold path.Join joinChars
  simp only [List.map_cons, List.map_nil, String.toList]
  congr 1
  by_cases hdone : done = []
  · subst hdone
    have hf : List.filter (fun e => decide (e ≠ [])) [joinSlash [], part] = [part] := by
      rw [List.filter_cons_of_neg (by simp [joinSlash]),
        List.filter_cons_of_pos (by simpa using hpart.1)]
      rfl
    rw [hf, if_neg (by simp)]
    exact cleanChars_joinSlash [part] (by simp) (by simpa using hpart)
  · obtain ⟨e, tl, rfl⟩ := List.exists_cons_of_ne_nil hdone
    have he := h e (by simp)
    have hj := joinSlash_head tl e he.1 he.2.1
    have hf : List.filter (fun e => decide (e ≠ [])) [joinSlash (e :: tl), part] =
        [joinSlash (e :: tl), part] := by
      rw [List.filter_cons_of_pos (by simpa using hj.2),
        List.filter_cons_of_pos (by simpa using hpart.1)]
      rfl
    rw [hf, if_neg (by simp)]
    have : joinSlash [joinSlash (e :: tl), part] = joinSlash ((e :: tl) ++ [part]) := by
      rw [joinSlash_append_singleton _ _ hdone]
      rfl
    rw [this]
    exact cleanChars_joinSlash _ (by simp) h

/-- `layerFilesPath` of a relative clean path puts `Files` in front. -/
theorem layerFilesPath_rel (ds : List (List Char)) (hds : ds ≠ [])
    (h : ∀ e ∈ ds, e ≠ [] ∧ '/' ∉ e ∧ e ≠ ['.'] ∧ e ≠ ['.', '.']) :
    layerFilesPath (String.mk (joinSlash ds)) = String.mk (joinSlash ("Files".toList :: ds)) := by
  obtain ⟨e, tl, rfl⟩ := List.exists_cons_of_ne_nil hds
  have he := h e (by simp)
  have hj := joinSlash_head tl e he.1 he.2.1
  unfold layerFilesPath path.Join joinChars
  simp only [List.map_cons, List.map_nil, String.toList]
  congr 1
  have hf : List.filter (fun e => decide (e ≠ [])) ["Files".data, joinSlash (e :: tl)] =
      ["Files".data, joinSlash (e :: tl)] := by
    rw [List.filter_cons_of_pos (by decide), List.filter_cons_of_pos (by simpa using hj.2)]
    rfl
  rw [hf, if_neg (by simp)]
  have hjoin : joinSlash ["Files".data, joinSlash (e :: tl)] =
      joinSlash ("Files".data :: e :: tl) := rfl
  rw [hjoin]
  exact cleanChars_joinSlash _ (by simp) (by
    intro x hx
    simp only [List.mem_cons] at hx
    rcases hx with rfl | hx
    · exact files_is_name
    · exact h x (by simpa using hx))

/-- `layerFilesPath` of a rooted clean path puts `Files` in front and drops the root. -/
theorem layerFilesPath_abs (cs : List (List Char)) (hcs : cs ≠ [])
    (h : ∀ e ∈ cs, e ≠ [] ∧ '/' ∉ e ∧ e ≠ ['.'] ∧ e ≠ ['.', '.']) :
    layerFilesPath (String.mk ('/' :: joinSlash cs)) =
      String.mk (joinSlash ("Files".toList :: cs)) := by
  unfold layerFilesPath path.Join joinChars
  simp only [List.map_cons, List.map_nil, String.toList]
  congr 1
  have hf : List.filter (fun e => decide (e ≠ [])) ["Files".data, '/' :: joinSlash cs] =
      ["Files".data, '/' :: joinSlash cs] := by
    rw [List.filter_cons_of_pos (by decide), List.filter_cons_of_pos (by simp)]
    rfl
  rw [hf, if_neg (by simp)]
  exact cleanChars_name_slash_abs "Files".data cs hcs files_is_name h

theorem Dir_abs (pre : List (List Char)) (c : List Char) (hc : '/' ∉ c)
    (h : ∀ e ∈ pre, e ≠ [] ∧ '/' ∉ e ∧ e ≠ ['.'] ∧ e ≠ ['.', '.']) :
    path.Dir (String.mk ('/' :: joinSlash (pre ++ [c]))) = String.mk ('/' :: joinSlash pre) := by
  unfold path.Dir
  exact congrArg String.mk (cleanChars_dirChars_abs pre c hc h)

theorem Split_abs (pre : List (List Char)) (h : ∀ e ∈ pre, '/' ∉ e) :
    strings.Split (String.mk ('/' :: joinSlash pre)) =
      "" :: (if pre = [] then [""] else pre.map String.mk) := by
  unfold strings.Split
  show (splitSlash ('/' :: joinSlash pre)).map String.mk = _
  rw [splitSlash_abs pre h]
  by_cases hpre : pre = [] <;> simp [hpre]


/-! ### The writer -/

theorem writeAll_append {T : Type} (tar : TarPkg T) (xs ys : List Header)
    (w : WindowsWriter T) :
    writeAll tar (xs ++ ys) w =
      match writeAll tar xs w with
      | (some err, w1) => (some err, w1)
      | (none, w1) => writeAll tar ys w1 := by
  induction xs generalizing w with
  | nil => rfl
  | cons h hs ih =>
    simp only [List.cons_append, writeAll]
    rcases w.tarWriteHeader tar h with ⟨_ | e, w1⟩
    · exact ih w1
    · rfl

/-- When all headers were accepted, they are the new entries. -/
theorem writeAll_entries {T : Type} (tar : TarPkg T) (hs : List Header) (w : WindowsWriter T)
    (h : (writeAll tar hs w).1 = none) : (writeAll tar hs w).2.entries = w.entries ++ hs := by
  induction hs generalizing w with
  | nil => simp [writeAll]
  | cons hd tl ih =>
    simp only [writeAll, WindowsWriter.tarWriteHeader] at h ⊢
    rcases hW : tar.WriteHeader hd w.tarWriter with ⟨_ | e, t⟩
    · rw [hW] at h
      simp only at h ⊢
      rw [ih _ h]
      simp
    · rw [hW] at h
      simp at h

/-- A tar writer that accepts every header makes `writeAll` succeed. -/
theorem writeAll_accepts {T : Type} (tar : TarPkg T) (hs : List Header) (w : WindowsWriter T)
    (hacc : ∀ h t, (tar.WriteHeader h t).1 = none) : (writeAll tar hs w).1 = none := by
  induction hs generalizing w with
  | nil => rfl
  | cons hd tl ih =>
    simp only [writeAll, WindowsWriter.tarWriteHeader]
    have hthis := hacc hd w.tarWriter
    rcases hW : tar.WriteHeader hd w.tarWriter with ⟨_ | e, t⟩
    · exact ih _
    · rw [hW] at hthis
      simp at hthis

/-- The entries are always a beginning of what was to be written. -/
theorem writeAll_entries_take {T : Type} (tar : TarPkg T) (hs : List Header)
    (w : WindowsWriter T) : ∃ k, (writeAll tar hs w).2.entries = w.entries ++ hs.take k := by
  induction hs generalizing w with
  | nil => exact ⟨0, by simp [writeAll]⟩
  | cons hd tl ih =>
    simp only [writeAll, WindowsWriter.tarWriteHeader]
    rcases tar.WriteHeader hd w.tarWriter with ⟨_ | e, t⟩
    · obtain ⟨k, hk⟩ := ih { tarWriter := t, entries := w.entries ++ [hd] }
      refine ⟨k + 1, ?_⟩
      simp only at hk ⊢
      rw [hk]
      simp
    · exact ⟨0, by simp⟩

theorem initializeLayer_eq {T : Type} (tar : TarPkg T) (w : WindowsWriter T) :
    w.initializeLayer tar =
      writeAll tar
        [({ Name := "Files", Typeflag := TypeDir, Size := 0 } : Header),
          { Name := "Hives", Typeflag := TypeDir, Size := 0 }] w := by
  unfold WindowsWriter.initializeLayer
  simp only [writeAll]

/-- The loop over clean elements writes one directory entry per element, each one level
deeper. -/
theorem writeParentPathsLoop_names {T : Type} (tar : TarPkg T) (done todo : List (List Char))
    (w : WindowsWriter T)
    (h : ∀ e ∈ done ++ todo, e ≠ [] ∧ '/' ∉ e ∧ e ≠ ['.'] ∧ e ≠ ['.', '.']) :
    writeParentPathsLoop tar (todo.map String.mk) (String.mk (joinSlash done)) w =
      writeAll tar
        ((List.range todo.length).map fun i =>
          { Name := String.mk (joinSlash ("Files".toList :: (done ++ todo.take (i + 1))))
            Typeflag := TypeDir
            Size := 0 }) w := by
  induction todo generalizing done w with
  | nil => rfl
  | cons part rest ih =>
    have hstep := Join_step done part (fun e he => h e (by
      rcases List.mem_append.mp he with he | he
      · exact List.mem_append.mpr (Or.inl he)
      · rw [List.mem_singleton] at he
        subst he
        exact List.mem_append.mpr (Or.inr (List.mem_cons_self _ _))))
    have hnames : ∀ e ∈ done ++ [part], e ≠ [] ∧ '/' ∉ e ∧ e ≠ ['.'] ∧ e ≠ ['.', '.'] :=
      fun e he => h e (by
        rcases List.mem_append.mp he with he | he
        · exact List.mem_append.mpr (Or.inl he)
        · rw [List.mem_singleton] at he
          subst he
          exact List.mem_append.mpr (Or.inr (List.mem_cons_self _ _)))
    have hne : done ++ [part] ≠ [] := by simp
    have hnonempty : String.mk (joinSlash (done ++ [part])) ≠ "" := by
      rw [Ne, mk_eq_empty]
      obtain ⟨e, tl, htl⟩ := List.exists_cons_of_ne_nil hne
      rw [htl]
      have he := hnames e (by rw [htl]; simp)
      exact (joinSlash_head tl e he.1 he.2.1).2
    simp only [List.map_cons, writeParentPathsLoop, hstep, if_neg hnonempty,
      layerFilesPath_rel _ hne hnames, List.length_cons, List.range_succ_eq_map, writeAll,
      List.take_succ_cons, List.take_zero]
    rcases w.tarWriteHeader tar _ with ⟨_ | e, w1⟩
    · simp only
      rw [ih (done ++ [part]) w1 (by simpa using h)]
      simp [List.map_map, Function.comp_def]
    · rfl


/-- The parent directories `writeParentPaths` writes for a rooted clean path. -/
theorem writeParentPaths_abs {T : Type} (tar : TarPkg T) (w : WindowsWriter T)
    (pre : List (List Char)) (c : List Char)
    (h : ∀ e ∈ pre ++ [c], e ≠ [] ∧ '/' ∉ e ∧ e ≠ ['.'] ∧ e ≠ ['.', '.']) :
    w.writeParentPaths tar (String.mk ('/' :: joinSlash (pre ++ [c]))) =
      writeAll tar
        ((List.range pre.length).map fun i =>
          { Name := String.mk (joinSlash ("Files".toList :: pre.take (i + 1)))
            Typeflag := TypeDir
            Size := 0 }) w := by
  have hpre : ∀ e ∈ pre, e ≠ [] ∧ '/' ∉ e ∧ e ≠ ['.'] ∧ e ≠ ['.', '.'] :=
    fun e he => h e (List.mem_append.mpr (Or.inl he))
  have hc := h c (List.mem_append.mpr (Or.inr (List.mem_singleton.mpr rfl)))
  unfold WindowsWriter.writeParentPaths
  rw [Dir_abs pre c hc.2.1 hpre, Split_abs pre (fun e he => (hpre e he).2.1)]
  simp only [writeParentPathsLoop, Join_empty_empty, if_true]
  by_cases hnil : pre = []
  · subst hnil
    simp [writeParentPathsLoop, Join_empty_empty, writeAll]
  · rw [if_neg hnil]
    have := writeParentPathsLoop_names tar [] pre w (by simpa using hpre)
    simpa [joinSlash] using this

/-- `WriteHeader` for a rooted clean path writes `Files`, `Hives`, the parent directories and the
renamed header, in this order, stopping at the first header the tar writer refuses. -/
theorem WriteHeader_abs {T : Type} (tar : TarPkg T) (w : WindowsWriter T) (header : Header)
    (pre : List (List Char)) (c : List Char)
    (h : ∀ e ∈ pre ++ [c], e ≠ [] ∧ '/' ∉ e ∧ e ≠ ['.'] ∧ e ≠ ['.', '.'])
    (hname : header.Name = String.mk ('/' :: joinSlash (pre ++ [c]))) :
    (w.WriteHeader tar header).1 =
      (writeAll tar
        ([({ Name := "Files", Typeflag := TypeDir, Size := 0 } : Header),
          { Name := "Hives", Typeflag := TypeDir, Size := 0 }] ++
          ((List.range pre.length).map fun i =>
            ({ Name := String.mk (joinSlash ("Files".toList :: pre.take (i + 1)))
               Typeflag := TypeDir
               Size := 0 } : Header)) ++
          [{ header with Name := String.mk (joinSlash ("Files".toList :: (pre ++ [c]))) }])
        w).1 ∧
    (w.WriteHeader tar header).2.2 =
      (writeAll tar
        ([({ Name := "Files", Typeflag := TypeDir, Size := 0 } : Header),
          { Name := "Hives", Typeflag := TypeDir, Size := 0 }] ++
          ((List.range pre.length).map fun i =>
            ({ Name := String.mk (joinSlash ("Files".toList :: pre.take (i + 1)))
               Typeflag := TypeDir
               Size := 0 } : Header)) ++
          [{ header with Name := String.mk (joinSlash ("Files".toList :: (pre ++ [c]))) }])
        w).2 ∧
    ((w.WriteHeader tar header).1 = none →
      (w.WriteHeader tar header).2.1 =
        { header with Name := String.mk (joinSlash ("Files".toList :: (pre ++ [c]))) }) := by
  unfold WindowsWriter.WriteHeader
  rw [initializeLayer_eq, hname, layerFilesPath_abs (pre ++ [c]) (by simp) h,
    writeAll_append, writeAll_append]
  rcases writeAll tar [({ Name := "Files", Typeflag := TypeDir, Size := 0 } : Header),
      { Name := "Hives", Typeflag := TypeDir, Size := 0 }] w with ⟨_ | e1, w1⟩
  · simp only
    rw [writeParentPaths_abs tar w1 pre c h]
    rcases writeAll tar _ w1 with ⟨_ | e2, w2⟩
    · simp only [writeAll]
      rcases w2.tarWriteHeader tar _ with ⟨_ | e3, w3⟩ <;> simp
    · simp
  · simp

theorem slash_append_mk (l : List Char) : "/" ++ String.mk l = String.mk ('/' :: l) := by
  apply String.ext
  rw [String.data_append]
  rfl


/-- The entries to be written for the path `/c1/.../cn`, in the two ways of writing them. -/
theorem expected_entries_eq (header : Header) (pre : List String) (c : String) :
    ([({ Name := "Files", Typeflag := TypeDir, Size := 0 } : Header),
        { Name := "Hives", Typeflag := TypeDir, Size := 0 }] ++
        ((List.range ((pre ++ [c]).length - 1)).map fun i =>
          ({ Name := slashPath ("Files" :: (pre ++ [c]).take (i + 1))
             Typeflag := TypeDir
             Size := 0 } : Header)) ++
        [{ header with Name := slashPath ("Files" :: (pre ++ [c])) }]) =
      [({ Name := "Files", Typeflag := TypeDir, Size := 0 } : Header),
        { Name := "Hives", Typeflag := TypeDir, Size := 0 }] ++
        ((List.range (pre.map String.toList).length).map fun i =>
          ({ Name := String.mk (joinSlash ("Files".toList :: (pre.map String.toList).take (i + 1)))
             Typeflag := TypeDir
             Size := 0 } : Header)) ++
        [{ header with
           Name := String.mk
            (joinSlash ("Files".toList :: (pre.map String.toList ++ [c.toList]))) }] := by
  have hlen : (pre ++ [c]).length - 1 = (pre.map String.toList).length := by simp
  have hmid : ((List.range ((pre ++ [c]).length - 1)).map fun i =>
        ({ Name := slashPath ("Files" :: (pre ++ [c]).take (i + 1))
           Typeflag := TypeDir
           Size := 0 } : Header)) =
      (List.range (pre.map String.toList).length).map fun i =>
        ({ Name := String.mk (joinSlash ("Files".toList :: (pre.map String.toList).take (i + 1)))
           Typeflag := TypeDir
           Size := 0 } : Header) := by
    rw [hlen]
    apply List.map_congr_left
    intro i hi
    rw [List.mem_range, List.length_map] at hi
    simp only [slashPath, List.map_cons, ← List.map_take]
    rw [List.take_append_of_le_length (by omega)]
  have hlast : ({ header with Name := slashPath ("Files" :: (pre ++ [c])) } : Header) =
      { header with
        Name := String.mk
          (joinSlash ("Files".toList :: (pre.map String.toList ++ [c.toList]))) } := by
    simp [slashPath]
  rw [hmid, hlast]

/-! ### Claims -/


/-- C24: for a header whose name is the absolute clean path `/c1/.../cn` (`n ≥ 1`, every `ci`
non-empty, without a slash, neither `.` nor `..`), `WriteHeader` on a new writer hands the tar
writer, in this order and nothing else, the directory entries `Files` and `Hives`, the directory
entry `Files/c1/.../ci` for each `i` from 1 to `n - 1`, and the given header renamed to
`Files/c1/.../cn`, all other fields as given; it returns nil when the tar writer accepts them
all, and what the archive holds is always a beginning of that list. -/
theorem WriteHeader_clean_path {T : Type} (tar : TarPkg T) (fresh : T) (cs : List String)
    (header : Header) (hcs : cs ≠ []) (hnames : ∀ c ∈ cs, isName c)
    (hname : header.Name = "/" ++ slashPath cs) :
    (((NewWindowsWriter fresh).WriteHeader tar header).1 = none →
      ((NewWindowsWriter fresh).WriteHeader tar header).2.2.entries =
          [({ Name := "Files", Typeflag := TypeDir, Size := 0 } : Header),
            { Name := "Hives", Typeflag := TypeDir, Size := 0 }] ++
            ((List.range (cs.length - 1)).map fun i =>
              ({ Name := slashPath ("Files" :: cs.take (i + 1))
                 Typeflag := TypeDir
                 Size := 0 } : Header)) ++
            [{ header with Name := slashPath ("Files" :: cs) }] ∧
        ((NewWindowsWriter fresh).WriteHeader tar header).2.1 =
          { header with Name := slashPath ("Files" :: cs) }) ∧
    ((∀ h t, (tar.WriteHeader h t).1 = none) →
      ((NewWindowsWriter fresh).WriteHeader tar header).1 = none) ∧
    (∃ k, ((NewWindowsWriter fresh).WriteHeader tar header).2.2.entries =
      ([({ Name := "Files", Typeflag := TypeDir, Size := 0 } : Header),
          { Name := "Hives", Typeflag := TypeDir, Size := 0 }] ++
          ((List.range (cs.length - 1)).map fun i =>
            ({ Name := slashPath ("Files" :: cs.take (i + 1))
               Typeflag := TypeDir
               Size := 0 } : Header)) ++
          [{ header with Name := slashPath ("Files" :: cs) }]).take k) := by
  obtain ⟨pre, c, rfl⟩ : ∃ pre c, cs = pre ++ [c] :=
    ⟨cs.dropLast, cs.getLast hcs, (List.dropLast_append_getLast hcs).symm⟩
  have hchars : ∀ e ∈ pre.map String.toList ++ [c.toList],
      e ≠ [] ∧ '/' ∉ e ∧ e ≠ ['.'] ∧ e ≠ ['.', '.'] := by
    intro e he
    rw [← List.map_singleton, ← List.map_append, List.mem_map] at he
    obtain ⟨s, hs, rfl⟩ := he
    exact hnames s hs
  have hname1 : header.Name =
      String.mk ('/' :: joinSlash (pre.map String.toList ++ [c.toList])) := by
    rw [hname, slashPath, slash_append_mk]
    simp
  obtain ⟨h1, h2, h3⟩ := WriteHeader_abs tar (NewWindowsWriter fresh) header
    (pre.map String.toList) c.toList hchars hname1
  have hrename : ({ header with Name := slashPath ("Files" :: (pre ++ [c])) } : Header) =
      { header with
        Name := String.mk
          (joinSlash ("Files".toList :: (pre.map String.toList ++ [c.toList]))) } := by
    simp [slashPath]
  rw [expected_entries_eq header pre c, hrename]
  refine ⟨fun hnone => ⟨?_, h3 hnone⟩, fun hacc => ?_, ?_⟩
  · rw [h2, writeAll_entries tar _ _ (by rw [← h1]; exact hnone)]
    rfl
  · rw [h1]
    exact writeAll_accepts tar _ _ hacc
  · rw [h2]
    obtain ⟨k, hk⟩ := writeAll_entries_take tar
      ([({ Name := "Files", Typeflag := TypeDir, Size := 0 } : Header),
        { Name := "Hives", Typeflag := TypeDir, Size := 0 }] ++
        ((List.range (pre.map String.toList).length).map fun i =>
          ({ Name := String.mk (joinSlash ("Files".toList :: (pre.map String.toList).take (i + 1)))
             Typeflag := TypeDir
             Size := 0 } : Header)) ++
        [{ header with
           Name := String.mk
            (joinSlash ("Files".toList :: (pre.map String.toList ++ [c.toList]))) }])
      (NewWindowsWriter fresh)
    exact ⟨k, by rw [hk]; rfl⟩

/-- Worked instance of C24, the case of the repository's test: the regular file
`/cnb/lifecycle/my-file`. -/
theorem WriteHeader_clean_path_witness :
    ["cnb", "lifecycle", "my-file"] ≠ [] ∧
    (∀ c ∈ ["cnb", "lifecycle", "my-file"], isName c) ∧
    "/cnb/lifecycle/my-file" = "/" ++ slashPath ["cnb", "lifecycle", "my-file"] ∧
    ((NewWindowsWriter ()).WriteHeader acceptingTar
        { Name := "/cnb/lifecycle/my-file", Typeflag := TypeReg, Size := 0 }).1 = none ∧
    ((NewWindowsWriter ()).WriteHeader acceptingTar
        { Name := "/cnb/lifecycle/my-file", Typeflag := TypeReg, Size := 0 }).2.2.entries =
      [({ Name := "Files", Typeflag := TypeDir, Size := 0 } : Header),
        { Name := "Hives", Typeflag := TypeDir, Size := 0 },
        { Name := "Files/cnb", Typeflag := TypeDir, Size := 0 },
        { Name := "Files/cnb/lifecycle", Typeflag := TypeDir, Size := 0 },
        { Name := "Files/cnb/lifecycle/my-file", Typeflag := TypeReg, Size := 0 }] :=
  have hnone := (WriteHeader_clean_path acceptingTar () ["cnb", "lifecycle", "my-file"]
    { Name := "/cnb/lifecycle/my-file", Typeflag := TypeReg, Size := 0 } (by decide)
    (by decide) (by decide)).2.1 (fun _ _ => rfl)
  ⟨by decide, by decide, by decide, hnone,
    ((WriteHeader_clean_path acceptingTar () ["cnb", "lifecycle", "my-file"]
      { Name := "/cnb/lifecycle/my-file", Typeflag := TypeReg, Size := 0 } (by decide)
      (by decide) (by decide)).1 hnone).1.trans (by decide)⟩

/-- C25, the code at the failing input: `Close` on a new writer only closes the tar writer; the
archive holds no entry, neither `Files` nor `Hives`. -/
theorem Close_of_new_writer {T : Type} (tar : TarPkg T) (fresh : T) :
    ((NewWindowsWriter fresh).Close tar).1 = (tar.Close fresh).1 ∧
    ((NewWindowsWriter fresh).Close tar).2.entries = [] ∧
    ((NewWindowsWriter ()).Close acceptingTar).1 = none ∧
    ((NewWindowsWriter ()).Close acceptingTar).2.entries ≠
      [({ Name := "Files", Typeflag := TypeDir, Size := 0 } : Header),
        { Name := "Hives", Typeflag := TypeDir, Size := 0 }] :=
  ⟨rfl, rfl, rfl, by decide⟩

end layer
